import Mathlib

/-!
# DACO story editor: the export compositor (`js/export.js`)

A shallow embedding of `ExportManager` and of the parts of the browser it talks to
(the 2D canvas context, the DOM rectangles and computed styles it reads).

Conventions of the embedding

* JavaScript strings are lists of characters (`Str`).
* JavaScript numbers are `JSNum`: an exact rational, or one of the three special
  values `+Infinity`, `-Infinity`, `NaN`.  Arithmetic on finite values is exact
  (binary rounding is not modelled) and zero is unsigned (a division of a non-zero
  number by zero takes the sign of the numerator).  The line positions of
  `drawWrappedText`, the one place where exactness is claimed, are given a second
  time with every operation rounded to a double (`Binary`, `lineY`).
* The canvas context is a record of its drawing state together with the list of
  drawing calls issued on it, each text or fill call carrying the state in effect.
  Its setters ignore the values the canvas ignores (a line width that is not positive,
  a shadow offset that is not finite, a string that is not a colour).
* What the browser decides is a parameter (`Browser`): the width `measureText` reports,
  which strings are colours, whether an image loads.  What the export reads from the
  page is a value (`Page`): the rectangles, computed styles and texts of the elements.
* `async` functions run to completion in program order; a rejected promise is
  `Except.error`, and the calls of `updateProgress` are returned as a list.
* What `exportImage` and `batchExport` do to the page and the user is a list of
  effects (`Effect`): progress reports, canvases created, downloads, notifications.
  The encoder behind `canvas.toBlob` and the clock are parameters (`Host`); a blob has
  the MIME type that was asked of the encoder.  The clipboard, the Web Share API and
  the print window are parameters too (`Navigator`).
* Undo and redo (`app.js`, `canvas.js`) run on `AppState`: the stacks, the text
  elements of the document and the map of the canvas manager; generated ids, the clock
  and the styling of elements are parameters (`Editor`).

The definitions come first, in the order of `export.js`; the theorems follow.
-/

namespace DACO

/-- JavaScript strings. -/
abbrev Str := List Char

/-- The space character, the separator of `text.split(' ')`. -/
def space : Char := Char.ofNat 32

/-! ## JavaScript numbers -/

/-- A JavaScript number: a finite value or one of the IEEE special values. -/
inductive JSNum where
  | fin (q : ℚ)
  | posInf
  | negInf
  | nan
  deriving DecidableEq

namespace JSNum

/-- The infinity of the given sign. -/
def signedInf (positive : Bool) : JSNum := if positive then posInf else negInf

/-- Unary minus. -/
def neg : JSNum → JSNum
  | fin a => fin (-a)
  | posInf => negInf
  | negInf => posInf
  | nan => nan

/-- JavaScript `+` on numbers. -/
def add : JSNum → JSNum → JSNum
  | fin a, fin b => fin (a + b)
  | fin _, posInf => posInf
  | fin _, negInf => negInf
  | posInf, fin _ => posInf
  | posInf, posInf => posInf
  | posInf, negInf => nan
  | negInf, fin _ => negInf
  | negInf, negInf => negInf
  | negInf, posInf => nan
  | nan, _ => nan
  | _, nan => nan

/-- JavaScript `-` on numbers. -/
def sub (a b : JSNum) : JSNum := add a (neg b)

/-- JavaScript `*` on numbers. -/
def mul : JSNum → JSNum → JSNum
  | fin a, fin b => fin (a * b)
  | fin a, posInf => if a = 0 then nan else signedInf (decide (0 < a))
  | fin a, negInf => if a = 0 then nan else signedInf (decide (a < 0))
  | posInf, fin b => if b = 0 then nan else signedInf (decide (0 < b))
  | negInf, fin b => if b = 0 then nan else signedInf (decide (b < 0))
  | posInf, posInf => posInf
  | posInf, negInf => negInf
  | negInf, posInf => negInf
  | negInf, negInf => posInf
  | nan, _ => nan
  | _, nan => nan

/-- JavaScript `/` on numbers. -/
def div : JSNum → JSNum → JSNum
  | fin a, fin b =>
    if b = 0 then (if a = 0 then nan else signedInf (decide (0 < a))) else fin (a / b)
  | fin _, posInf => fin 0
  | fin _, negInf => fin 0
  | posInf, fin b => signedInf (decide (0 ≤ b))
  | negInf, fin b => signedInf (decide (b < 0))
  | posInf, posInf => nan
  | posInf, negInf => nan
  | negInf, posInf => nan
  | negInf, negInf => nan
  | nan, _ => nan
  | _, nan => nan

/-- JavaScript `a > b`: false as soon as one side is `NaN`. -/
def gt : JSNum → JSNum → Bool
  | fin a, fin b => decide (b < a)
  | fin _, negInf => true
  | posInf, fin _ => true
  | posInf, negInf => true
  | _, _ => false

/-- JavaScript `a <= b`: false as soon as one side is `NaN`. -/
def le : JSNum → JSNum → Bool
  | fin a, fin b => decide (a ≤ b)
  | fin _, posInf => true
  | negInf, fin _ => true
  | negInf, negInf => true
  | negInf, posInf => true
  | posInf, posInf => true
  | _, _ => false

/-- Whether the number is finite (neither an infinity nor `NaN`). -/
def isFinite : JSNum → Bool
  | fin _ => true
  | _ => false

instance : Add JSNum := ⟨add⟩
instance : Sub JSNum := ⟨sub⟩
instance : Mul JSNum := ⟨mul⟩
instance : Div JSNum := ⟨div⟩
instance : Neg JSNum := ⟨neg⟩

/-- A natural number literal of the program as a JavaScript number. -/
def ofNat (n : ℕ) : JSNum := fin (n : ℚ)

end JSNum

/-! ## Line breaking: `drawWrappedText`, lines 270-289 -/

/-- JavaScript `text.split(' ')`: cut at every single space; two spaces in a row, a
leading or a trailing space give an empty word, and the empty text gives one empty word. -/
def splitSpace (text : Str) : List Str := text.splitOn space

/-- One turn of the loop `for (const word of words)` of `drawWrappedText`.  The state is
the pair `(lines, currentLine)`; an empty `currentLine` is falsy. -/
def breakStep (measure : Str → ℚ) (maxWidth : JSNum) (st : List Str × Str) (word : Str) :
    List Str × Str :=
  let testLine := st.2 ++ (if st.2 ≠ [] then [space] else []) ++ word
  if JSNum.gt (JSNum.fin (measure testLine)) maxWidth && decide (st.2 ≠ []) then
    (st.1 ++ [st.2], word)
  else
    (st.1, testLine)

/-- The state `(lines, currentLine)` of `drawWrappedText` when its loop is over. -/
def breakLoop (measure : Str → ℚ) (maxWidth : JSNum) (text : Str) : List Str × Str :=
  (splitSpace text).foldl (breakStep measure maxWidth) ([], [])

/-- The array `lines` of `drawWrappedText` once the last line has been pushed
(`if (currentLine) lines.push(currentLine)`). -/
def breakIntoLines (measure : Str → ℚ) (maxWidth : JSNum) (text : Str) : List Str :=
  let st := breakLoop measure maxWidth text
  if st.2 ≠ [] then st.1 ++ [st.2] else st.1

/-! ### The greedy word-wrap as the specification words it -/

/-- One word of the greedy word-wrap of the specification: the word is appended to the
current line (after one space when the line is non-empty) if the extended line measures
at most `maxWidth`; otherwise the current line is committed and the word starts a new
line. -/
def greedyStep (measure : Str → ℚ) (maxWidth : JSNum) (st : List Str × Str) (word : Str) :
    List Str × Str :=
  let extended := st.2 ++ (if st.2 ≠ [] then [space] else []) ++ word
  if JSNum.le (JSNum.fin (measure extended)) maxWidth then
    (st.1, extended)
  else
    (st.1 ++ [st.2], word)

/-- The greedy word-wrap of the specification: split on single spaces, run `greedyStep`
over the words, commit the last line at the end. -/
def greedyWrap (measure : Str → ℚ) (maxWidth : JSNum) (text : Str) : List Str :=
  let st := (splitSpace text).foldl (greedyStep measure maxWidth) ([], [])
  st.1 ++ [st.2]

/-! ## Parsing numbers out of CSS strings -/

/-- The white space skipped by `parseInt` and `parseFloat` and matched by `\s`. -/
def isJSWhitespace (c : Char) : Bool :=
  c.toNat ∈ [9, 10, 11, 12, 13, 32, 160, 5760, 8232, 8233, 8239, 8287, 12288, 65279]
    || (8192 ≤ c.toNat && c.toNat ≤ 8202)

/-- A line terminator, which `.` of a regular expression does not match. -/
def isLineTerminator (c : Char) : Bool := c.toNat ∈ [10, 13, 8232, 8233]

/-- A decimal digit, `\d`. -/
def isDigit (c : Char) : Bool := 48 ≤ c.toNat && c.toNat ≤ 57

/-- A hexadecimal digit, `[0-9a-f]` under the flag `i`. -/
def isHexDigit (c : Char) : Bool :=
  isDigit c || (97 ≤ c.toNat && c.toNat ≤ 102) || (65 ≤ c.toNat && c.toNat ≤ 70)

/-- A word character, `\w`. -/
def isWordChar (c : Char) : Bool :=
  isDigit c || (97 ≤ c.toNat && c.toNat ≤ 122) || (65 ≤ c.toNat && c.toNat ≤ 90) || c.toNat = 95

/-- The value of a hexadecimal digit. -/
def hexValue (c : Char) : ℕ :=
  if isDigit c then c.toNat - 48
  else if 97 ≤ c.toNat then c.toNat - 87
  else c.toNat - 55

/-- The number written by a run of digits in the given radix. -/
def digitsValue (radix : ℕ) (ds : Str) : ℕ := ds.foldl (fun n c => radix * n + hexValue c) 0

/-- The sign read by `parseInt` and `parseFloat`, and what follows it. -/
def readSign : Str → Bool × Str
  | '-' :: r => (true, r)
  | '+' :: r => (false, r)
  | s => (false, s)

/-- JavaScript `parseInt(s)` without a radix: leading white space, a sign, `0x` for
radix 16, then the longest run of digits; `NaN` when there is no digit. -/
def parseInt (s : Str) : JSNum :=
  let signed := readSign (s.dropWhile isJSWhitespace)
  let sign : ℚ := if signed.1 then -1 else 1
  match signed.2 with
  | '0' :: 'x' :: r | '0' :: 'X' :: r =>
    let ds := r.takeWhile isHexDigit
    if ds = [] then JSNum.nan else JSNum.fin (sign * (digitsValue 16 ds : ℚ))
  | r =>
    let ds := r.takeWhile isDigit
    if ds = [] then JSNum.nan else JSNum.fin (sign * (digitsValue 10 ds : ℚ))

/-- Whether `s` begins with `p`. -/
def startsWith (p s : Str) : Bool := s.take p.length == p

/-- The exponent part `e`, sign, digits of a decimal literal, when one is written. -/
def readExponent : Str → ℤ
  | c :: r =>
    if c = 'e' ∨ c = 'E' then
      let signed := readSign r
      let ds := signed.2.takeWhile isDigit
      if ds = [] then 0
      else if signed.1 then -(digitsValue 10 ds : ℤ) else (digitsValue 10 ds : ℤ)
    else 0
  | [] => 0

/-- JavaScript `parseFloat(s)`: leading white space, then the longest decimal literal
(sign, digits, fraction, exponent, or `Infinity`); `NaN` when there is none. -/
def parseFloat (s : Str) : JSNum :=
  let signed := readSign (s.dropWhile isJSWhitespace)
  let sign : ℚ := if signed.1 then -1 else 1
  if startsWith "Infinity".toList signed.2 then JSNum.signedInf (!signed.1)
  else
    let ip := signed.2.takeWhile isDigit
    let r := signed.2.dropWhile isDigit
    let fp := match r with
      | '.' :: r1 => r1.takeWhile isDigit
      | _ => []
    let r2 := match r with
      | '.' :: r1 => r1.dropWhile isDigit
      | _ => r
    if ip = [] ∧ fp = [] then JSNum.nan
    else
      JSNum.fin (sign * ((digitsValue 10 ip : ℚ) + (digitsValue 10 fp : ℚ) / 10 ^ fp.length)
        * 10 ^ readExponent r2)

/-! ## The 2D canvas context -/

/-- The value of `ctx.font`, kept as the three parts of the template string
(weight, size in px, family) the export builds it from. -/
structure CanvasFont where
  weight : Str
  sizePx : ℚ
  family : Str
  deriving DecidableEq

/-- The drawing state of a 2D context that the export reads or writes. -/
structure CanvasState where
  fillStyle : Str
  strokeStyle : Str
  lineWidth : ℚ
  font : CanvasFont
  textAlign : Str
  textBaseline : Str
  shadowColor : Str
  shadowOffsetX : ℚ
  shadowOffsetY : ℚ
  shadowBlur : ℚ
  filter : Str
  deriving DecidableEq

/-- The state of a context fresh from `canvas.getContext('2d')`: black fill and stroke,
line width 1, font `10px sans-serif`, no shadow, no filter. -/
def CanvasState.initial : CanvasState where
  fillStyle := "#000000".toList
  strokeStyle := "#000000".toList
  lineWidth := 1
  font := ⟨"normal".toList, 10, "sans-serif".toList⟩
  textAlign := "start".toList
  textBaseline := "alphabetic".toList
  shadowColor := "rgba(0, 0, 0, 0)".toList
  shadowOffsetX := 0
  shadowOffsetY := 0
  shadowBlur := 0
  filter := "none".toList

/-- A call issued on the context.  `fillRect`, `drawImage`, `strokeText` and `fillText`
carry the drawing state in effect when they are issued.  `rotate k` is `ctx.rotate(k * Math.PI)`:
the angle is kept as a multiple of pi. -/
inductive DrawOp where
  | fillRect (st : CanvasState) (x y w h : JSNum)
  | save
  | restore
  | translate (x y : JSNum)
  | rotate (halfTurns : JSNum)
  | scale (x y : JSNum)
  | drawImage (st : CanvasState) (src : Str) (dx dy dw dh : JSNum)
  | strokeText (st : CanvasState) (text : Str) (x y : JSNum)
  | fillText (st : CanvasState) (text : Str) (x y : JSNum)
  deriving DecidableEq

/-- A 2D context: its current state and the calls issued so far, oldest first. -/
structure Ctx where
  state : CanvasState
  calls : List DrawOp
  deriving DecidableEq

/-- The context of a newly created canvas. -/
def Ctx.fresh : Ctx := ⟨CanvasState.initial, []⟩

/-- Record one call. -/
def Ctx.push (ctx : Ctx) (op : DrawOp) : Ctx := { ctx with calls := ctx.calls ++ [op] }

/-- What the export needs from the browser: the width `measureText` reports for a text
under a drawing state, which strings parse as a CSS colour, and whether the image at a
given address loads. -/
structure Browser where
  measureText : CanvasState → Str → ℚ
  validColor : Str → Bool
  imageLoads : Str → Bool

/-- The setter of `ctx.fillStyle`: a string that is not a colour is ignored. -/
def Ctx.setFillStyle (b : Browser) (ctx : Ctx) (v : Str) : Ctx :=
  if b.validColor v then { ctx with state := { ctx.state with fillStyle := v } } else ctx

/-- The setter of `ctx.strokeStyle`: a string that is not a colour is ignored. -/
def Ctx.setStrokeStyle (b : Browser) (ctx : Ctx) (v : Str) : Ctx :=
  if b.validColor v then { ctx with state := { ctx.state with strokeStyle := v } } else ctx

/-- The setter of `ctx.shadowColor`: a string that is not a colour is ignored. -/
def Ctx.setShadowColor (b : Browser) (ctx : Ctx) (v : Str) : Ctx :=
  if b.validColor v then { ctx with state := { ctx.state with shadowColor := v } } else ctx

/-- The setter of `ctx.lineWidth`: zero, negative, infinite and `NaN` values are ignored. -/
def Ctx.setLineWidth (ctx : Ctx) : JSNum → Ctx
  | JSNum.fin q => if 0 < q then { ctx with state := { ctx.state with lineWidth := q } } else ctx
  | _ => ctx

/-- The setter of `ctx.shadowOffsetX`: infinite and `NaN` values are ignored. -/
def Ctx.setShadowOffsetX (ctx : Ctx) : JSNum → Ctx
  | JSNum.fin q => { ctx with state := { ctx.state with shadowOffsetX := q } }
  | _ => ctx

/-- The setter of `ctx.shadowOffsetY`: infinite and `NaN` values are ignored. -/
def Ctx.setShadowOffsetY (ctx : Ctx) : JSNum → Ctx
  | JSNum.fin q => { ctx with state := { ctx.state with shadowOffsetY := q } }
  | _ => ctx

/-- The setter of `ctx.shadowBlur`: negative, infinite and `NaN` values are ignored. -/
def Ctx.setShadowBlur (ctx : Ctx) : JSNum → Ctx
  | JSNum.fin q => if 0 ≤ q then { ctx with state := { ctx.state with shadowBlur := q } } else ctx
  | _ => ctx

/-- The setter of `ctx.textAlign`: only the five keywords are accepted. -/
def Ctx.setTextAlign (ctx : Ctx) (v : Str) : Ctx :=
  if v ∈ ["start".toList, "end".toList, "left".toList, "right".toList, "center".toList] then
    { ctx with state := { ctx.state with textAlign := v } }
  else ctx

/-- The setter of `ctx.textBaseline`: only the six keywords are accepted. -/
def Ctx.setTextBaseline (ctx : Ctx) (v : Str) : Ctx :=
  if v ∈ ["top".toList, "hanging".toList, "middle".toList, "alphabetic".toList,
      "ideographic".toList, "bottom".toList] then
    { ctx with state := { ctx.state with textBaseline := v } }
  else ctx

/-- The setter of `ctx.font` on the template string weight, size, `px`, family: a size
that prints as `NaN` or `Infinity`, or is negative, does not parse as a font and is
ignored (weight and family come from a computed style and are taken as well-formed). -/
def Ctx.setFont (ctx : Ctx) (weight : Str) (size : JSNum) (family : Str) : Ctx :=
  match size with
  | JSNum.fin q =>
    if 0 ≤ q then { ctx with state := { ctx.state with font := ⟨weight, q, family⟩ } } else ctx
  | _ => ctx

/-! ## The DOM as the export reads it -/

/-- The result of `getBoundingClientRect()`. -/
structure DOMRect where
  left : ℚ
  top : ℚ
  width : ℚ
  height : ℚ
  deriving DecidableEq

/-- The properties of `getComputedStyle(textElement)` that the export reads.  A property
the browser does not know (`undefined`) is the empty string: both are falsy. -/
structure ComputedStyle where
  fontSize : Str
  textAlign : Str
  fontFamily : Str
  fontWeight : Str
  color : Str
  textShadow : Str
  webkitTextStroke : Str
  deriving DecidableEq

/-- A `.text-overlay` element: its bounding rectangle, computed style and text. -/
structure TextElement where
  rect : DOMRect
  style : ComputedStyle
  textContent : Str
  deriving DecidableEq

/-- The element `#storyCanvas`, the editing surface: its bounding rectangle and its
`.text-overlay` descendants in document order. -/
structure StoryCanvas where
  rect : DOMRect
  textElements : List TextElement

/-- The element `#storyImage`: `style.display` and `src` (empty when there is none). -/
structure ImageElement where
  display : Str
  src : Str

/-- The object `window.DACO.canvas.imageData`; a field that is `undefined` is `none`.
`filters` is the object of filter names and values, in insertion order. -/
structure ImageData where
  scale : Option ℚ
  offsetX : Option ℚ
  offsetY : Option ℚ
  rotation : Option ℚ
  filters : List (Str × Str)

/-- The page at the time of an export. -/
structure Page where
  storyImage : Option ImageElement
  storyCanvas : Option StoryCanvas
  imageData : Option ImageData

/-! ## Text style: `getCanvasTextAlign`, `applyTextEffects` -/

/-- `getCanvasTextAlign`: the lookup `alignMap[cssAlign] || 'center'`. -/
def getCanvasTextAlign (cssAlign : Str) : Str :=
  if cssAlign = "right".toList then "right".toList
  else if cssAlign = "left".toList then "left".toList
  else if cssAlign = "center".toList then "center".toList
  else if cssAlign = "justify".toList then "left".toList
  else "center".toList

/-- An ASCII letter in lower case, for matching under the flag `i`. -/
def lower (c : Char) : Char :=
  if 65 ≤ c.toNat && c.toNat ≤ 90 then Char.ofNat (c.toNat + 32) else c

/-- The alternative `rgba?\([^)]+\)` at the start of `s`: the match and what follows. -/
def matchRgb (s : Str) : Option (Str × Str) :=
  match s with
  | r :: g :: b :: rest =>
    if lower r = 'r' ∧ lower g = 'g' ∧ lower b = 'b' then
      let named : Str × Str := match rest with
        | a :: rest1 => if lower a = 'a' then ([r, g, b, a], rest1) else ([r, g, b], rest)
        | [] => ([r, g, b], rest)
      match named.2 with
      | '(' :: rest2 =>
        let body := rest2.takeWhile (fun c => c ≠ ')')
        match rest2.dropWhile (fun c => c ≠ ')') with
        | ')' :: rest3 =>
          if body ≠ [] then some (named.1 ++ '(' :: body ++ [')'], rest3) else none
        | _ => none
      | _ => none
    else none
  | _ => none

/-- The alternatives `#[0-9a-f]{6}` (with `n = 6`) and `#[0-9a-f]{3}` (with `n = 3`). -/
def matchHexColor (n : ℕ) (s : Str) : Option (Str × Str) :=
  match s with
  | '#' :: rest =>
    if (rest.take n).length = n ∧ (rest.take n).all isHexDigit then
      some ('#' :: rest.take n, rest.drop n)
    else none
  | _ => none

/-- The alternative `\w+`. -/
def matchWord (s : Str) : Option (Str × Str) :=
  if s.takeWhile isWordChar ≠ [] then some (s.takeWhile isWordChar, s.dropWhile isWordChar)
  else none

/-- The pattern `/rgba?\([^)]+\)|#[0-9a-f]{6}|#[0-9a-f]{3}|\w+/i` at the start of `s`:
the alternatives are tried from left to right. -/
def matchShadowToken (s : Str) : Option (Str × Str) :=
  (matchRgb s).orElse fun _ => (matchHexColor 6 s).orElse fun _ =>
    (matchHexColor 3 s).orElse fun _ => matchWord s

/-- The successive matches of the pattern from left to right, `fuel` bounding the number
of positions visited. -/
def shadowTokensAux : ℕ → Str → List Str
  | 0, _ => []
  | _ + 1, [] => []
  | fuel + 1, c :: cs =>
    match matchShadowToken (c :: cs) with
    | some found => found.1 :: shadowTokensAux fuel found.2
    | none => shadowTokensAux fuel cs

/-- The array `style.textShadow.match(/.../gi)`; no match (`null`) is the empty list.
Every step consumes a character, so the length of the string is fuel enough. -/
def shadowTokens (s : Str) : List Str := shadowTokensAux s.length s

/-- The tail `\s+(.+)` of the stroke pattern, returning the group `(.+)`: the rest of the
line after the white space, or, when nothing follows the white space, the last white
space character that `.` can match once `\s+` has given it back. -/
def strokeColorGroup (afterPx : Str) : Option Str :=
  let ws := afterPx.takeWhile isJSWhitespace
  let rest := afterPx.dropWhile isJSWhitespace
  if ws = [] then none
  else if rest.takeWhile (fun c => !isLineTerminator c) ≠ [] then
    some (rest.takeWhile (fun c => !isLineTerminator c))
  else
    match ((ws.drop 1).filter (fun c => !isLineTerminator c)).getLast? with
    | some c => some [c]
    | none => none

/-- The rest of the stroke pattern, `px\s+(.+)`, after the number `width`. -/
def matchStrokePx (width : Str) (s : Str) : Option (Str × Str) :=
  match s with
  | 'p' :: 'x' :: r => (strokeColorGroup r).map fun color => (width, color)
  | _ => none

/-- The pattern `/(\d+(?:\.\d+)?)px\s+(.+)/` at the start of `s`: the two groups. -/
def matchStrokeAt (s : Str) : Option (Str × Str) :=
  let ip := s.takeWhile isDigit
  let r := s.dropWhile isDigit
  if ip = [] then none
  else
    let withFraction : Option (Str × Str) := match r with
      | '.' :: r1 =>
        if r1.takeWhile isDigit = [] then none
        else matchStrokePx (ip ++ '.' :: r1.takeWhile isDigit) (r1.dropWhile isDigit)
      | _ => none
    withFraction.orElse fun _ => matchStrokePx ip r

/-- The groups of `style.webkitTextStroke.match(/(\d+(?:\.\d+)?)px\s+(.+)/)`: the
leftmost match, `none` for `null`. -/
def strokeMatch : Str → Option (Str × Str)
  | [] => none
  | c :: cs => (matchStrokeAt (c :: cs)).orElse fun _ => strokeMatch cs

/-- The shadow part of `applyTextEffects`, lines 244-257. -/
def applyTextShadow (b : Browser) (ctx : Ctx) (style : ComputedStyle) (scale : JSNum) : Ctx :=
  if style.textShadow ≠ [] ∧ style.textShadow ≠ "none".toList then
    match shadowTokens style.textShadow with
    | t0 :: t1 :: t2 :: t3 :: _ =>
      let color := if t3 ≠ [] then t3 else t0
      let offsetX := parseFloat t0 * scale
      let offsetY := parseFloat t1 * scale
      let blur := parseFloat t2 * scale
      (((ctx.setShadowColor b color).setShadowOffsetX offsetX).setShadowOffsetY offsetY).setShadowBlur
        blur
    | _ => ctx
  else ctx

/-- The stroke part of `applyTextEffects`, lines 260-266. -/
def applyTextStroke (b : Browser) (ctx : Ctx) (style : ComputedStyle) (scale : JSNum) : Ctx :=
  if style.webkitTextStroke ≠ [] ∧ style.webkitTextStroke ≠ "none".toList then
    match strokeMatch style.webkitTextStroke with
    | some groups => (ctx.setStrokeStyle b groups.2).setLineWidth (parseFloat groups.1 * scale)
    | none => ctx
  else ctx

/-- `applyTextEffects(ctx, style, scale)`: fill colour, then shadow, then stroke. -/
def applyTextEffects (b : Browser) (ctx : Ctx) (style : ComputedStyle) (scale : JSNum) : Ctx :=
  applyTextStroke b (applyTextShadow b (ctx.setFillStyle b style.color) style scale) style scale

/-! ## Drawing text: `drawWrappedText`, `drawSingleTextElement`, `drawTextElements` -/

/-- The body of the loop `for (let i = 0; i < lines.length; i++)` of `drawWrappedText`
for one line: the stroke first when `ctx.strokeStyle && ctx.lineWidth > 0`, then the
fill. -/
def drawLine (ctx : Ctx) (line : Str) (x lineY : JSNum) : Ctx :=
  let stroked :=
    if ctx.state.strokeStyle ≠ [] ∧ 0 < ctx.state.lineWidth then
      ctx.push (DrawOp.strokeText ctx.state line x lineY)
    else ctx
  stroked.push (DrawOp.fillText stroked.state line x lineY)

/-- The loop `for (let i = 0; i < lines.length; i++)` of `drawWrappedText`, from index `i`
on, over the lines that remain. -/
def drawLinesFrom (x startY lineHeight : JSNum) : ℕ → List Str → Ctx → Ctx
  | _, [], ctx => ctx
  | i, line :: rest, ctx =>
    drawLinesFrom x startY lineHeight (i + 1) rest
      (drawLine ctx line x (startY + JSNum.ofNat i * lineHeight))

/-- `drawWrappedText(ctx, text, x, y, maxWidth, lineHeight)`. -/
def drawWrappedText (b : Browser) (ctx : Ctx) (text : Str) (x y maxWidth lineHeight : JSNum) :
    Ctx :=
  let lines := breakIntoLines (b.measureText ctx.state) maxWidth text
  let totalHeight := JSNum.ofNat lines.length * lineHeight
  let startY := y - (totalHeight - lineHeight) / JSNum.ofNat 2
  drawLinesFrom x startY lineHeight 0 lines ctx

/-- The style set-up of `drawSingleTextElement`, lines 211-220: alignment, baseline,
font, then `applyTextEffects`. -/
def setUpTextStyle (b : Browser) (ctx : Ctx) (style : ComputedStyle)
    (fontSizeRatio fontSize : JSNum) : Ctx :=
  applyTextEffects b
    (((ctx.setTextAlign (getCanvasTextAlign style.textAlign)).setTextBaseline
      "middle".toList).setFont style.fontWeight fontSize style.fontFamily)
    style fontSizeRatio

/-- `drawSingleTextElement(ctx, textElement, canvasRect, exportWidth, exportHeight)`.
The constant `1.2` of the line height is the rational 6/5. -/
def drawSingleTextElement (b : Browser) (ctx : Ctx) (textElement : TextElement)
    (canvasRect : DOMRect) (exportWidth exportHeight : ℕ) : Ctx :=
  let rect := textElement.rect
  let style := textElement.style
  let x := ((JSNum.fin rect.left - JSNum.fin canvasRect.left
      + JSNum.fin rect.width / JSNum.ofNat 2) / JSNum.fin canvasRect.width)
    * JSNum.ofNat exportWidth
  let y := ((JSNum.fin rect.top - JSNum.fin canvasRect.top
      + JSNum.fin rect.height / JSNum.ofNat 2) / JSNum.fin canvasRect.height)
    * JSNum.ofNat exportHeight
  let fontSizeRatio := JSNum.ofNat exportWidth / JSNum.fin canvasRect.width
  let fontSize := parseInt style.fontSize * fontSizeRatio
  let styled := setUpTextStyle b ctx style fontSizeRatio fontSize
  let text := textElement.textContent
  let maxWidth := (JSNum.fin rect.width / JSNum.fin canvasRect.width) * JSNum.ofNat exportWidth
  drawWrappedText b styled text x y maxWidth (fontSize * JSNum.fin (6 / 5))

/-- `drawTextElements(ctx, canvasWidth, canvasHeight)`: nothing when `#storyCanvas` is
missing, else every `.text-overlay` in turn, on the same context. -/
def drawTextElements (b : Browser) (page : Page) (ctx : Ctx) (canvasWidth canvasHeight : ℕ) :
    Ctx :=
  match page.storyCanvas with
  | none => ctx
  | some storyCanvas =>
    storyCanvas.textElements.foldl
      (fun c textEl => drawSingleTextElement b c textEl storyCanvas.rect canvasWidth canvasHeight)
      ctx

/-! ## The background and the export canvas: `drawImageToCanvas`, `createExportCanvas` -/

/-- A JavaScript `Error` with its message. -/
structure JSError where
  message : String
  deriving DecidableEq

/-- `drawImageToCanvas`: when the image loads, the transform and the draw between
`save` and `restore`; when it does not, the promise rejects.  The fields of `imageData`
default to scale 1, offsets 0, rotation 0. -/
def drawImageToCanvas (b : Browser) (page : Page) (ctx : Ctx) (imageElement : ImageElement)
    (canvasWidth canvasHeight : ℕ) : Except JSError Ctx :=
  if b.imageLoads imageElement.src then
    let scale := JSNum.fin (((page.imageData.bind fun d => d.scale).getD 1))
    let offsetX := JSNum.fin (((page.imageData.bind fun d => d.offsetX).getD 0))
    let offsetY := JSNum.fin (((page.imageData.bind fun d => d.offsetY).getD 0))
    let rotation := JSNum.fin (((page.imageData.bind fun d => d.rotation).getD 0))
    Except.ok
      { ctx with calls := ctx.calls ++
          [ DrawOp.save,
            DrawOp.translate (JSNum.ofNat canvasWidth / JSNum.ofNat 2)
              (JSNum.ofNat canvasHeight / JSNum.ofNat 2),
            DrawOp.rotate (rotation / JSNum.ofNat 180),
            DrawOp.scale scale scale,
            DrawOp.translate (-JSNum.ofNat canvasWidth / JSNum.ofNat 2)
              (-JSNum.ofNat canvasHeight / JSNum.ofNat 2),
            DrawOp.drawImage ctx.state imageElement.src offsetX offsetY (JSNum.ofNat canvasWidth)
              (JSNum.ofNat canvasHeight),
            DrawOp.restore ] }
  else Except.error ⟨"Failed to load image"⟩

/-- An entry of `exportFormats`, or any config handed to `createExportCanvas`;
`transparent` is `none` when the entry does not have the key. -/
structure ExportConfig where
  width : ℕ
  height : ℕ
  format : String
  quality : ℚ
  transparent : Option Bool

/-- The canvas element created by `createExportCanvas`, with its context. -/
structure ExportCanvas where
  width : ℕ
  height : ℕ
  ctx : Ctx

/-- A call `updateProgress(message, progress)`. -/
structure Progress where
  message : String
  percent : ℚ
  deriving DecidableEq

/-- The outcome of a call of `createExportCanvas`: the progress it reported, and the
canvas it resolves with or the error it rejects with. -/
structure CanvasOutcome where
  progress : List Progress
  result : Except JSError ExportCanvas

/-- The background part of `createExportCanvas`, lines 133-142: nothing when
`transparent`, else the black fill and, when `#storyImage` is there, displayed and has a
source, the image. -/
def drawBackground (b : Browser) (page : Page) (ctx : Ctx) (width height : ℕ)
    (transparent : Bool) : Except JSError Ctx :=
  if !transparent then
    let black : Ctx := { ctx with state := { ctx.state with fillStyle := "#000000".toList } }
    let filled := black.push
      (DrawOp.fillRect black.state (JSNum.ofNat 0) (JSNum.ofNat 0) (JSNum.ofNat width)
        (JSNum.ofNat height))
    match page.storyImage with
    | some storyImage =>
      if storyImage.display ≠ "none".toList ∧ storyImage.src ≠ [] then
        drawImageToCanvas b page filled storyImage width height
      else Except.ok filled
    | none => Except.ok filled
  else Except.ok ctx

/-- `createExportCanvas(config)`: a new canvas of the configured size, progress 20, the
background, progress 50, the text elements.  A failure of the image load ends the call
before the second progress report. -/
def createExportCanvas (b : Browser) (page : Page) (config : ExportConfig) : CanvasOutcome :=
  let transparent := config.transparent.getD false
  let painting : Progress := ⟨"در حال رسم پس‌زمینه...", 20⟩
  let writing : Progress := ⟨"در حال رسم متن‌ها...", 50⟩
  match drawBackground b page Ctx.fresh config.width config.height transparent with
  | Except.error e => ⟨[painting], Except.error e⟩
  | Except.ok ctx =>
    ⟨[painting, writing],
      Except.ok ⟨config.width, config.height,
        drawTextElements b page ctx config.width config.height⟩⟩

/-! ## The presets, the encoding and the file name: `exportFormats`, `canvasToBlob`,
`generateFilename` -/

/-- The preset `high-quality` of `exportFormats`. -/
def highQuality : ExportConfig := ⟨1080, 1920, "png", 1, none⟩

/-- The preset `text-only` of `exportFormats`. -/
def textOnly : ExportConfig := ⟨1080, 1920, "png", 1, some true⟩

/-- The preset `instagram-story` of `exportFormats`. -/
def instagramStory : ExportConfig := ⟨1080, 1920, "jpeg", 9 / 10, none⟩

/-- The preset `wallpaper` of `exportFormats`. -/
def wallpaper : ExportConfig := ⟨1440, 2560, "png", 1, none⟩

/-- The preset `medium-quality` of `exportFormats`. -/
def mediumQuality : ExportConfig := ⟨1080, 1920, "jpeg", 8 / 10, none⟩

/-- The preset `low-quality` of `exportFormats`. -/
def lowQuality : ExportConfig := ⟨720, 1280, "jpeg", 7 / 10, none⟩

/-- The object `this.exportFormats`, its keys in the order of the source.  The keys an
object inherits from its prototype are not part of the table. -/
def exportFormats : List (Str × ExportConfig) :=
  [("high-quality".toList, highQuality), ("text-only".toList, textOnly),
    ("instagram-story".toList, instagramStory), ("wallpaper".toList, wallpaper),
    ("medium-quality".toList, mediumQuality), ("low-quality".toList, lowQuality)]

/-- A `Blob`: its MIME type and its size in bytes. -/
structure Blob where
  mimeType : String
  size : ℕ
  deriving DecidableEq

/-- What encoding a canvas comes to: a blob of some size, `null` handed to the callback of
`canvas.toBlob` when the image cannot be encoded, or an exception. -/
inductive EncodeOutcome where
  | blob (size : ℕ)
  | null
  | throws (e : JSError)
  deriving DecidableEq

/-- What the export needs from its host besides the browser of the canvas: the encoder
behind `canvas.toBlob` (or `canvas.toDataURL` when `toBlob` is missing), asked for a MIME
type and a quality; `new Date().toISOString()` at the calls of `generateFilename` of a
run, counted from 0; the `TypeError` that `URL.createObjectURL(null)` throws; and the
`TypeError` that destructuring `undefined` throws. -/
structure Host where
  browser : Browser
  encode : ExportCanvas → String → ℚ → EncodeOutcome
  isoTime : ℕ → Str
  nullBlobError : JSError
  noConfigError : JSError

/-- `canvasToBlob(canvas, config)`: the MIME type is `image/png` for the format `png` and
`image/jpeg` for every other; the promise resolves with what the encoder hands back, a
blob of the requested type or `null`, and rejects when it throws. -/
def canvasToBlob (h : Host) (canvas : ExportCanvas) (config : ExportConfig) :
    Except JSError (Option Blob) :=
  let mimeType := if config.format = "png" then "image/png" else "image/jpeg"
  match h.encode canvas mimeType config.quality with
  | EncodeOutcome.blob size => Except.ok (some ⟨mimeType, size⟩)
  | EncodeOutcome.null => Except.ok none
  | EncodeOutcome.throws e => Except.error e

/-- JavaScript `s.replace(old, new)` with strings of one character: the first occurrence
only. -/
def replaceFirst (old new : Char) : Str → Str
  | [] => []
  | c :: cs => if c = old then new :: cs else c :: replaceFirst old new cs

/-- `generateFilename(type, format)` when `new Date().toISOString()` is `iso`. -/
def generateFilename (iso : Str) (type format : Str) : Str :=
  let timestamp := (iso.take 19).map (fun c => if c = ':' ∨ c = '.' then '-' else c)
  let suffix := replaceFirst '-' '_' type
  "daco-story".toList ++ '_' :: suffix ++ '_' :: timestamp ++ '.' :: format

/-! ## The export operations: `exportImage`, `batchExport` -/

/-- The kinds of notification: `notifications.success`, `.error`, `.warning`. -/
inductive NoticeKind where
  | success
  | error
  | warning
  deriving DecidableEq

/-- What an export operation does to the page and the user, in order.  `createCanvas` is
the `document.createElement('canvas')` of `createExportCanvas` with the size it sets;
`delay` is an awaited `setTimeout`; `clipboardWrite` is a `navigator.clipboard.write`
that resolved, `share` a `navigator.share` of a file that resolved, `printWindow` the
document written to the window that `printStory` opens, with the data URL of its image.
Console output and analytics are not recorded. -/
inductive Effect where
  | progress (p : Progress)
  | hideProgress
  | hidePanel
  | notify (kind : NoticeKind) (message : String)
  | createCanvas (width height : ℕ)
  | download (blob : Blob) (filename : Str)
  | delay (ms : ℕ)
  | clipboardWrite (blob : Blob)
  | share (blob : Blob) (filename : Str)
  | printWindow (dataURL : Str)
  deriving DecidableEq

/-- The warning of a call made while an export is in flight. -/
def busyMessage : String := "در حال تولید تصویر قبلی..."

/-- What the error notification of `exportImage` puts before the message of the error. -/
def exportErrorLead : String := "خطا در تولید تصویر: "

/-- What the error notification of `batchExport` puts before the message of the error. -/
def batchErrorLead : String := "خطا در تولید فایل‌ها: "

/-- `Utils.downloadFile(blob, filename)`: `URL.createObjectURL` throws on `null` before
anything is downloaded. -/
def downloadFile (h : Host) (blob : Option Blob) (filename : Str) : Except JSError Effect :=
  match blob with
  | none => Except.error h.nullBlobError
  | some b => Except.ok (Effect.download b filename)

/-- A call of `exportImage` or `batchExport` from start to end: the value of
`isExporting` when it ends, what it did, and whether its promise resolved or rejected. -/
structure Run where
  isExporting : Bool
  effects : List Effect
  outcome : Except JSError Unit

/-- The calls `createExportCanvas` makes visible: the new canvas, then its progress
reports. -/
def renderEffects (config : ExportConfig) (rendered : CanvasOutcome) : List Effect :=
  Effect.createCanvas config.width config.height :: rendered.progress.map Effect.progress

/-- The `catch` and `finally` of `exportImage`: the progress bar is hidden, one error
notification carries the message of the error, `isExporting` is reset, and the promise
resolves. -/
def exportImageFailed (effects : List Effect) (e : JSError) : Run :=
  ⟨false, effects ++ [Effect.hideProgress,
    Effect.notify NoticeKind.error (exportErrorLead ++ e.message)], Except.ok ()⟩

/-- `exportImage(type)` called when `this.isExporting` is `isExporting`. -/
def exportImage (h : Host) (page : Page) (isExporting : Bool) (type : Str) : Run :=
  if isExporting then
    ⟨isExporting, [Effect.notify NoticeKind.warning busyMessage], Except.ok ()⟩
  else
    let config := (exportFormats.lookup type).getD highQuality
    let rendered := createExportCanvas h.browser page config
    let started := Effect.progress ⟨"در حال آماده‌سازی...", 0⟩ :: renderEffects config rendered
    match rendered.result with
    | Except.error e => exportImageFailed started e
    | Except.ok canvas =>
      let encoding := started ++ [Effect.progress ⟨"در حال تولید تصویر...", 70⟩]
      match canvasToBlob h canvas config with
      | Except.error e => exportImageFailed encoding e
      | Except.ok blob =>
        let filename := generateFilename (h.isoTime 0) type config.format.toList
        let downloading := encoding ++ [Effect.progress ⟨"در حال دانلود...", 90⟩]
        match downloadFile h blob filename with
        | Except.error e => exportImageFailed downloading e
        | Except.ok saved =>
          ⟨false, downloading ++ [saved, Effect.hideProgress, Effect.hidePanel,
            Effect.notify NoticeKind.success "تصویر با موفقیت دانلود شد!"], Except.ok ()⟩

/-- An entry of the array `results` of `batchExport`. -/
structure BatchItem where
  blob : Option Blob
  filename : Str
  format : Str
  deriving DecidableEq

/-- The first loop of `batchExport`, from index `i` on, over the formats that remain:
progress, canvas, blob and file name of each format in turn.  An error ends the loop with
what was done until then. -/
def renderFormats (h : Host) (page : Page) (total : ℕ) :
    ℕ → List Str → List BatchItem → List Effect →
      Except (List Effect × JSError) (List BatchItem × List Effect)
  | _, [], results, effects => Except.ok (results, effects)
  | i, format :: rest, results, effects =>
    let reported := effects ++ [Effect.progress
      ⟨"در حال تولید " ++ String.mk format ++ "...", ((i + 1 : ℕ) : ℚ) / (total : ℚ) * 90⟩]
    match exportFormats.lookup format with
    | none => Except.error (reported, h.noConfigError)
    | some config =>
      let rendered := createExportCanvas h.browser page config
      let drawn := reported ++ renderEffects config rendered
      match rendered.result with
      | Except.error e => Except.error (drawn, e)
      | Except.ok canvas =>
        match canvasToBlob h canvas config with
        | Except.error e => Except.error (drawn, e)
        | Except.ok blob =>
          renderFormats h page total (i + 1) rest
            (results ++ [⟨blob, generateFilename (h.isoTime i) format config.format.toList,
              format⟩])
            drawn

/-- The second loop of `batchExport`: every result is downloaded in turn, half a second
apart. -/
def downloadAll (h : Host) :
    List BatchItem → List Effect → Except (List Effect × JSError) (List Effect)
  | [], effects => Except.ok effects
  | item :: rest, effects =>
    match downloadFile h item.blob item.filename with
    | Except.error e => Except.error (effects, e)
    | Except.ok saved => downloadAll h rest (effects ++ [saved, Effect.delay 500])

/-- The `catch` and `finally` of `batchExport`. -/
def batchExportFailed (effects : List Effect) (e : JSError) : Run :=
  ⟨false, effects ++ [Effect.hideProgress,
    Effect.notify NoticeKind.error (batchErrorLead ++ e.message)], Except.ok ()⟩

/-- `batchExport(formats)` called when `this.isExporting` is `isExporting`. -/
def batchExport (h : Host) (page : Page) (isExporting : Bool) (formats : List Str) : Run :=
  if isExporting then
    ⟨isExporting, [Effect.notify NoticeKind.warning busyMessage], Except.ok ()⟩
  else
    match renderFormats h page formats.length 0 formats []
        [Effect.progress ⟨"در حال تولید چندین فرمت...", 0⟩] with
    | Except.error failed => batchExportFailed failed.1 failed.2
    | Except.ok rendered =>
      match downloadAll h rendered.1
          (rendered.2 ++ [Effect.progress ⟨"در حال دانلود فایل‌ها...", 95⟩]) with
      | Except.error failed => batchExportFailed failed.1 failed.2
      | Except.ok effects =>
        ⟨false, effects ++ [Effect.hideProgress, Effect.hidePanel,
          Effect.notify NoticeKind.success
            (toString formats.length ++ " فایل با موفقیت دانلود شد!")], Except.ok ()⟩

/-! ## Copying, sharing, printing: `copyToClipboard`, `shareToSocial`, `printStory` -/

/-- How a call of `navigator.share` ends: it resolves, it rejects with an error named
`AbortError` (the user closed the sheet), or it rejects with another error. -/
inductive ShareOutcome where
  | shared
  | aborted
  | failed (e : JSError)

/-- What copying, sharing and printing need of the browser besides the host of the
export: `navigator.clipboard.write` on a `ClipboardItem` of the blob (`none` when
`navigator.clipboard && window.ClipboardItem` is falsy); `navigator.share` on the file
made of the blob under a file name (`none` when `navigator.share` is missing);
`canvas.toDataURL('image/png')`; whether `window.open` gives a window; the `TypeError`
of reading `blob.type` on `null`; the `TypeError` of reading `document` on `null`. -/
structure Navigator where
  clipboardWrite : Option (Blob → Except JSError Unit)
  share : Option (Blob → Str → ShareOutcome)
  toDataURL : ExportCanvas → Except JSError Str
  windowOpens : Bool
  nullBlobTypeError : JSError
  nullWindowError : JSError

/-- The error `copyToClipboard` throws when the clipboard cannot take an image. -/
def clipboardUnsupported : JSError := ⟨"کپی در کلیپ‌بورد پشتیبانی نمی‌شود"⟩

/-- The `catch` of `copyToClipboard`; `isExporting` is not touched. -/
def copyFailed (isExporting : Bool) (effects : List Effect) (e : JSError) : Run :=
  ⟨isExporting, effects ++ [Effect.hideProgress,
    Effect.notify NoticeKind.error ("خطا در کپی کردن: " ++ e.message)], Except.ok ()⟩

/-- `copyToClipboard()` called when `this.isExporting` is `isExporting`: the function
neither reads nor writes that field. -/
def copyToClipboard (h : Host) (nav : Navigator) (page : Page) (isExporting : Bool) : Run :=
  let config := highQuality
  let rendered := createExportCanvas h.browser page config
  let started := Effect.progress ⟨"در حال آماده‌سازی برای کپی...", 30⟩
    :: renderEffects config rendered
  match rendered.result with
  | Except.error e => copyFailed isExporting started e
  | Except.ok canvas =>
    let copying := started ++ [Effect.progress ⟨"در حال کپی کردن...", 80⟩]
    match canvasToBlob h canvas config with
    | Except.error e => copyFailed isExporting copying e
    | Except.ok blob =>
      match nav.clipboardWrite with
      | none => copyFailed isExporting copying clipboardUnsupported
      | some write =>
        match blob with
        | none => copyFailed isExporting copying nav.nullBlobTypeError
        | some b =>
          match write b with
          | Except.error e => copyFailed isExporting copying e
          | Except.ok _ =>
            ⟨isExporting, copying ++ [Effect.clipboardWrite b, Effect.hideProgress,
              Effect.hidePanel,
              Effect.notify NoticeKind.success "تصویر در کلیپ‌بورد کپی شد!"], Except.ok ()⟩

/-- The `catch` of `shareToSocial` for an error that is not an `AbortError`. -/
def shareFailed (isExporting : Bool) (effects : List Effect) (e : JSError) : Run :=
  ⟨isExporting, effects ++ [Effect.hideProgress,
    Effect.notify NoticeKind.error ("خطا در اشتراک‌گذاری: " ++ e.message)], Except.ok ()⟩

/-- `shareToSocial()` called when `this.isExporting` is `isExporting`: without
`navigator.share` a warning and nothing else; with it the preset `instagram-story` is
rendered, encoded and shared under the name of the type `story`. -/
def shareToSocial (h : Host) (nav : Navigator) (page : Page) (isExporting : Bool) : Run :=
  match nav.share with
  | none =>
    ⟨isExporting, [Effect.notify NoticeKind.warning
      "اشتراک‌گذاری در این مرورگر پشتیبانی نمی‌شود"], Except.ok ()⟩
  | some share =>
    let config := instagramStory
    let rendered := createExportCanvas h.browser page config
    let started := Effect.progress ⟨"در حال آماده‌سازی برای اشتراک...", 30⟩
      :: renderEffects config rendered
    match rendered.result with
    | Except.error e => shareFailed isExporting started e
    | Except.ok canvas =>
      let filing := started ++ [Effect.progress ⟨"در حال آماده‌سازی فایل...", 70⟩]
      match canvasToBlob h canvas config with
      | Except.error e => shareFailed isExporting filing e
      | Except.ok none => shareFailed isExporting filing nav.nullBlobTypeError
      | Except.ok (some b) =>
        let filename := generateFilename (h.isoTime 0) "story".toList config.format.toList
        let opening := filing
          ++ [Effect.progress ⟨"در حال باز کردن اشتراک‌گذاری...", 90⟩]
        match share b filename with
        | ShareOutcome.shared =>
          ⟨isExporting, opening ++ [Effect.share b filename, Effect.hideProgress,
            Effect.hidePanel], Except.ok ()⟩
        | ShareOutcome.aborted => ⟨isExporting, opening ++ [Effect.hideProgress], Except.ok ()⟩
        | ShareOutcome.failed e => shareFailed isExporting opening e

/-- The `catch` of `printStory`; the progress display is not hidden. -/
def printFailed (isExporting : Bool) (effects : List Effect) (e : JSError) : Run :=
  ⟨isExporting, effects ++ [Effect.notify NoticeKind.error ("خطا در چاپ: " ++ e.message)],
    Except.ok ()⟩

/-- `printStory()` called when `this.isExporting` is `isExporting`: a canvas of 1080 by
1920 is rendered, turned into a data URL and written to a new window. -/
def printStory (h : Host) (nav : Navigator) (page : Page) (isExporting : Bool) : Run :=
  let config : ExportConfig := ⟨1080, 1920, "png", 1, none⟩
  let rendered := createExportCanvas h.browser page config
  let drawn := renderEffects config rendered
  match rendered.result with
  | Except.error e => printFailed isExporting drawn e
  | Except.ok canvas =>
    match nav.toDataURL canvas with
    | Except.error e => printFailed isExporting drawn e
    | Except.ok dataURL =>
      if nav.windowOpens then ⟨isExporting, drawn ++ [Effect.printWindow dataURL], Except.ok ()⟩
      else printFailed isExporting drawn nav.nullWindowError

/-! ## The background on the screen: `updateImageTransform` (`canvas.js`),
`updateImageFilter` (`controls.js`) -/

/-- A function of a CSS `transform` list. -/
inductive CssTransform where
  | translate (x y : ℚ)
  | scale (s : ℚ)
  | rotate (degrees : ℚ)
  deriving DecidableEq

/-- `updateImageTransform()`: the value set on `canvasImage.style.transform`, a
translation by the offset in px, then the scale, then the rotation in degrees. -/
def updateImageTransform (scale offsetX offsetY rotation : ℚ) : List CssTransform :=
  [CssTransform.translate offsetX offsetY, CssTransform.scale scale, CssTransform.rotate rotation]

/-- The assignment `filters[filterName] = value` on an object: the value of an existing
key is replaced in place, a new key comes last. -/
def setFilter : List (Str × Str) → Str → Str → List (Str × Str)
  | [], name, value => [(name, value)]
  | entry :: rest, name, value =>
    if entry.1 = name then (name, value) :: rest else entry :: setFilter rest name value

/-- The string `name(value)` of every entry, joined by single spaces. -/
def filterChain (filters : List (Str × Str)) : Str :=
  [space].intercalate (filters.map fun entry => entry.1 ++ '(' :: entry.2 ++ [')'])

/-- `updateImageFilter(filterName, value)`: the new `imageData.filters` and the value set
on `storyImage.style.filter`. -/
def updateImageFilter (filters : List (Str × Str)) (filterName value : Str) :
    List (Str × Str) × Str :=
  (setFilter filters filterName value, filterChain (setFilter filters filterName value))

/-! ## Undo and redo: `saveState`, `undo`, `redo`, `getAppState`, `restoreAppState`
(`app.js`); `getState`, `restoreState`, `addTextElement` (`canvas.js`)

The text elements of the document are a list of nodes; a node keeps its identity
(`ref`) when its `id` is assigned.  What is only shown (buttons, notifications, the
transform and the classes set on elements, analytics) is left out. -/

/-- A properties object, as `getElementProperties` returns it and as `addTextElement`
and `applyElementProperties` take it: names and values in order. -/
abbrev Props := List (Str × Str)

/-- A `.text-overlay` element of the document.  `look` is what `getElementProperties`
reads from it. -/
structure TextNode where
  ref : ℕ
  id : Str
  textContent : Str
  look : Props
  deriving DecidableEq

/-- A value of the map `this.elements` of the canvas manager with its key: the `id`
the element had when `setupTextElement` stored it, and the element itself. -/
structure ElementEntry where
  key : Str
  id : Str
  element : ℕ
  deriving DecidableEq

/-- An entry of `elements` in the object that `getState()` returns (its `type` is always
`text`). -/
structure ElementSnapshot where
  id : Str
  properties : Props
  content : Str
  deriving DecidableEq

/-- The object that `CanvasManager.getState()` returns. -/
structure CanvasSnapshot where
  selectedElementId : Option Str
  imageData : ImageData
  elements : List ElementSnapshot

/-- The object that `App.getAppState()` returns.  `elements` are the values of
`window.DACO.elements`, an id and the rest of each. -/
structure AppSnapshot where
  version : Str
  elements : List (Str × Str)
  settings : List (Str × Str)
  canvas : Option CanvasSnapshot
  timestamp : ℕ

/-- What undo and redo need of the page: the successive results of
`Utils.generateId()` and of `Date.now()`, the look of an element that `addTextElement`
has styled from its options, and the look after `applyElementProperties`. -/
structure Editor where
  generateId : ℕ → Str
  now : ℕ → ℕ
  created : Props → Props
  applied : Props → Props → Props

/-- The state of the application that undo and redo read and write: `window.DACO`
(version, elements, settings, `state.hasUnsavedChanges`, `state.undoStack`,
`state.redoStack`, the last entry of a stack being its top), the text elements of the
document in document order, the map, the selection and the image data of the canvas
manager, and how often an id, the time and a new element have been asked for. -/
structure AppState where
  version : Str
  appElements : List (Str × Str)
  settings : List (Str × Str)
  hasUnsavedChanges : Bool
  undoStack : List AppSnapshot
  redoStack : List AppSnapshot
  nodes : List TextNode
  entries : List ElementEntry
  selectedElement : Option ℕ
  imageData : ImageData
  idsDrawn : ℕ
  clockReads : ℕ
  nodesMade : ℕ

/-- The constant `CONFIG.MAX_UNDO_STEPS`. -/
def maxUndoSteps : ℕ := 50

/-- `document.getElementById(id)` among the text elements: the first with that id. -/
def getElementById (s : AppState) (id : Str) : Option TextNode :=
  s.nodes.find? fun n => n.id = id

/-- The element behind a reference. -/
def nodeOf (s : AppState) (ref : ℕ) : Option TextNode :=
  s.nodes.find? fun n => n.ref = ref

/-- `Map.prototype.set` on `this.elements`: the value of an existing key is replaced in
place, a new key comes last. -/
def setEntry : List ElementEntry → ElementEntry → List ElementEntry
  | [], e => [e]
  | x :: rest, e => if x.key = e.key then e :: rest else x :: setEntry rest e

/-- `CanvasManager.getState()`: the id of the selected element, the image data, and for
every value of the map its stored id with the properties and the text of its element
as they are now. -/
def getState (s : AppState) : CanvasSnapshot :=
  { selectedElementId := (s.selectedElement.bind (nodeOf s)).map fun n => n.id
    imageData := s.imageData
    elements := s.entries.map fun data =>
      match nodeOf s data.element with
      | some n => ⟨data.id, n.look, n.textContent⟩
      | none => ⟨data.id, [], []⟩ }

/-- `App.getAppState()`, which reads the clock once. -/
def getAppState (env : Editor) (s : AppState) : AppSnapshot × AppState :=
  (⟨s.version, s.appElements, s.settings, some (getState s), env.now s.clockReads⟩,
    { s with clockReads := s.clockReads + 1 })

/-- `App.saveState()`: the current state is pushed on the undo stack, the oldest entry
is dropped when there are more than `MAX_UNDO_STEPS`, and the redo stack is emptied. -/
def saveState (env : Editor) (s : AppState) : AppState :=
  let taken := getAppState env s
  let pushed := taken.2.undoStack ++ [taken.1]
  { taken.2 with
    undoStack := if pushed.length > maxUndoSteps then pushed.drop 1 else pushed
    redoStack := []
    hasUnsavedChanges := true }

/-- `CanvasManager.selectElement(element)`. -/
def selectElement (s : AppState) (ref : ℕ) : AppState := { s with selectedElement := some ref }

/-- `CanvasManager.addTextElement(text, options)`: a new element with a generated id is
appended to the canvas, stored in the map under that id, selected, and the state is
saved for undo.  The result is the new state and the element. -/
def addTextElement (env : Editor) (s : AppState) (text : Str) (options : Props) :
    AppState × ℕ :=
  let element : TextNode :=
    ⟨s.nodesMade, "text_".toList ++ env.generateId s.idsDrawn, text, env.created options⟩
  let appended : AppState :=
    { s with
      nodes := s.nodes ++ [element]
      nodesMade := s.nodesMade + 1
      idsDrawn := s.idsDrawn + 1 }
  let stored : AppState :=
    { appended with entries := setEntry appended.entries ⟨element.id, element.id, element.ref⟩ }
  (saveState env (selectElement stored element.ref), element.ref)

/-- The assignment `element.id = id`. -/
def assignId (s : AppState) (ref : ℕ) (id : Str) : AppState :=
  { s with nodes := s.nodes.map fun n => if n.ref = ref then { n with id := id } else n }

/-- The assignments `element.textContent = content` and
`applyElementProperties(element, properties)`. -/
def rewriteNode (env : Editor) (s : AppState) (ref : ℕ) (content : Str) (properties : Props) :
    AppState :=
  { s with
    nodes := s.nodes.map fun n =>
      if n.ref = ref then { n with textContent := content, look := env.applied n.look properties }
      else n }

/-- One turn of `state.elements.forEach` in `restoreState`: an element that is not in
the document and is not `defaultText` is made again by `addTextElement` and then given
its id; an element that is in the document gets its text and properties. -/
def restoreElement (env : Editor) (s : AppState) (elementData : ElementSnapshot) : AppState :=
  match getElementById s elementData.id with
  | none =>
    if elementData.id ≠ "defaultText".toList then
      let added := addTextElement env s elementData.content elementData.properties
      assignId added.1 added.2 elementData.id
    else s
  | some element => rewriteNode env s element.ref elementData.content elementData.properties

/-- `CanvasManager.restoreState(state)`: the image data, the elements, the selection. -/
def restoreState (env : Editor) (s : AppState) (state : CanvasSnapshot) : AppState :=
  let imaged : AppState := { s with imageData := state.imageData }
  let restored := state.elements.foldl (restoreElement env) imaged
  match state.selectedElementId with
  | none => restored
  | some id =>
    if id ≠ [] then
      match getElementById restored id with
      | some element => selectElement restored element.ref
      | none => restored
    else restored

/-- The spread `{ ...settings, ...state.settings }`. -/
def mergeObjects (base over : List (Str × Str)) : List (Str × Str) :=
  over.foldl (fun o e => setFilter o e.1 e.2) base

/-- `App.restoreAppState(state)`: the elements and settings of `window.DACO`, then the
canvas. -/
def restoreAppState (env : Editor) (s : AppState) (state : AppSnapshot) : AppState :=
  let cleared : AppState :=
    { s with
      appElements := state.elements.foldl (fun o e => setFilter o e.1 e.2) []
      settings := mergeObjects s.settings state.settings }
  let canvased := match state.canvas with
    | some canvas => restoreState env cleared canvas
    | none => cleared
  { canvased with hasUnsavedChanges := true }

/-- `App.undo()`. -/
def undo (env : Editor) (s : AppState) : AppState :=
  if s.undoStack.length > 0 then
    let taken := getAppState env s
    let pushed : AppState := { taken.2 with redoStack := taken.2.redoStack ++ [taken.1] }
    match pushed.undoStack.getLast? with
    | some previousState =>
      restoreAppState env { pushed with undoStack := pushed.undoStack.dropLast } previousState
    | none => pushed
  else s

/-- `App.redo()`. -/
def redo (env : Editor) (s : AppState) : AppState :=
  if s.redoStack.length > 0 then
    let taken := getAppState env s
    let pushed : AppState := { taken.2 with undoStack := taken.2.undoStack ++ [taken.1] }
    match pushed.redoStack.getLast? with
    | some nextState =>
      restoreAppState env { pushed with redoStack := pushed.redoStack.dropLast } nextState
    | none => pushed
  else s

/-! ## Double precision: the arithmetic of lines 291-296 as the engine computes it

`drawWrappedText` above computes the line positions in exact arithmetic.  Here the same
operations are rounded one by one, as IEEE 754 doubles are. -/

/-- A binary floating-point number, `mantissa x 2 ^ exponent`.  The exponent is not
bounded: overflow and underflow are not modelled. -/
structure Binary where
  mantissa : ℤ
  exponent : ℤ
  deriving DecidableEq

namespace Binary

/-- The value of the number. -/
def toRat (d : Binary) : ℚ := d.mantissa * (2 : ℚ) ^ d.exponent

/-- The number of binary digits of `m`, counted with at most `fuel` halvings. -/
def bitLength : ℕ → ℕ → ℕ
  | 0, _ => 0
  | fuel + 1, m => if m = 0 then 0 else bitLength fuel (m / 2) + 1

/-- Rounding to a double: the mantissa is cut to 53 significant bits, to the nearest
value, a tie going to the even mantissa. -/
def round (d : Binary) : Binary :=
  let m := d.mantissa.natAbs
  let bits := bitLength m m
  if bits ≤ 53 then d
  else
    let k := bits - 53
    let q := m / 2 ^ k
    let r := m % 2 ^ k
    let halfway := 2 ^ (k - 1)
    let up := decide (halfway < r) || (decide (r = halfway) && decide (q % 2 = 1))
    ⟨d.mantissa.sign * ((if up then q + 1 else q : ℕ) : ℤ), d.exponent + k⟩

/-- An array length or a loop index as a double: no rounding, such a number is below
2 ^ 32. -/
def ofNat (n : ℕ) : Binary := ⟨n, 0⟩

/-- The product before rounding. -/
def mulExact (a b : Binary) : Binary := ⟨a.mantissa * b.mantissa, a.exponent + b.exponent⟩

/-- The sum before rounding. -/
def addExact (a b : Binary) : Binary :=
  ⟨a.mantissa * 2 ^ (a.exponent - min a.exponent b.exponent).toNat
      + b.mantissa * 2 ^ (b.exponent - min a.exponent b.exponent).toNat,
    min a.exponent b.exponent⟩

/-- The difference before rounding. -/
def subExact (a b : Binary) : Binary := addExact a ⟨-b.mantissa, b.exponent⟩

/-- JavaScript `a * b` on doubles. -/
def mul (a b : Binary) : Binary := (mulExact a b).round

/-- JavaScript `a + b` on doubles. -/
def add (a b : Binary) : Binary := (addExact a b).round

/-- JavaScript `a - b` on doubles. -/
def sub (a b : Binary) : Binary := (subExact a b).round

/-- JavaScript `a / 2` on doubles: halving only lowers the exponent. -/
def half (a : Binary) : Binary := ⟨a.mantissa, a.exponent - 1⟩

/-- JavaScript `a / b` on doubles, for a divisor that is not zero: the quotient is taken
to more than 64 bits, one more bit records whether anything is left over, and the
result is rounded. -/
def div (a b : Binary) : Binary :=
  let shift := bitLength b.mantissa.natAbs b.mantissa.natAbs + 64
  let scaled := a.mantissa.natAbs * 2 ^ shift
  let q := scaled / b.mantissa.natAbs
  let sticky := if scaled % b.mantissa.natAbs = 0 then 0 else 1
  round ⟨a.mantissa.sign * b.mantissa.sign * ((2 * q + sticky : ℕ) : ℤ),
    a.exponent - b.exponent - shift - 1⟩

/-- Whether rounding leaves the value as it is. -/
def Exact (d : Binary) : Prop := d.round.toRat = d.toRat

end Binary

/-- `totalHeight = lines.length * lineHeight`, line 291, for `n` lines. -/
def totalHeight (n : ℕ) (lineHeight : Binary) : Binary := (Binary.ofNat n).mul lineHeight

/-- `startY = y - (totalHeight - lineHeight) / 2`, line 292. -/
def startY (n : ℕ) (y lineHeight : Binary) : Binary :=
  y.sub (((totalHeight n lineHeight).sub lineHeight).half)

/-- `lineY = startY + (i * lineHeight)`, line 295. -/
def lineY (n : ℕ) (y lineHeight : Binary) (i : ℕ) : Binary :=
  (startY n y lineHeight).add ((Binary.ofNat i).mul lineHeight)

/-- No operation of lines 291-295 rounds, for `n` lines at the anchor `y` with the line
height `lineHeight`. -/
def NoRounding (n : ℕ) (y lineHeight : Binary) : Prop :=
  ((Binary.ofNat n).mulExact lineHeight).Exact ∧
    ((totalHeight n lineHeight).subExact lineHeight).Exact ∧
    (y.subExact ((totalHeight n lineHeight).sub lineHeight).half).Exact ∧
    ∀ i < n, ((Binary.ofNat i).mulExact lineHeight).Exact ∧
      ((startY n y lineHeight).addExact ((Binary.ofNat i).mul lineHeight)).Exact

/-! ## Observations on the calls of a context -/

/-- The text and the position of the `fillText` calls of a list of calls, in order. -/
def fillTextCalls : List DrawOp → List (Str × JSNum × JSNum)
  | [] => []
  | DrawOp.fillText _ t x y :: r => (t, x, y) :: fillTextCalls r
  | _ :: r => fillTextCalls r

/-- Whether the call is a `strokeText` or a `fillText`. -/
def DrawOp.isText : DrawOp → Bool
  | DrawOp.strokeText _ _ _ _ => true
  | DrawOp.fillText _ _ _ _ => true
  | _ => false

/-- Whether the call is a `fillRect`. -/
def DrawOp.isFillRect : DrawOp → Bool
  | DrawOp.fillRect _ _ _ _ _ => true
  | _ => false

/-- Whether the call is a `drawImage`. -/
def DrawOp.isDrawImage : DrawOp → Bool
  | DrawOp.drawImage _ _ _ _ _ _ => true
  | _ => false

/-- Whether the call is a text call one of whose coordinates is not a finite number. -/
def DrawOp.isTextOffCanvas : DrawOp → Bool
  | DrawOp.strokeText _ _ x y => !x.isFinite || !y.isFinite
  | DrawOp.fillText _ _ x y => !x.isFinite || !y.isFinite
  | _ => false

/-- The calls of `after` are those of `before` followed by calls that all pass `p`. -/
def AddsOnly (p : DrawOp → Bool) (before after : Ctx) : Prop :=
  ∃ added : List DrawOp, after.calls = before.calls ++ added ∧ ∀ op ∈ added, p op = true

/-- The call `ctx.fillRect(0, 0, width, height)` issued on a fresh context under the fill
style `#000000`. -/
def blackFill (width height : ℕ) : DrawOp :=
  DrawOp.fillRect CanvasState.initial (JSNum.ofNat 0) (JSNum.ofNat 0) (JSNum.ofNat width)
    (JSNum.ofNat height)

/-- Whether the text has a character other than the space. -/
def hasInk (text : Str) : Bool := text.any (fun c => c != space)

/-- The line obtained by appending the words to `line`, each after one space. -/
def appendWords (line : Str) (words : List Str) : Str :=
  words.foldl (fun l w => l ++ space :: w) line

/-- The invariant of the line-breaking loop for a word `w` wider than `maxWidth`: no
word of the current line is measured wider than the line, and the current line and the
committed lines hold `w` only as their single word. -/
def WideAlone (measure : Str → ℚ) (w : Str) (st : List Str × Str) : Prop :=
  (∀ v ∈ splitSpace st.2, measure v ≤ measure st.2) ∧
    (w ∈ splitSpace st.2 → st.2 = w) ∧ ∀ l ∈ st.1, w ∈ splitSpace l → l = w

/-! ## Measures and scenes of the examples -/

/-- The width of the first word of a text, counted in characters: a measure that grows
with the first word only. -/
def firstWordLength (s : Str) : ℚ := ((s.takeWhile (fun c => c != space)).length : ℚ)

/-- The width of a text counted in characters: every character is one unit wide. -/
def charCount (s : Str) : ℚ := (s.length : ℚ)

/-- A measure that is not monotone: the text `a b` is measured 10, every other text 1. -/
def bumpyWidth (s : Str) : ℚ := if s = "a b".toList then 10 else 1

/-- A browser for the examples: every character is one unit wide under every drawing
state, every string is a colour, every image loads. -/
def plainBrowser : Browser where
  measureText := fun _ s => charCount s
  validColor := fun _ => true
  imageLoads := fun _ => true

/-- The default editing surface, 280 by 497, at the origin of the viewport. -/
def defaultSurface : DOMRect := ⟨0, 0, 280, 497⟩

/-- A computed style without shadow or stroke: 24px, weight 400, white, centred. -/
def plainStyle : ComputedStyle where
  fontSize := "24px".toList
  textAlign := "center".toList
  fontFamily := "Vazirmatn".toList
  fontWeight := "400".toList
  color := "rgb(255, 255, 255)".toList
  textShadow := "none".toList
  webkitTextStroke := []

/-- A text node 140 by 40 centred on the default surface. -/
def centredNode : TextElement := ⟨⟨70, 457 / 2, 140, 40⟩, plainStyle, "متن جدید".toList⟩

/-- The same node with `text-align: left`. -/
def leftNode : TextElement :=
  ⟨⟨70, 457 / 2, 140, 40⟩, { plainStyle with textAlign := "left".toList }, "Hi".toList⟩

/-- The same node with `text-align: right`. -/
def rightNode : TextElement :=
  ⟨⟨70, 457 / 2, 140, 40⟩, { plainStyle with textAlign := "right".toList }, "Hi".toList⟩

/-- The same node with a font size of 16.5px. -/
def fractionalNode : TextElement :=
  ⟨⟨70, 457 / 2, 140, 40⟩, { plainStyle with fontSize := "16.5px".toList }, "Hi".toList⟩

/-- A page whose editing surface has not been laid out: every rectangle is zero.  It has
one text node, `Hi`, and no background image. -/
def unmeasuredPage : Page where
  storyImage := none
  storyCanvas := some ⟨⟨0, 0, 0, 0⟩, [⟨⟨0, 0, 0, 0⟩, plainStyle, "Hi".toList⟩]⟩
  imageData := none

/-- A page with a displayed background image and the node `centredNode` on the default
surface. -/
def picturePage : Page where
  storyImage := some ⟨"block".toList, "blob:story".toList⟩
  storyCanvas := some ⟨defaultSurface, [centredNode]⟩
  imageData := some ⟨some 1, some 0, some 0, some 0, []⟩

/-- A page with no background image and no text node. -/
def emptyPage : Page where
  storyImage := none
  storyCanvas := some ⟨defaultSurface, []⟩
  imageData := none

/-! ## The transform of the canvas -/

/-- An affine map of the plane, with the six numbers of `setTransform(a, b, c, d, e, f)`:
the point (x, y) goes to (a x + c y + e, b x + d y + f). -/
structure Affine where
  a : ℚ
  b : ℚ
  c : ℚ
  d : ℚ
  e : ℚ
  f : ℚ
  deriving DecidableEq

/-- The identity. -/
def Affine.identity : Affine := ⟨1, 0, 0, 1, 0, 0⟩

/-- The map that applies `n` first and `m` next. -/
def Affine.mul (m n : Affine) : Affine :=
  ⟨m.a * n.a + m.c * n.b, m.b * n.a + m.d * n.b, m.a * n.c + m.c * n.d,
    m.b * n.c + m.d * n.d, m.a * n.e + m.c * n.f + m.e, m.b * n.e + m.d * n.f + m.f⟩

/-- The image of a point. -/
def Affine.apply (m : Affine) (p : ℚ × ℚ) : ℚ × ℚ :=
  (m.a * p.1 + m.c * p.2 + m.e, m.b * p.1 + m.d * p.2 + m.f)

/-- The translation by (x, y). -/
def Affine.translation (x y : ℚ) : Affine := ⟨1, 0, 0, 1, x, y⟩

/-- The scaling by x and y. -/
def Affine.scaling (x y : ℚ) : Affine := ⟨x, 0, 0, y, 0, 0⟩

/-- The rotation whose angle has the cosine and the sine given. -/
def Affine.rotation (cosSin : ℚ × ℚ) : Affine := ⟨cosSin.1, cosSin.2, -cosSin.2, cosSin.1, 0, 0⟩

/-- The transform state of a context: the current transform and the stack of `save`. -/
structure Plotter where
  current : Affine
  saved : List Affine
  deriving DecidableEq

/-- The plotter of a fresh context. -/
def Plotter.fresh : Plotter := ⟨Affine.identity, []⟩

/-- What a call does to the transform state.  `translate`, `rotate` and `scale` multiply
the current transform on the right and do nothing when an argument is not finite;
`trig k` is the cosine and the sine of the angle `k * pi` as the browser computes them,
and a rotation by 0 changes nothing. -/
def transformStep (trig : ℚ → ℚ × ℚ) (t : Plotter) : DrawOp → Plotter
  | DrawOp.save => ⟨t.current, t.current :: t.saved⟩
  | DrawOp.restore =>
    match t.saved with
    | [] => t
    | m :: rest => ⟨m, rest⟩
  | DrawOp.translate (JSNum.fin x) (JSNum.fin y) =>
    ⟨t.current.mul (Affine.translation x y), t.saved⟩
  | DrawOp.rotate (JSNum.fin k) =>
    if k = 0 then t else ⟨t.current.mul (Affine.rotation (trig k)), t.saved⟩
  | DrawOp.scale (JSNum.fin x) (JSNum.fin y) => ⟨t.current.mul (Affine.scaling x y), t.saved⟩
  | _ => t

/-- The transform state after a list of calls. -/
def transformAfter (trig : ℚ → ℚ × ℚ) (start : Plotter) (calls : List DrawOp) : Plotter :=
  calls.foldl (transformStep trig) start

/-- The `drawImage` calls of a list of calls, each with the transform in effect when it
is issued and its destination rectangle. -/
def imagePlacements (trig : ℚ → ℚ × ℚ) : Plotter → List DrawOp →
    List (Affine × JSNum × JSNum × JSNum × JSNum)
  | _, [] => []
  | t, DrawOp.drawImage st src dx dy dw dh :: rest =>
    (t.current, dx, dy, dw, dh) ::
      imagePlacements trig (transformStep trig t (DrawOp.drawImage st src dx dy dw dh)) rest
  | t, op :: rest => imagePlacements trig (transformStep trig t op) rest

/-- The matrix of a CSS `transform` list: the product of its functions from left to
right, taken about the transform origin. -/
def cssMatrix (trig : ℚ → ℚ × ℚ) : List CssTransform → Affine
  | [] => Affine.identity
  | CssTransform.translate x y :: rest => (Affine.translation x y).mul (cssMatrix trig rest)
  | CssTransform.scale s :: rest => (Affine.scaling s s).mul (cssMatrix trig rest)
  | CssTransform.rotate degrees :: rest =>
    if degrees = 0 then cssMatrix trig rest
    else (Affine.rotation (trig (degrees / 180))).mul (cssMatrix trig rest)

/-- The scale the export reads from `imageData`, 1 by default. -/
def storedScale (page : Page) : ℚ := (page.imageData.bind fun d => d.scale).getD 1

/-- The horizontal offset the export reads from `imageData`, 0 by default. -/
def storedOffsetX (page : Page) : ℚ := (page.imageData.bind fun d => d.offsetX).getD 0

/-- The vertical offset the export reads from `imageData`, 0 by default. -/
def storedOffsetY (page : Page) : ℚ := (page.imageData.bind fun d => d.offsetY).getD 0

/-- The rotation in degrees the export reads from `imageData`, 0 by default. -/
def storedRotation (page : Page) : ℚ := (page.imageData.bind fun d => d.rotation).getD 0

/-- The seven calls of `drawImageToCanvas` on a canvas of the given size. -/
def imageCalls (page : Page) (st : CanvasState) (src : Str) (width height : ℕ) :
    List DrawOp :=
  [DrawOp.save,
    DrawOp.translate (JSNum.fin ((width : ℚ) / 2)) (JSNum.fin ((height : ℚ) / 2)),
    DrawOp.rotate (JSNum.fin (storedRotation page / 180)),
    DrawOp.scale (JSNum.fin (storedScale page)) (JSNum.fin (storedScale page)),
    DrawOp.translate (JSNum.fin (-(width : ℚ) / 2)) (JSNum.fin (-(height : ℚ) / 2)),
    DrawOp.drawImage st src (JSNum.fin (storedOffsetX page)) (JSNum.fin (storedOffsetY page))
      (JSNum.fin (width : ℚ)) (JSNum.fin (height : ℚ)),
    DrawOp.restore]

/-! ## Observations on the effects of an export -/

/-- The files downloaded, in order. -/
def downloads : List Effect → List (Blob × Str)
  | [] => []
  | Effect.download blob filename :: rest => (blob, filename) :: downloads rest
  | _ :: rest => downloads rest

/-- The messages of the notifications of one kind, in order. -/
def notices (kind : NoticeKind) : List Effect → List String
  | [] => []
  | Effect.notify k message :: rest =>
    if k = kind then message :: notices kind rest else notices kind rest
  | _ :: rest => notices kind rest

/-- The sizes of the canvases created, in order. -/
def canvasesCreated : List Effect → List (ℕ × ℕ)
  | [] => []
  | Effect.createCanvas width height :: rest => (width, height) :: canvasesCreated rest
  | _ :: rest => canvasesCreated rest

/-- The progress reports, in order. -/
def progressShown : List Effect → List Progress
  | [] => []
  | Effect.progress p :: rest => p :: progressShown rest
  | _ :: rest => progressShown rest

/-- The page with the filters of `imageData` replaced. -/
def Page.withFilters (page : Page) (filters : List (Str × Str)) : Page :=
  { page with imageData := page.imageData.map fun d => { d with filters := filters } }

/-- The displayed background image of the examples. -/
def storyPicture : ImageElement := ⟨"block".toList, "blob:story".toList⟩

/-- A page with a background image zoomed to scale 2 and dragged 10 px to the right, and
no text node. -/
def zoomedPage : Page where
  storyImage := some storyPicture
  storyCanvas := some ⟨defaultSurface, []⟩
  imageData := some ⟨some 2, some 10, some 0, some 0, []⟩

/-- The same page with the image not dragged. -/
def zoomedPageAtRest : Page where
  storyImage := some storyPicture
  storyCanvas := some ⟨defaultSurface, []⟩
  imageData := some ⟨some 2, some 0, some 0, some 0, []⟩

/-- A page with a background image whose brightness has been set to 150%, and no text
node. -/
def filteredPage : Page where
  storyImage := some storyPicture
  storyCanvas := some ⟨defaultSurface, []⟩
  imageData := some ⟨some 1, some 0, some 0, some 0,
    [("brightness".toList, "150%".toList)]⟩

/-- A trigonometry for the examples, exact at the angle 0. -/
def flatTrig : ℚ → ℚ × ℚ := fun _ => (1, 0)

/-- A host for the examples: the plain browser, an encoder that always gives a blob of
1000 bytes, a clock that stands still. -/
def plainHost : Host where
  browser := plainBrowser
  encode := fun _ _ _ => EncodeOutcome.blob 1000
  isoTime := fun _ => "2026-01-02T03:04:05.678Z".toList
  nullBlobError := ⟨"Failed to execute createObjectURL"⟩
  noConfigError := ⟨"Cannot destructure property width of undefined"⟩

/-- The plain host with a browser in which no image loads. -/
def brokenImageHost : Host :=
  { plainHost with browser := { plainBrowser with imageLoads := fun _ => false } }

/-- The plain host with an encoder that hands back `null` for `image/jpeg`. -/
def nullJpegHost : Host :=
  { plainHost with
    encode := fun _ mimeType _ =>
      if mimeType = "image/jpeg" then EncodeOutcome.null else EncodeOutcome.blob 1000 }

/-- The plain host with an encoder that throws. -/
def throwingHost : Host :=
  { plainHost with encode := fun _ _ _ => EncodeOutcome.throws ⟨"encoding failed"⟩ }

/-- A computed style with a text shadow as `getComputedStyle` serialises it, the colour
before the lengths: 1px to the right, 2px down, 3px of blur, black. -/
def shadowedStyle : ComputedStyle :=
  { plainStyle with textShadow := "rgb(0, 0, 0) 1px 2px 3px".toList }

/-- The number written by the digits `ip`, a point and the digits `fp`. -/
def decimalValue (ip fp : Str) : ℚ :=
  (digitsValue 10 ip : ℚ) + (digitsValue 10 fp : ℚ) / 10 ^ fp.length

/-- The decimal literal with the integer digits `ip` and the fraction digits `fp`; no
point is written when there is no fraction digit. -/
def decimalText (ip fp : Str) : Str := ip ++ (if fp = [] then [] else '.' :: fp)

/-- A `strokeText` call and the `fillText` call for the same text at the same place,
under the same state. -/
def strokeThenFill (st : CanvasState) (p : Str × JSNum × JSNum) : List DrawOp :=
  [DrawOp.strokeText st p.1 p.2.1 p.2.2, DrawOp.fillText st p.1 p.2.1 p.2.2]

/-- A node with a red text stroke of 2px, as the computed style serialises it. -/
def strokedNode : TextElement :=
  ⟨⟨70, 457 / 2, 140, 40⟩,
    { plainStyle with webkitTextStroke := "2px rgb(255, 0, 0)".toList }, "Hi".toList⟩

/-! ## The size of the editing surface: `CONFIG.CANVAS_SIZE` (`app.js`) -/

/-- The constant `CONFIG.CANVAS_SIZE`: width and height of the editing surface. -/
def canvasSize : ℕ × ℕ := (280, 497)

/-- The text, the stroke style and the line width of the `strokeText` calls of a list of
calls, in order. -/
def strokeTextCalls : List DrawOp → List (Str × Str × ℚ)
  | [] => []
  | DrawOp.strokeText st t _ _ :: r => (t, st.strokeStyle, st.lineWidth) :: strokeTextCalls r
  | _ :: r => strokeTextCalls r

/-- A node with the text shadow of `shadowedStyle`. -/
def shadowedNode : TextElement := ⟨⟨70, 457 / 2, 140, 40⟩, shadowedStyle, "Hi".toList⟩

/-- The default surface with a stroked node and, after it, a node without shadow or
stroke. -/
def strokedThenPlainPage : Page where
  storyImage := none
  storyCanvas := some ⟨defaultSurface, [strokedNode, centredNode]⟩
  imageData := none

/-- The default surface with a shadowed node and, after it, a node without shadow or
stroke. -/
def shadowedThenPlainPage : Page where
  storyImage := none
  storyCanvas := some ⟨defaultSurface, [shadowedNode, centredNode]⟩
  imageData := none

/-- JavaScript `lines.join(' ')`: the lines with one space between two of them. -/
def joinSpace : List Str → Str
  | [] => []
  | [l] => l
  | l :: r :: rest => l ++ space :: joinSpace (r :: rest)

/-- A browser without the Web Share API and without an image clipboard, whose canvases
give the data URL `data:image/png;base64,` and whose windows open. -/
def plainNavigator : Navigator where
  clipboardWrite := none
  share := none
  toDataURL := fun _ => Except.ok "data:image/png;base64,".toList
  windowOpens := true
  nullBlobTypeError := ⟨"Cannot read properties of null"⟩
  nullWindowError := ⟨"Cannot read properties of null"⟩

/-- The plain navigator with a Web Share API that shares everything. -/
def sharingNavigator : Navigator :=
  { plainNavigator with share := some fun _ _ => ShareOutcome.shared }

/-- An editor for the examples: the generated ids are `x`, `xx`, and so on, the clock
counts from 1000, a new element looks as its options say, and applied properties
replace the look. -/
def plainEditor : Editor where
  generateId := fun n => List.replicate (n + 1) 'x'
  now := fun n => 1000 + n
  created := fun options => options
  applied := fun _ properties => properties

/-- The snapshot taken right after the text `text_a` was added beside the default
text. -/
def snapshotWithText : AppSnapshot where
  version := "3.0.0".toList
  elements := []
  settings := []
  canvas := some
    { selectedElementId := some "text_a".toList
      imageData := ⟨some 1, some 0, some 0, some 0, []⟩
      elements := [⟨"defaultText".toList, [], "Hello".toList⟩,
        ⟨"text_a".toList, [], "New".toList⟩] }
  timestamp := 1

/-- The snapshot taken right after the text `text_a` was deleted again. -/
def snapshotWithoutText : AppSnapshot where
  version := "3.0.0".toList
  elements := []
  settings := []
  canvas := some
    { selectedElementId := some "defaultText".toList
      imageData := ⟨some 1, some 0, some 0, some 0, []⟩
      elements := [⟨"defaultText".toList, [], "Hello".toList⟩] }
  timestamp := 2

/-- The application after a text was added, deleted, and the deletion undone once: the
document holds the default text only, the undo stack the snapshot with the added text,
the redo stack the snapshot without it. -/
def deletedTextState : AppState where
  version := "3.0.0".toList
  appElements := []
  settings := []
  hasUnsavedChanges := true
  undoStack := [snapshotWithText]
  redoStack := [snapshotWithoutText]
  nodes := [⟨0, "defaultText".toList, "Hello".toList, []⟩]
  entries := [⟨"defaultText".toList, "defaultText".toList, 0⟩]
  selectedElement := some 0
  imageData := ⟨some 1, some 0, some 0, some 0, []⟩
  idsDrawn := 1
  clockReads := 3
  nodesMade := 2

/-- The ids of the elements of the canvas in every snapshot of a stack. -/
def stackElementIds (stack : List AppSnapshot) : List (List Str) :=
  stack.map fun snapshot =>
    match snapshot.canvas with
    | some canvas => canvas.elements.map fun e => e.id
    | none => []

/-- The line height of a 24px text exported from the surface 280 wide to 1080, as
`drawSingleTextElement` computes it in doubles: `parseInt('24px') * (1080 / 280) * 1.2`,
the literal `1.2` being the double nearest to 6/5. -/
def defaultLineHeight : Binary :=
  ((Binary.ofNat 24).mul ((Binary.ofNat 1080).div (Binary.ofNat 280))).mul
    ((Binary.ofNat 6).div (Binary.ofNat 5))

/-! # Theorems -/

/-! ## Arithmetic of `JSNum` on finite values -/

namespace JSNum

@[simp] theorem fin_add (a b : ℚ) : fin a + fin b = fin (a + b) := rfl

@[simp] theorem fin_sub (a b : ℚ) : fin a - fin b = fin (a - b) := by
  show add (fin a) (neg (fin b)) = fin (a - b)
  simp [add, neg, sub_eq_add_neg]

@[simp] theorem fin_mul (a b : ℚ) : fin a * fin b = fin (a * b) := rfl

theorem fin_div (a b : ℚ) (h : b ≠ 0) : fin a / fin b = fin (a / b) := by
  show div (fin a) (fin b) = fin (a / b)
  simp [div, h]

@[simp] theorem fin_div_two (a : ℚ) : fin a / fin 2 = fin (a / 2) := by
  show div (fin a) (fin 2) = fin (a / 2)
  simp [div]

@[simp] theorem fin_neg (a : ℚ) : -fin a = fin (-a) := rfl

@[simp] theorem ofNat_eq (n : ℕ) : ofNat n = fin (n : ℚ) := rfl

/-- Away from `NaN`, `a > b` is the negation of `a <= b`. -/
theorem gt_eq_not_le (a : ℚ) (m : JSNum) (h : m ≠ nan) : gt (fin a) m = !le (fin a) m := by
  cases m with
  | fin q => by_cases hq : a ≤ q <;> simp [gt, le, hq, not_lt.mpr, not_le.mp]
  | posInf => rfl
  | negInf => rfl
  | nan => exact absurd rfl h

/-- If `a > m` holds, so does `a' > m` for every larger `a'`. -/
theorem gt_mono (a a' : ℚ) (m : JSNum) (h : gt (fin a) m = true) (haa : a ≤ a') :
    gt (fin a') m = true := by
  cases m with
  | fin q => simp only [gt, decide_eq_true_eq] at h ⊢; exact lt_of_lt_of_le h haa
  | posInf => simp [gt] at h
  | negInf => rfl
  | nan => simp [gt] at h

/-- If `a <= m` holds, `a' > m` fails for every smaller `a'`. -/
theorem gt_false_of_le (a a' : ℚ) (m : JSNum) (h : le (fin a) m = true) (haa : a' ≤ a) :
    gt (fin a') m = false := by
  cases m with
  | fin q =>
    simp only [le, decide_eq_true_eq] at h
    simp only [gt, decide_eq_false_iff_not, not_lt]
    exact le_trans haa h
  | posInf => rfl
  | negInf => simp [le] at h
  | nan => simp [le] at h

end JSNum

/-! ## The line breaking of `drawWrappedText` against the greedy word-wrap -/

/-- One turn of the loop of `drawWrappedText` against one step of the greedy word-wrap:
same current line, and the lines of the code are the non-empty lines of the greedy one. -/
theorem breakStep_greedyStep (measure : Str → ℚ) (m : JSNum) (hm : m ≠ JSNum.nan)
    (l1 l2 : List Str) (c word : Str) (h : l1 = l2.filter (fun l => decide (l ≠ []))) :
    (breakStep measure m (l1, c) word).2 = (greedyStep measure m (l2, c) word).2 ∧
      (breakStep measure m (l1, c) word).1
        = (greedyStep measure m (l2, c) word).1.filter (fun l => decide (l ≠ [])) := by
  subst h
  by_cases hc : c = []
  · subst hc
    cases hle : JSNum.le (JSNum.fin (measure word)) m <;>
      simp [breakStep, greedyStep, hle]
  · cases hle : JSNum.le (JSNum.fin (measure (c ++ space :: word))) m <;>
      simp [breakStep, greedyStep, JSNum.gt_eq_not_le _ _ hm, hle, hc, List.filter_append]

/-- The loop of `drawWrappedText` against the fold of the greedy word-wrap. -/
theorem breakFold_greedyFold (measure : Str → ℚ) (m : JSNum) (hm : m ≠ JSNum.nan)
    (words : List Str) :
    ∀ (l1 l2 : List Str) (c : Str), l1 = l2.filter (fun l => decide (l ≠ [])) →
      (words.foldl (breakStep measure m) (l1, c)).2
          = (words.foldl (greedyStep measure m) (l2, c)).2 ∧
        (words.foldl (breakStep measure m) (l1, c)).1
          = (words.foldl (greedyStep measure m) (l2, c)).1.filter (fun l => decide (l ≠ [])) := by
  induction words with
  | nil => intro l1 l2 c h; exact ⟨rfl, h⟩
  | cons w ws ih =>
    intro l1 l2 c h
    obtain ⟨h2, h1⟩ := breakStep_greedyStep measure m hm l1 l2 c w h
    simp only [List.foldl_cons]
    have key := ih (breakStep measure m (l1, c) w).1 (greedyStep measure m (l2, c) w).1
      (breakStep measure m (l1, c) w).2 h1
    rw [show breakStep measure m (l1, c) w
        = ((breakStep measure m (l1, c) w).1, (breakStep measure m (l1, c) w).2) from rfl,
      show greedyStep measure m (l2, c) w
        = ((greedyStep measure m (l2, c) w).1, (greedyStep measure m (l2, c) w).2) from rfl,
      ← h2]
    exact key

/-- C1, as amended.  For every text, every width-measuring function and every `maxWidth`
other than `NaN`, the lines of `drawWrappedText` are the lines of the greedy word-wrap
of the specification with the empty lines left out: the code commits the current line
only when it is not empty, both when a word overflows and at the end of the text. -/
theorem breakIntoLines_eq_greedyWrap_filter (measure : Str → ℚ) (maxWidth : JSNum) (text : Str)
    (hm : maxWidth ≠ JSNum.nan) :
    breakIntoLines measure maxWidth text
      = (greedyWrap measure maxWidth text).filter (fun l => decide (l ≠ [])) := by
  obtain ⟨h2, h1⟩ := breakFold_greedyFold measure maxWidth hm (splitSpace text) [] [] [] rfl
  unfold breakIntoLines greedyWrap breakLoop
  simp only [List.filter_append]
  rw [← h1, ← h2]
  by_cases hc : (List.foldl (breakStep measure maxWidth) ([], []) (splitSpace text)).2 = []
  · simp [hc]
  · simp [hc]

/-- Witness of C1 as amended: the text `ab cd e` wrapped at four characters. -/
theorem breakIntoLines_eq_greedyWrap_filter_witness :
    JSNum.fin 4 ≠ JSNum.nan ∧
      breakIntoLines charCount (JSNum.fin 4) "ab cd e".toList
        = (greedyWrap charCount (JSNum.fin 4) "ab cd e".toList).filter
            (fun l => decide (l ≠ [])) :=
  ⟨by decide, breakIntoLines_eq_greedyWrap_filter charCount (JSNum.fin 4) "ab cd e".toList
    (by decide)⟩

/-- C1 as stated fails.  A first word wider than `maxWidth`: the greedy word-wrap of the
specification commits the empty current line before it, `drawWrappedText` does not.  The
empty text: the greedy word-wrap commits one empty line, `drawWrappedText` none.  A
`maxWidth` that is `NaN`: no extended line is `<= NaN`, so the greedy word-wrap puts
every word on a line, while `drawWrappedText`, which tests `> NaN`, never breaks. -/
theorem greedyWrap_differs :
    breakIntoLines charCount (JSNum.fin 2) "abc".toList = ["abc".toList] ∧
      greedyWrap charCount (JSNum.fin 2) "abc".toList = [[], "abc".toList] ∧
      breakIntoLines charCount (JSNum.fin 2) [] = [] ∧
      greedyWrap charCount (JSNum.fin 2) [] = [[]] ∧
      breakIntoLines charCount JSNum.nan "a b".toList = ["a b".toList] ∧
      greedyWrap charCount JSNum.nan "a b".toList = [[], "a".toList, "b".toList] := by
  decide

/-! ## Words -/

theorem splitSpace_cons (c : Char) (t : Str) :
    splitSpace (c :: t)
      = if c = space then [] :: splitSpace t else (splitSpace t).modifyHead (List.cons c) := by
  unfold splitSpace List.splitOn
  rw [List.splitOnP_cons]
  by_cases h : c = space <;> simp [h]

theorem splitSpace_ne_nil (t : Str) : splitSpace t ≠ [] := by
  unfold splitSpace List.splitOn
  exact List.splitOnP_ne_nil _ _

/-- No word of a text has a space in it. -/
theorem space_not_mem_of_mem_splitSpace (t : Str) :
    ∀ w ∈ splitSpace t, space ∉ w := by
  induction t with
  | nil => intro w hw; simp [splitSpace] at hw; simp [hw]
  | cons c t ih =>
    intro w hw
    rw [splitSpace_cons] at hw
    by_cases h : c = space
    · simp only [h, if_true, List.mem_cons] at hw
      rcases hw with rfl | hw
      · simp
      · exact ih w hw
    · simp only [h, if_false] at hw
      cases hs : splitSpace t with
      | nil => exact absurd hs (splitSpace_ne_nil t)
      | cons w0 ws =>
        rw [hs] at hw ih
        simp only [List.modifyHead_cons, List.mem_cons] at hw
        rcases hw with rfl | hw
        · intro hmem
          rcases List.mem_cons.mp hmem with heq | hmem
          · exact h heq.symm
          · exact ih w0 (List.mem_cons_self _ _) hmem
        · exact ih w (List.mem_cons_of_mem _ hw)

/-- A text without a space is its own single word. -/
theorem splitSpace_eq_single (w : Str) (h : space ∉ w) : splitSpace w = [w] := by
  unfold splitSpace List.splitOn
  apply List.splitOnP_eq_single
  intro x hx hxs
  have : x = space := by simpa using hxs
  exact h (this ▸ hx)

/-- The words of a line to which a word has been appended after a space. -/
theorem splitSpace_append_word (l w : Str) (h : space ∉ w) :
    splitSpace (l ++ space :: w) = splitSpace l ++ [w] := by
  induction l with
  | nil =>
    rw [List.nil_append, splitSpace_cons, if_pos rfl, splitSpace_eq_single w h]
    simp [splitSpace]
  | cons c l ih =>
    rw [List.cons_append, splitSpace_cons, splitSpace_cons, ih]
    by_cases hc : c = space
    · simp [hc]
    · simp only [hc, if_false]
      cases hs : splitSpace l with
      | nil => exact absurd hs (splitSpace_ne_nil l)
      | cons w0 ws => simp

/-! ## One turn of the line-breaking loop -/

theorem breakStep_empty (measure : Str → ℚ) (m : JSNum) (lines : List Str) (word : Str) :
    breakStep measure m (lines, []) word = (lines, word) := by
  simp [breakStep]

theorem breakStep_commit (measure : Str → ℚ) (m : JSNum) (lines : List Str) (cur word : Str)
    (hc : cur ≠ []) (hgt : JSNum.gt (JSNum.fin (measure (cur ++ space :: word))) m = true) :
    breakStep measure m (lines, cur) word = (lines ++ [cur], word) := by
  simp [breakStep, hc, hgt]

theorem breakStep_extend (measure : Str → ℚ) (m : JSNum) (lines : List Str) (cur word : Str)
    (hc : cur ≠ []) (hgt : JSNum.gt (JSNum.fin (measure (cur ++ space :: word))) m = false) :
    breakStep measure m (lines, cur) word = (lines, cur ++ space :: word) := by
  simp [breakStep, hc, hgt]

/-- The three outcomes of one turn of the loop. -/
theorem breakStep_cases (measure : Str → ℚ) (m : JSNum) (lines : List Str) (cur word : Str) :
    (cur = [] ∧ breakStep measure m (lines, cur) word = (lines, word)) ∨
    (cur ≠ [] ∧ JSNum.gt (JSNum.fin (measure (cur ++ space :: word))) m = true ∧
      breakStep measure m (lines, cur) word = (lines ++ [cur], word)) ∨
    (cur ≠ [] ∧ JSNum.gt (JSNum.fin (measure (cur ++ space :: word))) m = false ∧
      breakStep measure m (lines, cur) word = (lines, cur ++ space :: word)) := by
  by_cases hc : cur = []
  · left; subst hc; exact ⟨rfl, breakStep_empty measure m lines word⟩
  · cases hgt : JSNum.gt (JSNum.fin (measure (cur ++ space :: word))) m
    · right; right; exact ⟨hc, rfl, breakStep_extend measure m lines cur word hc hgt⟩
    · right; left; exact ⟨hc, rfl, breakStep_commit measure m lines cur word hc hgt⟩

/-! ## A word wider than `maxWidth` -/

/-- Once the over-wide word `w` is the current line or among the lines, it stays so. -/
theorem wide_word_kept (measure : Str → ℚ) (m : JSNum) (w : Str)
    (happ : ∀ l v : Str, measure l ≤ measure (l ++ space :: v))
    (hne : w ≠ []) (hwide : JSNum.gt (JSNum.fin (measure w)) m = true)
    (st : List Str × Str) (v : Str) (h : w ∈ st.1 ∨ st.2 = w) :
    w ∈ (breakStep measure m st v).1 ∨ (breakStep measure m st v).2 = w := by
  obtain ⟨lines, cur⟩ := st
  rcases h with h | h
  · left
    rcases breakStep_cases measure m lines cur v with ⟨_, e⟩ | ⟨_, _, e⟩ | ⟨_, _, e⟩ <;>
      simp [e] <;> simp_all
  · left
    simp only at h
    subst h
    rw [breakStep_commit measure m lines cur v hne
      (JSNum.gt_mono _ _ m hwide (happ cur v))]
    simp

/-- After the turn of the loop that reads the over-wide word `w`, `w` is the current
line. -/
theorem wide_word_starts_line (measure : Str → ℚ) (m : JSNum) (w : Str)
    (hpre : ∀ l v : Str, measure v ≤ measure (l ++ space :: v))
    (hwide : JSNum.gt (JSNum.fin (measure w)) m = true) (st : List Str × Str) :
    (breakStep measure m st w).2 = w := by
  obtain ⟨lines, cur⟩ := st
  by_cases hc : cur = []
  · subst hc; rw [breakStep_empty]
  · rw [breakStep_commit measure m lines cur w hc (JSNum.gt_mono _ _ m hwide (hpre cur w))]

theorem wide_word_fold (measure : Str → ℚ) (m : JSNum) (w : Str)
    (happ : ∀ l v : Str, measure l ≤ measure (l ++ space :: v))
    (hpre : ∀ l v : Str, measure v ≤ measure (l ++ space :: v))
    (hne : w ≠ []) (hwide : JSNum.gt (JSNum.fin (measure w)) m = true) (words : List Str) :
    ∀ st : List Str × Str, ((w ∈ st.1 ∨ st.2 = w) ∨ w ∈ words) →
      w ∈ (words.foldl (breakStep measure m) st).1 ∨
        (words.foldl (breakStep measure m) st).2 = w := by
  induction words with
  | nil =>
    intro st h
    rcases h with h | h
    · exact h
    · simp at h
  | cons v vs ih =>
    intro st h
    simp only [List.foldl_cons]
    apply ih
    rcases h with h | h
    · left; exact wide_word_kept measure m w happ hne hwide st v h
    · rcases List.mem_cons.mp h with rfl | h
      · left; right; exact wide_word_starts_line measure m w hpre hwide st
      · right; exact h

theorem wideAlone_step (measure : Str → ℚ) (m : JSNum) (w : Str)
    (happ : ∀ l v : Str, measure l ≤ measure (l ++ space :: v))
    (hpre : ∀ l v : Str, measure v ≤ measure (l ++ space :: v))
    (hwide : JSNum.gt (JSNum.fin (measure w)) m = true)
    (st : List Str × Str) (v : Str) (hv : space ∉ v) (h : WideAlone measure w st) :
    WideAlone measure w (breakStep measure m st v) := by
  obtain ⟨lines, cur⟩ := st
  obtain ⟨h1, h2, h3⟩ := h
  simp only at h1 h2 h3
  have single : (∀ u ∈ splitSpace v, measure u ≤ measure v) ∧ (w ∈ splitSpace v → v = w) := by
    rw [splitSpace_eq_single v hv]
    constructor
    · intro u hu; rw [List.mem_singleton.mp hu]
    · intro hw; exact (List.mem_singleton.mp hw).symm
  rcases breakStep_cases measure m lines cur v with ⟨_, e⟩ | ⟨_, _, e⟩ | ⟨hc, hgt, e⟩
  · rw [e]; exact ⟨single.1, single.2, h3⟩
  · rw [e]
    refine ⟨single.1, single.2, ?_⟩
    intro l hl
    rcases List.mem_append.mp hl with hl | hl
    · exact h3 l hl
    · rw [List.mem_singleton.mp hl]; exact h2
  · rw [e]
    have hwords : ∀ u ∈ splitSpace (cur ++ space :: v), measure u ≤ measure (cur ++ space :: v) := by
      intro u hu
      rw [splitSpace_append_word cur v hv] at hu
      rcases List.mem_append.mp hu with hu | hu
      · exact le_trans (h1 u hu) (happ cur v)
      · rw [List.mem_singleton.mp hu]; exact hpre cur v
    refine ⟨hwords, ?_, h3⟩
    intro hw
    have := JSNum.gt_mono _ _ m hwide (hwords w hw)
    rw [hgt] at this
    exact absurd this (by simp)

theorem wideAlone_fold (measure : Str → ℚ) (m : JSNum) (w : Str)
    (happ : ∀ l v : Str, measure l ≤ measure (l ++ space :: v))
    (hpre : ∀ l v : Str, measure v ≤ measure (l ++ space :: v))
    (hwide : JSNum.gt (JSNum.fin (measure w)) m = true) (words : List Str) :
    ∀ st : List Str × Str, (∀ v ∈ words, space ∉ v) → WideAlone measure w st →
      WideAlone measure w (words.foldl (breakStep measure m) st) := by
  induction words with
  | nil => intro st _ h; exact h
  | cons v vs ih =>
    intro st hv h
    simp only [List.foldl_cons]
    apply ih
    · intro u hu; exact hv u (List.mem_cons_of_mem _ hu)
    · exact wideAlone_step measure m w happ hpre hwide st v (hv v (List.mem_cons_self _ _)) h

/-- C2, as amended.  Assume that appending a word to a line after a space never gives a
line measured narrower than the line was, nor narrower than the appended word alone.
Then for every text and every `maxWidth`, a non-empty word of the text whose own measured
width exceeds `maxWidth` is one of the lines of `drawWrappedText`, whole, and every line
that holds it as a word is that word alone.  The line breaking is a total function: it
returns on every input. -/
theorem wide_word_alone_on_its_line (measure : Str → ℚ) (maxWidth : JSNum) (text w : Str)
    (happ : ∀ l v : Str, measure l ≤ measure (l ++ space :: v))
    (hpre : ∀ l v : Str, measure v ≤ measure (l ++ space :: v))
    (hw : w ∈ splitSpace text) (hne : w ≠ [])
    (hwide : JSNum.gt (JSNum.fin (measure w)) maxWidth = true) :
    w ∈ breakIntoLines measure maxWidth text ∧
      ∀ line ∈ breakIntoLines measure maxWidth text, w ∈ splitSpace line → line = w := by
  have hfold := wide_word_fold measure maxWidth w happ hpre hne hwide (splitSpace text) ([], [])
    (Or.inr hw)
  have hinv := wideAlone_fold measure maxWidth w happ hpre hwide (splitSpace text) ([], [])
    (space_not_mem_of_mem_splitSpace text)
    ⟨by intro v hv; simp [splitSpace] at hv; simp [hv],
      by intro hv; simp [splitSpace] at hv; simp [hv],
      by intro l hl; simp at hl⟩
  unfold breakIntoLines breakLoop
  obtain ⟨_, h2, h3⟩ := hinv
  constructor
  · by_cases hc : (List.foldl (breakStep measure maxWidth) ([], []) (splitSpace text)).2 = []
    · rcases hfold with h | h
      · simpa [hc] using h
      · rw [hc] at h; exact absurd h.symm hne
    · rcases hfold with h | h
      · simp [hc, h]
      · simp [hc, h, hne]
  · intro line hl
    by_cases hc : (List.foldl (breakStep measure maxWidth) ([], []) (splitSpace text)).2 = []
    · simp only [hc, ne_eq, not_true_eq_false, if_false] at hl
      exact h3 line hl
    · simp only [hc, ne_eq, not_false_eq_true, if_true] at hl
      rcases List.mem_append.mp hl with hl | hl
      · exact h3 line hl
      · rw [List.mem_singleton.mp hl]; exact h2

/-- Witness of C2 as amended: `bigword` in `a bigword c`, one unit a character, wrapped
at three units. -/
theorem wide_word_alone_on_its_line_witness :
    "bigword".toList ∈ breakIntoLines charCount (JSNum.fin 3) "a bigword c".toList ∧
      ∀ line ∈ breakIntoLines charCount (JSNum.fin 3) "a bigword c".toList,
        "bigword".toList ∈ splitSpace line → line = "bigword".toList :=
  wide_word_alone_on_its_line charCount (JSNum.fin 3) "a bigword c".toList "bigword".toList
    (by intro l v; simp only [charCount, List.length_append, List.length_cons]; push_cast
        have : (0 : ℚ) ≤ (v.length : ℚ) := Nat.cast_nonneg _
        linarith)
    (by intro l v; simp only [charCount, List.length_append, List.length_cons]; push_cast
        have : (0 : ℚ) ≤ (l.length : ℚ) := Nat.cast_nonneg _
        linarith)
    (by decide) (by decide) (by decide)

theorem firstWordLength_append (l v : Str) :
    firstWordLength (l ++ space :: v) = firstWordLength l := by
  unfold firstWordLength
  congr 2
  induction l with
  | nil => simp [List.takeWhile]
  | cons c l ih =>
    by_cases hc : c = space
    · simp [List.takeWhile, hc]
    · simp [List.takeWhile_cons, hc, ih]

/-- C2 as stated fails.  The measure `firstWordLength` never decreases when a word is
appended to a line, the word `big` of the text `a big` measures 3, wider than the
`maxWidth` 2, and yet `drawWrappedText` puts it on the line `a big` after the word `a`:
the extended line is measured 1, the width of its first word. -/
theorem wide_word_not_alone :
    (∀ l v : Str, firstWordLength l ≤ firstWordLength (l ++ space :: v)) ∧
      "big".toList ∈ splitSpace "a big".toList ∧
      JSNum.gt (JSNum.fin (firstWordLength "big".toList)) (JSNum.fin 2) = true ∧
      breakIntoLines firstWordLength (JSNum.fin 2) "a big".toList = ["a big".toList] ∧
      "big".toList ∉ breakIntoLines firstWordLength (JSNum.fin 2) "a big".toList := by
  refine ⟨fun l v => le_of_eq (firstWordLength_append l v).symm, ?_, ?_, ?_, ?_⟩ <;> decide

/-! ## A text that fits on one line -/

theorem appendWords_cons_left (c : Char) (l : Str) (words : List Str) :
    appendWords (c :: l) words = c :: appendWords l words := by
  induction words generalizing l with
  | nil => rfl
  | cons w ws ih => simp only [appendWords, List.foldl_cons] at ih ⊢; exact ih (l ++ space :: w)

theorem appendWords_eq_append (l : Str) (words : List Str) :
    ∃ tail : Str, appendWords l words = l ++ tail := by
  induction words generalizing l with
  | nil => exact ⟨[], by simp [appendWords]⟩
  | cons w ws ih =>
    obtain ⟨tail, ht⟩ := ih (l ++ space :: w)
    refine ⟨space :: w ++ tail, ?_⟩
    simp only [appendWords, List.foldl_cons] at ht ⊢
    rw [ht]; simp

/-- A text is its first word followed by its other words, each after one space. -/
theorem appendWords_splitSpace (t : Str) :
    ∀ (w : Str) (rest : List Str), splitSpace t = w :: rest → appendWords w rest = t := by
  induction t with
  | nil =>
    intro w rest h
    simp [splitSpace] at h
    obtain ⟨rfl, rfl⟩ := h
    rfl
  | cons c t ih =>
    intro w rest h
    rw [splitSpace_cons] at h
    cases hs : splitSpace t with
    | nil => exact absurd hs (splitSpace_ne_nil t)
    | cons w0 ws =>
      rw [hs] at h
      by_cases hc : c = space
      · simp only [hc, if_true, List.cons.injEq] at h
        obtain ⟨rfl, rfl⟩ := h
        have := ih w0 ws hs
        simp only [appendWords, List.foldl_cons, List.nil_append] at this ⊢
        have h2 := appendWords_cons_left space w0 ws
        simp only [appendWords] at h2
        rw [h2, this, hc]
      · simp only [hc, if_false, List.modifyHead_cons, List.cons.injEq] at h
        obtain ⟨rfl, rfl⟩ := h
        rw [appendWords_cons_left, ih w0 ws hs]

/-- While every extension fits, the loop only extends the current line. -/
theorem breakFold_fits (measure : Str → ℚ) (m : JSNum)
    (hmono : ∀ a t c : Str, measure t ≤ measure (a ++ t ++ c)) (words : List Str) :
    ∀ (lines : List Str) (cur : Str), cur ≠ [] →
      JSNum.le (JSNum.fin (measure (appendWords cur words))) m = true →
      words.foldl (breakStep measure m) (lines, cur) = (lines, appendWords cur words) := by
  induction words with
  | nil => intro lines cur _ _; rfl
  | cons w ws ih =>
    intro lines cur hc hfit
    simp only [List.foldl_cons]
    have hle : measure (cur ++ space :: w) ≤ measure (appendWords cur (w :: ws)) := by
      obtain ⟨tail, ht⟩ := appendWords_eq_append (cur ++ space :: w) ws
      have := hmono [] (cur ++ space :: w) tail
      simp only [List.nil_append] at this
      simp only [appendWords, List.foldl_cons] at ht ⊢
      rw [ht]; exact this
    rw [breakStep_extend measure m lines cur w hc (JSNum.gt_false_of_le _ _ m hfit hle)]
    exact ih lines (cur ++ space :: w) (by simp) hfit

theorem breakLoop_cons_space (measure : Str → ℚ) (m : JSNum) (t : Str) :
    breakLoop measure m (space :: t) = breakLoop measure m t := by
  unfold breakLoop
  rw [splitSpace_cons, if_pos rfl, List.foldl_cons, breakStep_empty]

/-- A text with ink that fits on one line comes out of the loop as the current line,
without its leading spaces, and no line is committed before it. -/
theorem breakLoop_fits (measure : Str → ℚ) (m : JSNum)
    (hmono : ∀ a t c : Str, measure t ≤ measure (a ++ t ++ c)) (text : Str) :
    hasInk text = true →
      JSNum.le (JSNum.fin (measure (text.dropWhile (fun c => c == space)))) m = true →
      breakLoop measure m text = ([], text.dropWhile (fun c => c == space)) := by
  induction text with
  | nil => intro h; simp [hasInk] at h
  | cons c t ih =>
    intro hink hfit
    by_cases hc : c = space
    · subst hc
      rw [breakLoop_cons_space]
      simp only [List.dropWhile_cons, beq_self_eq_true, if_true] at hfit ⊢
      apply ih _ hfit
      simpa [hasInk] using hink
    · have hdrop : (c :: t).dropWhile (fun c => c == space) = c :: t := by
        simp [List.dropWhile_cons, hc]
      rw [hdrop] at hfit ⊢
      unfold breakLoop
      cases hs : splitSpace (c :: t) with
      | nil => exact absurd hs (splitSpace_ne_nil _)
      | cons w rest =>
        have hjoin := appendWords_splitSpace (c :: t) w rest hs
        have hw : w ≠ [] := by
          rw [splitSpace_cons, if_neg hc] at hs
          cases hs2 : splitSpace t with
          | nil => exact absurd hs2 (splitSpace_ne_nil t)
          | cons w0 ws =>
            rw [hs2] at hs
            simp only [List.modifyHead_cons, List.cons.injEq] at hs
            rw [← hs.1]; simp
        rw [List.foldl_cons, breakStep_empty,
          breakFold_fits measure m hmono rest [] w hw (by rw [hjoin]; exact hfit), hjoin]

/-- The lines of a text with ink that fits: one line, the text without its leading
spaces. -/
theorem breakIntoLines_fits (measure : Str → ℚ) (m : JSNum)
    (hmono : ∀ a t c : Str, measure t ≤ measure (a ++ t ++ c)) (text : Str)
    (hink : hasInk text = true) (hfit : JSNum.le (JSNum.fin (measure text)) m = true) :
    breakIntoLines measure m text = [text.dropWhile (fun c => c == space)] := by
  have hle : measure (text.dropWhile (fun c => c == space)) ≤ measure text := by
    have := hmono (text.takeWhile (fun c => c == space))
      (text.dropWhile (fun c => c == space)) []
    rwa [List.append_nil, List.takeWhile_append_dropWhile] at this
  have hfit2 : JSNum.le (JSNum.fin (measure (text.dropWhile (fun c => c == space)))) m = true := by
    cases m with
    | fin q =>
      simp only [JSNum.le, decide_eq_true_eq] at hfit ⊢
      exact le_trans hle hfit
    | posInf => rfl
    | negInf => simp [JSNum.le] at hfit
    | nan => simp [JSNum.le] at hfit
  have hcore : text.dropWhile (fun c => c == space) ≠ [] := by
    intro h
    rw [List.dropWhile_eq_nil_iff] at h
    simp only [hasInk, List.any_eq_true] at hink
    obtain ⟨x, hx, hxs⟩ := hink
    have := h x hx
    simp_all
  unfold breakIntoLines
  rw [breakLoop_fits measure m hmono text hink hfit2]
  simp [hcore]

/-! ## The calls of `drawWrappedText` -/

theorem fillTextCalls_append (l1 l2 : List DrawOp) :
    fillTextCalls (l1 ++ l2) = fillTextCalls l1 ++ fillTextCalls l2 := by
  induction l1 with
  | nil => rfl
  | cons op r ih => cases op <;> simp [fillTextCalls, ih]

theorem drawLine_state (ctx : Ctx) (line : Str) (x y : JSNum) :
    (drawLine ctx line x y).state = ctx.state := by
  unfold drawLine Ctx.push
  split <;> rfl

theorem drawLine_fillTextCalls (ctx : Ctx) (line : Str) (x y : JSNum) :
    fillTextCalls (drawLine ctx line x y).calls = fillTextCalls ctx.calls ++ [(line, x, y)] := by
  unfold drawLine Ctx.push
  split <;> simp [fillTextCalls_append, fillTextCalls]

theorem drawLinesFrom_state (x startY lineHeight : JSNum) (lines : List Str) :
    ∀ (i : ℕ) (ctx : Ctx), (drawLinesFrom x startY lineHeight i lines ctx).state = ctx.state := by
  induction lines with
  | nil => intro i ctx; rfl
  | cons l r ih => intro i ctx; simp [drawLinesFrom, ih, drawLine_state]

theorem drawLinesFrom_fillTextCalls (x startY lineHeight : JSNum) (lines : List Str) :
    ∀ (i : ℕ) (ctx : Ctx),
      fillTextCalls (drawLinesFrom x startY lineHeight i lines ctx).calls
        = fillTextCalls ctx.calls ++
          (lines.enumFrom i).map (fun p => (p.2, x, startY + JSNum.ofNat p.1 * lineHeight)) := by
  induction lines with
  | nil => intro i ctx; simp [drawLinesFrom]
  | cons l r ih =>
    intro i ctx
    simp [drawLinesFrom, ih, drawLine_fillTextCalls, List.enumFrom]

/-- `drawWrappedText` leaves the drawing state as it found it. -/
theorem drawWrappedText_state (b : Browser) (ctx : Ctx) (text : Str)
    (x y maxWidth lineHeight : JSNum) :
    (drawWrappedText b ctx text x y maxWidth lineHeight).state = ctx.state := by
  unfold drawWrappedText
  exact drawLinesFrom_state _ _ _ _ _ _

/-- The `fillText` calls of `drawWrappedText` for a finite anchor and line height: one a
line, line `i` at `y - (n * h - h) / 2 + i * h`. -/
theorem drawWrappedText_fillTextCalls (b : Browser) (ctx : Ctx) (text : Str)
    (x maxWidth : JSNum) (y h : ℚ) :
    fillTextCalls (drawWrappedText b ctx text x (JSNum.fin y) maxWidth (JSNum.fin h)).calls
      = fillTextCalls ctx.calls ++
        (breakIntoLines (b.measureText ctx.state) maxWidth text).enum.map (fun p =>
          (p.2, x, JSNum.fin (y
            - (((breakIntoLines (b.measureText ctx.state) maxWidth text).length : ℚ) * h - h) / 2
            + (p.1 : ℚ) * h))) := by
  unfold drawWrappedText
  simp [drawLinesFrom_fillTextCalls, List.enum]

/-- C3, as amended.  Assume that no text is measured narrower than a contiguous part of
it.  For every text that has a character other than the space and that as a whole is
measured no wider than `maxWidth`, `drawWrappedText` produces exactly one line, the text
without its leading spaces, and its only `fillText` call draws that line at the anchor
`y` itself, whatever the line height: no multi-line offset is applied. -/
theorem fitting_text_one_line_at_anchor (b : Browser) (ctx : Ctx) (text : Str)
    (x maxWidth : JSNum) (y h : ℚ)
    (hmono : ∀ a t c : Str,
      b.measureText ctx.state t ≤ b.measureText ctx.state (a ++ t ++ c))
    (hink : hasInk text = true)
    (hfit : JSNum.le (JSNum.fin (b.measureText ctx.state text)) maxWidth = true) :
    breakIntoLines (b.measureText ctx.state) maxWidth text
        = [text.dropWhile (fun c => c == space)] ∧
      fillTextCalls (drawWrappedText b ctx text x (JSNum.fin y) maxWidth (JSNum.fin h)).calls
        = fillTextCalls ctx.calls ++ [(text.dropWhile (fun c => c == space), x, JSNum.fin y)] := by
  have hlines := breakIntoLines_fits (b.measureText ctx.state) maxWidth hmono text hink hfit
  refine ⟨hlines, ?_⟩
  rw [drawWrappedText_fillTextCalls, hlines]
  simp [List.enum, List.enumFrom]

/-- Witness of C3 as amended: the text ` hi there` (nine characters, one unit each)
wrapped at twenty units and anchored at (540, 960). -/
theorem fitting_text_one_line_at_anchor_witness :
    fillTextCalls (drawWrappedText plainBrowser Ctx.fresh " hi there".toList (JSNum.fin 540)
        (JSNum.fin 960) (JSNum.fin 20) (JSNum.fin 24)).calls
      = [("hi there".toList, JSNum.fin 540, JSNum.fin 960)] :=
  (fitting_text_one_line_at_anchor plainBrowser Ctx.fresh " hi there".toList (JSNum.fin 540)
    (JSNum.fin 20) 960 24
    (by intro a t c; simp only [plainBrowser, charCount, List.length_append]; push_cast
        have h1 : (0 : ℚ) ≤ (a.length : ℚ) := Nat.cast_nonneg _
        have h2 : (0 : ℚ) ≤ (c.length : ℚ) := Nat.cast_nonneg _
        linarith)
    (by decide) (by decide)).2

/-- C3 as stated fails.  The empty text is measured 0, no wider than the `maxWidth` 100,
and `drawWrappedText` produces no line and issues no call for it.  And under the measure
`bumpyWidth`, which is not monotone, the text `a b c` is measured 1, no wider than the
`maxWidth` 5, and is broken into two lines. -/
theorem fitting_text_not_one_line :
    JSNum.le (JSNum.fin (charCount [])) (JSNum.fin 100) = true ∧
      breakIntoLines charCount (JSNum.fin 100) [] = [] ∧
      (drawWrappedText plainBrowser Ctx.fresh [] (JSNum.fin 540) (JSNum.fin 960)
        (JSNum.fin 100) (JSNum.fin 24)).calls = [] ∧
      JSNum.le (JSNum.fin (bumpyWidth "a b c".toList)) (JSNum.fin 5) = true ∧
      breakIntoLines bumpyWidth (JSNum.fin 5) "a b c".toList = ["a".toList, "b c".toList] := by
  refine ⟨by decide, by decide, by decide, by decide, by decide⟩

/-! ## The style set-up leaves the calls alone -/

@[simp] theorem setFillStyle_calls (b : Browser) (ctx : Ctx) (v : Str) :
    (ctx.setFillStyle b v).calls = ctx.calls := by
  unfold Ctx.setFillStyle; split <;> rfl

@[simp] theorem setStrokeStyle_calls (b : Browser) (ctx : Ctx) (v : Str) :
    (ctx.setStrokeStyle b v).calls = ctx.calls := by
  unfold Ctx.setStrokeStyle; split <;> rfl

@[simp] theorem setShadowColor_calls (b : Browser) (ctx : Ctx) (v : Str) :
    (ctx.setShadowColor b v).calls = ctx.calls := by
  unfold Ctx.setShadowColor; split <;> rfl

@[simp] theorem setLineWidth_calls (ctx : Ctx) (v : JSNum) :
    (ctx.setLineWidth v).calls = ctx.calls := by
  cases v with
  | fin q => simp only [Ctx.setLineWidth]; split <;> rfl
  | _ => rfl

@[simp] theorem setShadowOffsetX_calls (ctx : Ctx) (v : JSNum) :
    (ctx.setShadowOffsetX v).calls = ctx.calls := by
  cases v <;> rfl

@[simp] theorem setShadowOffsetY_calls (ctx : Ctx) (v : JSNum) :
    (ctx.setShadowOffsetY v).calls = ctx.calls := by
  cases v <;> rfl

@[simp] theorem setShadowBlur_calls (ctx : Ctx) (v : JSNum) :
    (ctx.setShadowBlur v).calls = ctx.calls := by
  cases v with
  | fin q => simp only [Ctx.setShadowBlur]; split <;> rfl
  | _ => rfl

@[simp] theorem setTextAlign_calls (ctx : Ctx) (v : Str) :
    (ctx.setTextAlign v).calls = ctx.calls := by
  unfold Ctx.setTextAlign; split <;> rfl

@[simp] theorem setTextBaseline_calls (ctx : Ctx) (v : Str) :
    (ctx.setTextBaseline v).calls = ctx.calls := by
  unfold Ctx.setTextBaseline; split <;> rfl

@[simp] theorem setFont_calls (ctx : Ctx) (w : Str) (size : JSNum) (f : Str) :
    (ctx.setFont w size f).calls = ctx.calls := by
  cases size with
  | fin q => simp only [Ctx.setFont]; split <;> rfl
  | _ => rfl

@[simp] theorem applyTextShadow_calls (b : Browser) (ctx : Ctx) (style : ComputedStyle)
    (scale : JSNum) : (applyTextShadow b ctx style scale).calls = ctx.calls := by
  unfold applyTextShadow
  split
  · split <;> simp
  · rfl

@[simp] theorem applyTextStroke_calls (b : Browser) (ctx : Ctx) (style : ComputedStyle)
    (scale : JSNum) : (applyTextStroke b ctx style scale).calls = ctx.calls := by
  unfold applyTextStroke
  split
  · split <;> simp
  · rfl

@[simp] theorem applyTextEffects_calls (b : Browser) (ctx : Ctx) (style : ComputedStyle)
    (scale : JSNum) : (applyTextEffects b ctx style scale).calls = ctx.calls := by
  simp [applyTextEffects]

@[simp] theorem setUpTextStyle_calls (b : Browser) (ctx : Ctx) (style : ComputedStyle)
    (ratio size : JSNum) : (setUpTextStyle b ctx style ratio size).calls = ctx.calls := by
  simp [setUpTextStyle]

/-! ## The style set-up and the font, the alignment -/

@[simp] theorem setFillStyle_font (b : Browser) (ctx : Ctx) (v : Str) :
    (ctx.setFillStyle b v).state.font = ctx.state.font := by
  unfold Ctx.setFillStyle; split <;> rfl

@[simp] theorem setStrokeStyle_font (b : Browser) (ctx : Ctx) (v : Str) :
    (ctx.setStrokeStyle b v).state.font = ctx.state.font := by
  unfold Ctx.setStrokeStyle; split <;> rfl

@[simp] theorem setShadowColor_font (b : Browser) (ctx : Ctx) (v : Str) :
    (ctx.setShadowColor b v).state.font = ctx.state.font := by
  unfold Ctx.setShadowColor; split <;> rfl

@[simp] theorem setLineWidth_font (ctx : Ctx) (v : JSNum) :
    (ctx.setLineWidth v).state.font = ctx.state.font := by
  cases v with
  | fin q => simp only [Ctx.setLineWidth]; split <;> rfl
  | _ => rfl

@[simp] theorem setShadowOffsetX_font (ctx : Ctx) (v : JSNum) :
    (ctx.setShadowOffsetX v).state.font = ctx.state.font := by
  cases v <;> rfl

@[simp] theorem setShadowOffsetY_font (ctx : Ctx) (v : JSNum) :
    (ctx.setShadowOffsetY v).state.font = ctx.state.font := by
  cases v <;> rfl

@[simp] theorem setShadowBlur_font (ctx : Ctx) (v : JSNum) :
    (ctx.setShadowBlur v).state.font = ctx.state.font := by
  cases v with
  | fin q => simp only [Ctx.setShadowBlur]; split <;> rfl
  | _ => rfl

@[simp] theorem applyTextEffects_font (b : Browser) (ctx : Ctx) (style : ComputedStyle)
    (scale : JSNum) : (applyTextEffects b ctx style scale).state.font = ctx.state.font := by
  unfold applyTextEffects applyTextStroke applyTextShadow
  split <;> split <;> (try split) <;> (try split) <;> simp

@[simp] theorem setFillStyle_textAlign (b : Browser) (ctx : Ctx) (v : Str) :
    (ctx.setFillStyle b v).state.textAlign = ctx.state.textAlign := by
  unfold Ctx.setFillStyle; split <;> rfl

@[simp] theorem setStrokeStyle_textAlign (b : Browser) (ctx : Ctx) (v : Str) :
    (ctx.setStrokeStyle b v).state.textAlign = ctx.state.textAlign := by
  unfold Ctx.setStrokeStyle; split <;> rfl

@[simp] theorem setShadowColor_textAlign (b : Browser) (ctx : Ctx) (v : Str) :
    (ctx.setShadowColor b v).state.textAlign = ctx.state.textAlign := by
  unfold Ctx.setShadowColor; split <;> rfl

@[simp] theorem setLineWidth_textAlign (ctx : Ctx) (v : JSNum) :
    (ctx.setLineWidth v).state.textAlign = ctx.state.textAlign := by
  cases v with
  | fin q => simp only [Ctx.setLineWidth]; split <;> rfl
  | _ => rfl

@[simp] theorem setShadowOffsetX_textAlign (ctx : Ctx) (v : JSNum) :
    (ctx.setShadowOffsetX v).state.textAlign = ctx.state.textAlign := by
  cases v <;> rfl

@[simp] theorem setShadowOffsetY_textAlign (ctx : Ctx) (v : JSNum) :
    (ctx.setShadowOffsetY v).state.textAlign = ctx.state.textAlign := by
  cases v <;> rfl

@[simp] theorem setShadowBlur_textAlign (ctx : Ctx) (v : JSNum) :
    (ctx.setShadowBlur v).state.textAlign = ctx.state.textAlign := by
  cases v with
  | fin q => simp only [Ctx.setShadowBlur]; split <;> rfl
  | _ => rfl

@[simp] theorem setTextBaseline_textAlign (ctx : Ctx) (v : Str) :
    (ctx.setTextBaseline v).state.textAlign = ctx.state.textAlign := by
  unfold Ctx.setTextBaseline; split <;> rfl

@[simp] theorem setFont_textAlign (ctx : Ctx) (w : Str) (size : JSNum) (f : Str) :
    (ctx.setFont w size f).state.textAlign = ctx.state.textAlign := by
  cases size with
  | fin q => simp only [Ctx.setFont]; split <;> rfl
  | _ => rfl

@[simp] theorem applyTextEffects_textAlign (b : Browser) (ctx : Ctx) (style : ComputedStyle)
    (scale : JSNum) :
    (applyTextEffects b ctx style scale).state.textAlign = ctx.state.textAlign := by
  unfold applyTextEffects applyTextStroke applyTextShadow
  split <;> split <;> (try split) <;> (try split) <;> simp

/-- The alignment `getCanvasTextAlign` returns is always one the canvas accepts. -/
theorem getCanvasTextAlign_accepted (cssAlign : Str) :
    getCanvasTextAlign cssAlign = "right".toList ∨ getCanvasTextAlign cssAlign = "left".toList ∨
      getCanvasTextAlign cssAlign = "center".toList := by
  unfold getCanvasTextAlign
  split
  · left; rfl
  · split
    · right; left; rfl
    · split
      · right; right; rfl
      · split
        · right; left; rfl
        · right; right; rfl

/-- After the style set-up, `ctx.textAlign` is what `getCanvasTextAlign` returned. -/
theorem setUpTextStyle_textAlign (b : Browser) (ctx : Ctx) (style : ComputedStyle)
    (ratio size : JSNum) :
    (setUpTextStyle b ctx style ratio size).state.textAlign
      = getCanvasTextAlign style.textAlign := by
  simp only [setUpTextStyle, applyTextEffects_textAlign, setFont_textAlign,
    setTextBaseline_textAlign]
  unfold Ctx.setTextAlign
  rcases getCanvasTextAlign_accepted style.textAlign with h | h | h <;>
    rw [h, if_pos (by decide)]

/-- After the style set-up with a finite size that is not negative, the font size of
the context is that size. -/
theorem setUpTextStyle_font (b : Browser) (ctx : Ctx) (style : ComputedStyle)
    (ratio : JSNum) (size : ℚ) (h : 0 ≤ size) :
    (setUpTextStyle b ctx style ratio (JSNum.fin size)).state.font
      = ⟨style.fontWeight, size, style.fontFamily⟩ := by
  simp only [setUpTextStyle, applyTextEffects_font]
  simp [Ctx.setFont, h]

/-! ## The position and the size of a text node on the export canvas -/

/-- On a surface of non-zero size every quantity of `drawSingleTextElement` but the
parsed font size is a finite number. -/
theorem drawSingleTextElement_eq (b : Browser) (ctx : Ctx) (el : TextElement)
    (canvasRect : DOMRect) (exportWidth exportHeight : ℕ)
    (hw : canvasRect.width ≠ 0) (hh : canvasRect.height ≠ 0) :
    drawSingleTextElement b ctx el canvasRect exportWidth exportHeight
      = drawWrappedText b
          (setUpTextStyle b ctx el.style (JSNum.fin (exportWidth / canvasRect.width))
            (parseInt el.style.fontSize * JSNum.fin (exportWidth / canvasRect.width)))
          el.textContent
          (JSNum.fin ((el.rect.left - canvasRect.left + el.rect.width / 2) / canvasRect.width
            * exportWidth))
          (JSNum.fin ((el.rect.top - canvasRect.top + el.rect.height / 2) / canvasRect.height
            * exportHeight))
          (JSNum.fin (el.rect.width / canvasRect.width * exportWidth))
          (parseInt el.style.fontSize * JSNum.fin (exportWidth / canvasRect.width)
            * JSNum.fin (6 / 5)) := by
  unfold drawSingleTextElement
  simp [JSNum.fin_div _ _ hw, JSNum.fin_div _ _ hh]

theorem charCount_mono (a t c : Str) : charCount t ≤ charCount (a ++ t ++ c) := by
  simp only [charCount, List.length_append]
  push_cast
  have h1 : (0 : ℚ) ≤ (a.length : ℚ) := Nat.cast_nonneg _
  have h2 : (0 : ℚ) ≤ (c.length : ℚ) := Nat.cast_nonneg _
  linarith

theorem defaultSurface_width : defaultSurface.width ≠ 0 := by
  simp [defaultSurface]

theorem defaultSurface_height : defaultSurface.height ≠ 0 := by
  simp [defaultSurface]

theorem parseInt_24px : parseInt "24px".toList = JSNum.fin 24 := by
  simp [parseInt, readSign, isJSWhitespace, isDigit, digitsValue, hexValue]

theorem parseInt_16_5px : parseInt "16.5px".toList = JSNum.fin 16 := by
  simp [parseInt, readSign, isJSWhitespace, isDigit, digitsValue, hexValue]

theorem parseFloat_16_5px : parseFloat "16.5px".toList = JSNum.fin (33 / 2) := by
  simp [parseFloat, readSign, startsWith, isJSWhitespace, isDigit, digitsValue, hexValue,
    readExponent]
  norm_num

/-- The `fillText` calls of a node of weight-400 24px text, 140 wide, whose text fits on
one line, drawn by the plain browser from the default surface to 1080 by 1920. -/
theorem plain_node_fillTextCalls (ctx : Ctx) (el : TextElement)
    (hfont : el.style.fontSize = "24px".toList) (hwidth : el.rect.width = 140)
    (hink : hasInk el.textContent = true) (hfit : charCount el.textContent ≤ 540) :
    fillTextCalls (drawSingleTextElement plainBrowser ctx el defaultSurface 1080 1920).calls
      = fillTextCalls ctx.calls ++
        [(el.textContent.dropWhile (fun c => c == space),
          JSNum.fin ((el.rect.left + 70) / 280 * 1080),
          JSNum.fin ((el.rect.top + el.rect.height / 2) / 497 * 1920))] := by
  rw [drawSingleTextElement_eq plainBrowser ctx el defaultSurface 1080 1920
    defaultSurface_width defaultSurface_height, hfont, parseInt_24px, hwidth]
  simp only [JSNum.fin_mul]
  rw [drawWrappedText_fillTextCalls, setUpTextStyle_calls]
  have hlines : breakIntoLines
      (plainBrowser.measureText (setUpTextStyle plainBrowser ctx el.style
        (JSNum.fin (((1080 : ℕ) : ℚ) / defaultSurface.width))
        (JSNum.fin (24 * (((1080 : ℕ) : ℚ) / defaultSurface.width)))).state)
      (JSNum.fin (140 / defaultSurface.width * ((1080 : ℕ) : ℚ))) el.textContent
      = [el.textContent.dropWhile (fun c => c == space)] := by
    apply breakIntoLines_fits _ _ (fun a t c => charCount_mono a t c) _ hink
    simp only [JSNum.le, plainBrowser, defaultSurface, decide_eq_true_eq]
    norm_num
    exact hfit
  rw [hlines]
  simp [List.enum, List.enumFrom, defaultSurface]
  norm_num

/-- C7.  On a surface of non-zero size, `drawSingleTextElement` hands `drawWrappedText`
the anchor x = (horizontal centre of the node relative to the surface / surface width)
x exportWidth, y = (vertical centre relative to the surface / surface height)
x exportHeight, and the wrap width (node width / surface width) x exportWidth; a node
whose centre is the centre of the surface is anchored at (exportWidth / 2,
exportHeight / 2). -/
theorem text_node_anchor (b : Browser) (ctx : Ctx) (el : TextElement)
    (canvasRect : DOMRect) (exportWidth exportHeight : ℕ)
    (hw : canvasRect.width ≠ 0) (hh : canvasRect.height ≠ 0) :
    drawSingleTextElement b ctx el canvasRect exportWidth exportHeight
        = drawWrappedText b
            (setUpTextStyle b ctx el.style (JSNum.fin (exportWidth / canvasRect.width))
              (parseInt el.style.fontSize * JSNum.fin (exportWidth / canvasRect.width)))
            el.textContent
            (JSNum.fin ((el.rect.left - canvasRect.left + el.rect.width / 2) / canvasRect.width
              * exportWidth))
            (JSNum.fin ((el.rect.top - canvasRect.top + el.rect.height / 2) / canvasRect.height
              * exportHeight))
            (JSNum.fin (el.rect.width / canvasRect.width * exportWidth))
            (parseInt el.style.fontSize * JSNum.fin (exportWidth / canvasRect.width)
              * JSNum.fin (6 / 5))
      ∧ (el.rect.left - canvasRect.left + el.rect.width / 2 = canvasRect.width / 2 →
          (el.rect.left - canvasRect.left + el.rect.width / 2) / canvasRect.width * exportWidth
            = (exportWidth : ℚ) / 2)
      ∧ (el.rect.top - canvasRect.top + el.rect.height / 2 = canvasRect.height / 2 →
          (el.rect.top - canvasRect.top + el.rect.height / 2) / canvasRect.height * exportHeight
            = (exportHeight : ℚ) / 2) := by
  refine ⟨drawSingleTextElement_eq b ctx el canvasRect exportWidth exportHeight hw hh, ?_, ?_⟩
  · intro hc
    rw [hc]
    field_simp
    ring
  · intro hc
    rw [hc]
    field_simp
    ring

/-- Witness of C7, scenario A of the specification: the node `centredNode` on the
280 by 497 surface, exported at 1080 by 1920, is drawn at (540, 960). -/
theorem text_node_anchor_witness :
    fillTextCalls
        (drawSingleTextElement plainBrowser Ctx.fresh centredNode defaultSurface 1080 1920).calls
      = [("متن جدید".toList, JSNum.fin 540, JSNum.fin 960)] := by
  have h := (text_node_anchor plainBrowser Ctx.fresh centredNode defaultSurface 1080 1920
    defaultSurface_width defaultSurface_height).1
  have h2 := plain_node_fillTextCalls Ctx.fresh centredNode rfl rfl (by decide) (by decide)
  rw [h] at h2 ⊢
  rw [h2]
  simp [fillTextCalls, Ctx.fresh, centredNode]
  refine ⟨by decide, ?_, ?_⟩ <;> norm_num

/-- C5, failing input.  The node `leftNode` has `text-align: left` and its box spans
x = 70 to 210 of the 280-wide surface, 270 to 810 of the 1080-wide export.  The export
sets `ctx.textAlign` to `left` and draws the text at x = 540, the midpoint of the box,
not at its left edge 270.  The node `rightNode`, with `text-align: right`, is drawn at
x = 540 as well, not at the right edge 810. -/
theorem aligned_text_anchored_at_midpoint :
    (drawSingleTextElement plainBrowser Ctx.fresh leftNode defaultSurface 1080 1920).state.textAlign
        = "left".toList ∧
      fillTextCalls
          (drawSingleTextElement plainBrowser Ctx.fresh leftNode defaultSurface 1080 1920).calls
        = [("Hi".toList, JSNum.fin 540, JSNum.fin 960)] ∧
      (leftNode.rect.left - defaultSurface.left) / defaultSurface.width * 1080 = 270 ∧
      (drawSingleTextElement plainBrowser Ctx.fresh rightNode defaultSurface 1080 1920).state.textAlign
        = "right".toList ∧
      fillTextCalls
          (drawSingleTextElement plainBrowser Ctx.fresh rightNode defaultSurface 1080 1920).calls
        = [("Hi".toList, JSNum.fin 540, JSNum.fin 960)] ∧
      (rightNode.rect.left - defaultSurface.left + rightNode.rect.width) / defaultSurface.width
          * 1080 = 810 := by
  refine ⟨?_, ?_, ?_, ?_, ?_, ?_⟩
  · rw [drawSingleTextElement_eq _ _ _ _ _ _ defaultSurface_width defaultSurface_height,
      drawWrappedText_state, setUpTextStyle_textAlign]
    decide
  · rw [plain_node_fillTextCalls Ctx.fresh leftNode rfl rfl (by decide) (by decide)]
    simp [fillTextCalls, Ctx.fresh, leftNode]
    refine ⟨by decide, ?_, ?_⟩ <;> norm_num
  · norm_num [leftNode, defaultSurface]
  · rw [drawSingleTextElement_eq _ _ _ _ _ _ defaultSurface_width defaultSurface_height,
      drawWrappedText_state, setUpTextStyle_textAlign]
    decide
  · rw [plain_node_fillTextCalls Ctx.fresh rightNode rfl rfl (by decide) (by decide)]
    simp [fillTextCalls, Ctx.fresh, rightNode]
    refine ⟨by decide, ?_, ?_⟩ <;> norm_num
  · norm_num [rightNode, defaultSurface]

/-- C6, failing input.  The node `fractionalNode` has a computed font size of `16.5px`.
From the 280-wide surface to the 1080-wide export the scale ratio is 27/7, and the font
size the export sets on the canvas is 16 x 27/7 = 432/7: `parseInt` has dropped the
fraction.  The source size times the ratio is 16.5 x 27/7 = 891/14. -/
theorem fractional_font_size_truncated (b : Browser) (ctx : Ctx) :
    (drawSingleTextElement b ctx fractionalNode defaultSurface 1080 1920).state.font.sizePx
        = 432 / 7 ∧
      parseFloat fractionalNode.style.fontSize = JSNum.fin (33 / 2) ∧
      (33 / 2 : ℚ) * (1080 / defaultSurface.width) = 891 / 14 ∧
      (432 / 7 : ℚ) ≠ 891 / 14 := by
  refine ⟨?_, parseFloat_16_5px, by norm_num [defaultSurface], by norm_num⟩
  rw [drawSingleTextElement_eq _ _ _ _ _ _ defaultSurface_width defaultSurface_height,
    drawWrappedText_state]
  have hsize : parseInt fractionalNode.style.fontSize
      * JSNum.fin (((1080 : ℕ) : ℚ) / defaultSurface.width) = JSNum.fin (432 / 7) := by
    rw [show fractionalNode.style.fontSize = "16.5px".toList from rfl, parseInt_16_5px,
      JSNum.fin_mul]
    norm_num [defaultSurface]
  rw [hsize, setUpTextStyle_font _ _ _ _ _ (by norm_num)]

/-! ## What the text drawing adds to the calls -/

theorem AddsOnly.refl (p : DrawOp → Bool) (ctx ctx' : Ctx) (h : ctx'.calls = ctx.calls) :
    AddsOnly p ctx ctx' :=
  ⟨[], by simp [h], by simp⟩

theorem AddsOnly.trans (p : DrawOp → Bool) (a b c : Ctx) (h1 : AddsOnly p a b)
    (h2 : AddsOnly p b c) : AddsOnly p a c := by
  obtain ⟨l1, e1, p1⟩ := h1
  obtain ⟨l2, e2, p2⟩ := h2
  refine ⟨l1 ++ l2, by rw [e2, e1, List.append_assoc], ?_⟩
  intro op hop
  rcases List.mem_append.mp hop with h | h
  · exact p1 op h
  · exact p2 op h

theorem drawLine_addsOnly (p : DrawOp → Bool) (ctx : Ctx) (line : Str) (x y : JSNum)
    (hp : ∀ st : CanvasState,
      p (DrawOp.strokeText st line x y) = true ∧ p (DrawOp.fillText st line x y) = true) :
    AddsOnly p ctx (drawLine ctx line x y) := by
  unfold drawLine Ctx.push
  split
  · refine ⟨[DrawOp.strokeText ctx.state line x y, DrawOp.fillText ctx.state line x y],
      by simp, ?_⟩
    intro op hop
    simp only [List.mem_cons, List.mem_singleton, List.not_mem_nil, or_false] at hop
    rcases hop with rfl | rfl
    · exact (hp _).1
    · exact (hp _).2
  · refine ⟨[DrawOp.fillText ctx.state line x y], by simp, ?_⟩
    intro op hop
    rw [List.mem_singleton.mp hop]
    exact (hp _).2

theorem drawLinesFrom_addsOnly (p : DrawOp → Bool) (x startY lineHeight : JSNum)
    (hp : ∀ (st : CanvasState) (line : Str) (i : ℕ),
      p (DrawOp.strokeText st line x (startY + JSNum.ofNat i * lineHeight)) = true ∧
        p (DrawOp.fillText st line x (startY + JSNum.ofNat i * lineHeight)) = true)
    (lines : List Str) :
    ∀ (i : ℕ) (ctx : Ctx), AddsOnly p ctx (drawLinesFrom x startY lineHeight i lines ctx) := by
  induction lines with
  | nil => intro i ctx; exact AddsOnly.refl p _ _ rfl
  | cons l r ih =>
    intro i ctx
    simp only [drawLinesFrom]
    exact AddsOnly.trans p _ _ _ (drawLine_addsOnly p ctx l x _ (fun st => hp st l i)) (ih _ _)

theorem drawWrappedText_addsOnly (p : DrawOp → Bool) (b : Browser) (ctx : Ctx) (text : Str)
    (x y maxWidth lineHeight : JSNum)
    (hp : ∀ (st : CanvasState) (line : Str) (startY : JSNum) (i : ℕ),
      startY = y - (JSNum.ofNat (breakIntoLines (b.measureText ctx.state) maxWidth text).length
        * lineHeight - lineHeight) / JSNum.ofNat 2 →
      p (DrawOp.strokeText st line x (startY + JSNum.ofNat i * lineHeight)) = true ∧
        p (DrawOp.fillText st line x (startY + JSNum.ofNat i * lineHeight)) = true) :
    AddsOnly p ctx (drawWrappedText b ctx text x y maxWidth lineHeight) := by
  unfold drawWrappedText
  exact drawLinesFrom_addsOnly p x _ lineHeight (fun st line i => hp st line _ i rfl) _ 0 ctx

/-- A text node only adds `strokeText` and `fillText` calls. -/
theorem drawSingleTextElement_addsText (b : Browser) (ctx : Ctx) (el : TextElement)
    (canvasRect : DOMRect) (exportWidth exportHeight : ℕ) :
    AddsOnly DrawOp.isText ctx
      (drawSingleTextElement b ctx el canvasRect exportWidth exportHeight) := by
  unfold drawSingleTextElement
  refine AddsOnly.trans _ ctx _ _ (AddsOnly.refl _ _ _ (setUpTextStyle_calls b ctx _ _ _))
    (drawWrappedText_addsOnly _ _ _ _ _ _ _ _ ?_)
  intro st line startY i _
  exact ⟨rfl, rfl⟩

theorem foldl_addsOnly (p : DrawOp → Bool) (f : Ctx → TextElement → Ctx)
    (hf : ∀ ctx el, AddsOnly p ctx (f ctx el)) (els : List TextElement) :
    ∀ ctx : Ctx, AddsOnly p ctx (els.foldl f ctx) := by
  induction els with
  | nil => intro ctx; exact AddsOnly.refl p _ _ rfl
  | cons el r ih =>
    intro ctx
    simp only [List.foldl_cons]
    exact AddsOnly.trans p _ _ _ (hf ctx el) (ih _)

/-- `drawTextElements` only adds `strokeText` and `fillText` calls. -/
theorem drawTextElements_addsText (b : Browser) (page : Page) (ctx : Ctx)
    (canvasWidth canvasHeight : ℕ) :
    AddsOnly DrawOp.isText ctx (drawTextElements b page ctx canvasWidth canvasHeight) := by
  unfold drawTextElements
  split
  · exact AddsOnly.refl _ _ _ rfl
  · exact foldl_addsOnly _ _
      (fun c el => drawSingleTextElement_addsText b c el _ canvasWidth canvasHeight) _ ctx

/-! ## The background -/

/-- C9.  For every config with `transparent = true`, on every page, with or without a
displayed background image, `createExportCanvas` resolves with a canvas of the
configured size on whose fresh context only `drawTextElements` has drawn: every call
issued is a `strokeText` or a `fillText`, none is a `fillRect` or a `drawImage`. -/
theorem transparent_export_draws_text_only (b : Browser) (page : Page) (config : ExportConfig)
    (ht : config.transparent = some true) :
    (createExportCanvas b page config).result
        = Except.ok ⟨config.width, config.height,
            drawTextElements b page Ctx.fresh config.width config.height⟩
      ∧ ∀ op ∈ (drawTextElements b page Ctx.fresh config.width config.height).calls,
          op.isText = true ∧ op.isFillRect = false ∧ op.isDrawImage = false := by
  constructor
  · simp [createExportCanvas, drawBackground, ht]
  · intro op hop
    obtain ⟨added, hcalls, hadded⟩ :=
      drawTextElements_addsText b page Ctx.fresh config.width config.height
    rw [hcalls] at hop
    simp only [Ctx.fresh, List.nil_append] at hop
    have htext := hadded op hop
    refine ⟨htext, ?_, ?_⟩ <;> cases op <;> simp_all [DrawOp.isText, DrawOp.isFillRect,
      DrawOp.isDrawImage]

/-- Witness of C9: the preset `text-only` on a page with a displayed background image
and one text node. -/
theorem transparent_export_draws_text_only_witness :
    textOnly.transparent = some true ∧
      (createExportCanvas plainBrowser picturePage textOnly).result
        = Except.ok ⟨textOnly.width, textOnly.height,
            drawTextElements plainBrowser picturePage Ctx.fresh textOnly.width textOnly.height⟩
      ∧ ∀ op ∈ (drawTextElements plainBrowser picturePage Ctx.fresh textOnly.width
          textOnly.height).calls,
          op.isText = true ∧ op.isFillRect = false ∧ op.isDrawImage = false :=
  ⟨rfl, transparent_export_draws_text_only plainBrowser picturePage textOnly rfl⟩

theorem drawTextElements_no_text (b : Browser) (page : Page) (ctx : Ctx)
    (canvasWidth canvasHeight : ℕ)
    (hn : ∀ sc, page.storyCanvas = some sc → sc.textElements = []) :
    drawTextElements b page ctx canvasWidth canvasHeight = ctx := by
  unfold drawTextElements
  split
  · rfl
  · next sc hsc => rw [hn sc hsc]; rfl

/-- The result of `createExportCanvas` is the background with the text drawn over it. -/
theorem createExportCanvas_result (b : Browser) (page : Page) (config : ExportConfig) :
    (createExportCanvas b page config).result
      = (drawBackground b page Ctx.fresh config.width config.height
          (config.transparent.getD false)).map
        (fun ctx => ⟨config.width, config.height,
          drawTextElements b page ctx config.width config.height⟩) := by
  unfold createExportCanvas
  dsimp only
  split <;> rename_i h <;> rw [h] <;> rfl

/-- The opaque background when no image is displayed: the black fill alone. -/
theorem drawBackground_no_image (b : Browser) (page : Page) (width height : ℕ)
    (hnone : ∀ img, page.storyImage = some img → img.display = "none".toList ∨ img.src = []) :
    drawBackground b page Ctx.fresh width height false
      = Except.ok ⟨CanvasState.initial, [blackFill width height]⟩ := by
  unfold drawBackground
  cases himg : page.storyImage with
  | none => rfl
  | some img =>
    have hshown : ¬ (img.display ≠ "none".toList ∧ img.src ≠ []) := by
      rcases hnone img himg with h | h
      · exact fun hh => hh.1 h
      · exact fun hh => hh.2 h
    simp only [Bool.not_false, if_true, hshown, if_false]
    rfl

/-- The opaque background when an image is displayed: the black fill, then the image. -/
theorem drawBackground_image (b : Browser) (page : Page) (width height : ℕ)
    (img : ImageElement) (himg : page.storyImage = some img)
    (hdisp : img.display ≠ "none".toList) (hsrc : img.src ≠ []) :
    drawBackground b page Ctx.fresh width height false
      = drawImageToCanvas b page ⟨CanvasState.initial, [blackFill width height]⟩ img
          width height := by
  unfold drawBackground
  simp only [Bool.not_false, if_true, himg, hdisp, hsrc, ne_eq, not_false_eq_true, and_self]
  rfl

/-- The calls of an image that loads: the calls before it, then seven calls of which
the sixth is the only `drawImage` and none is a `fillRect`. -/
theorem drawImageToCanvas_loads (b : Browser) (page : Page) (ctx : Ctx) (img : ImageElement)
    (width height : ℕ) (hload : b.imageLoads img.src = true) :
    ∃ rest, drawImageToCanvas b page ctx img width height
        = Except.ok ⟨ctx.state, ctx.calls ++ rest⟩ ∧
      (rest.filter DrawOp.isDrawImage).length = 1 ∧
      (rest.filter DrawOp.isFillRect).length = 0 := by
  unfold drawImageToCanvas
  rw [if_pos hload]
  exact ⟨_, rfl, rfl, rfl⟩

theorem drawImageToCanvas_fails (b : Browser) (page : Page) (ctx : Ctx) (img : ImageElement)
    (width height : ℕ) (hload : ¬ b.imageLoads img.src = true) :
    drawImageToCanvas b page ctx img width height = Except.error ⟨"Failed to load image"⟩ := by
  unfold drawImageToCanvas
  rw [if_neg hload]

/-- C10.  For every config that is not transparent and every page without a text node:
every canvas `createExportCanvas` resolves with has the configured width and height,
its first call is the fill of the whole rectangle (0, 0, width, height) under the fill
style `#000000`, and that is its only `fillRect`; when no background image is displayed
the call resolves and that fill is the only call; when a displayed image loads the call
resolves and the image is drawn once, after the fill. -/
theorem opaque_export_background (b : Browser) (page : Page) (config : ExportConfig)
    (ht : config.transparent.getD false = false)
    (hn : ∀ sc, page.storyCanvas = some sc → sc.textElements = []) :
    (∀ canvas, (createExportCanvas b page config).result = Except.ok canvas →
        canvas.width = config.width ∧ canvas.height = config.height ∧
        canvas.ctx.calls.head? = some (blackFill config.width config.height) ∧
        CanvasState.initial.fillStyle = "#000000".toList ∧
        (canvas.ctx.calls.filter DrawOp.isFillRect).length = 1)
      ∧ ((∀ img, page.storyImage = some img → img.display = "none".toList ∨ img.src = []) →
          (createExportCanvas b page config).result
            = Except.ok ⟨config.width, config.height, ⟨CanvasState.initial,
                [blackFill config.width config.height]⟩⟩)
      ∧ (∀ img, page.storyImage = some img → img.display ≠ "none".toList → img.src ≠ [] →
          b.imageLoads img.src = true →
          ∃ canvas rest, (createExportCanvas b page config).result = Except.ok canvas ∧
            canvas.ctx.calls = blackFill config.width config.height :: rest ∧
            (rest.filter DrawOp.isDrawImage).length = 1) := by
  have hres : (createExportCanvas b page config).result
      = (drawBackground b page Ctx.fresh config.width config.height false).map
          (fun ctx => ⟨config.width, config.height, ctx⟩) := by
    rw [createExportCanvas_result, ht]
    congr 1
    funext ctx
    rw [drawTextElements_no_text b page ctx _ _ hn]
  refine ⟨?_, ?_, ?_⟩
  · intro canvas hok
    rw [hres] at hok
    by_cases hshown : ∃ img, page.storyImage = some img ∧ img.display ≠ "none".toList ∧
        img.src ≠ []
    · obtain ⟨img, himg, hdisp, hsrc⟩ := hshown
      rw [drawBackground_image b page _ _ img himg hdisp hsrc] at hok
      by_cases hload : b.imageLoads img.src = true
      · obtain ⟨rest, hdraw, _, hfill⟩ := drawImageToCanvas_loads b page
          ⟨CanvasState.initial, [blackFill config.width config.height]⟩ img config.width
          config.height hload
        rw [hdraw] at hok
        injection hok with hok
        subst hok
        refine ⟨rfl, rfl, rfl, rfl, ?_⟩
        simp only [List.singleton_append, List.filter_cons, blackFill, DrawOp.isFillRect,
          if_true, List.length_cons, hfill]
      · rw [drawImageToCanvas_fails b page _ img _ _ hload] at hok
        exact absurd hok (by simp [Except.map])
    · have hnone : ∀ img, page.storyImage = some img →
          img.display = "none".toList ∨ img.src = [] := by
        intro img himg
        by_contra hcon
        exact hshown ⟨img, himg, fun h => hcon (Or.inl h), fun h => hcon (Or.inr h)⟩
      rw [drawBackground_no_image b page _ _ hnone] at hok
      injection hok with hok
      subst hok
      exact ⟨rfl, rfl, rfl, rfl, rfl⟩
  · intro hnone
    rw [hres, drawBackground_no_image b page _ _ hnone]
    rfl
  · intro img himg hdisp hsrc hload
    obtain ⟨rest, hdraw, hone, _⟩ := drawImageToCanvas_loads b page
      ⟨CanvasState.initial, [blackFill config.width config.height]⟩ img config.width
      config.height hload
    rw [hres, drawBackground_image b page _ _ img himg hdisp hsrc, hdraw]
    exact ⟨_, rest, rfl, rfl, hone⟩

/-- Witness of C10: the preset `high-quality` on a page with no image and no text node;
the only call is the black fill of the 1080 by 1920 rectangle. -/
theorem opaque_export_background_witness :
    (createExportCanvas plainBrowser emptyPage highQuality).result
      = Except.ok ⟨1080, 1920, ⟨CanvasState.initial, [blackFill 1080 1920]⟩⟩ :=
  (opaque_export_background plainBrowser emptyPage highQuality rfl
    (by intro sc hsc; simp only [emptyPage, Option.some.injEq] at hsc; rw [← hsc])).2.1
    (by intro img himg; simp [emptyPage] at himg)

/-! ## A surface of zero size -/

namespace JSNum

theorem div_zero_not_finite (a : JSNum) : (a / fin 0).isFinite = false := by
  show (div a (fin 0)).isFinite = false
  cases a with
  | fin q => by_cases hq : q = 0 <;> by_cases hp : 0 < q <;> simp [div, signedInf, isFinite, hq, hp]
  | posInf => simp [div, signedInf, isFinite]
  | negInf => simp [div, signedInf, isFinite]
  | nan => rfl

theorem mul_not_finite (a b : JSNum) (h : a.isFinite = false) : (a * b).isFinite = false := by
  show (mul a b).isFinite = false
  cases a with
  | fin q => simp [isFinite] at h
  | posInf =>
    cases b with
    | fin r => by_cases hr : r = 0 <;> by_cases hp : 0 < r <;> simp [mul, signedInf, isFinite, hr, hp]
    | _ => rfl
  | negInf =>
    cases b with
    | fin r => by_cases hr : r = 0 <;> by_cases hp : r < 0 <;> simp [mul, signedInf, isFinite, hr, hp]
    | _ => rfl
  | nan => cases b <;> rfl

theorem add_not_finite (a b : JSNum) (h : a.isFinite = false) : (a + b).isFinite = false := by
  show (add a b).isFinite = false
  cases a with
  | fin q => simp [isFinite] at h
  | _ => cases b <;> rfl

theorem sub_not_finite (a b : JSNum) (h : a.isFinite = false) : (a - b).isFinite = false := by
  show (add a (neg b)).isFinite = false
  cases a with
  | fin q => simp [isFinite] at h
  | _ => cases b <;> rfl

end JSNum

/-- On a surface of zero width or zero height, every call a text node adds is a text
call at a position that is not finite. -/
theorem drawSingleTextElement_offCanvas (b : Browser) (ctx : Ctx) (el : TextElement)
    (canvasRect : DOMRect) (exportWidth exportHeight : ℕ)
    (hz : canvasRect.width = 0 ∨ canvasRect.height = 0) :
    AddsOnly DrawOp.isTextOffCanvas ctx
      (drawSingleTextElement b ctx el canvasRect exportWidth exportHeight) := by
  unfold drawSingleTextElement
  refine AddsOnly.trans _ ctx _ _ (AddsOnly.refl _ _ _ (setUpTextStyle_calls b ctx _ _ _))
    (drawWrappedText_addsOnly _ _ _ _ _ _ _ _ ?_)
  intro st line startY i hstart
  rcases hz with hw | hh
  · have hx : (((JSNum.fin el.rect.left - JSNum.fin canvasRect.left
        + JSNum.fin el.rect.width / JSNum.ofNat 2) / JSNum.fin canvasRect.width)
        * JSNum.ofNat exportWidth).isFinite = false := by
      rw [hw]
      exact JSNum.mul_not_finite _ _ (JSNum.div_zero_not_finite _)
    constructor <;> simp only [DrawOp.isTextOffCanvas, hx, Bool.not_false, Bool.true_or]
  · have hy : (startY + JSNum.ofNat i * (parseInt el.style.fontSize
        * (JSNum.ofNat exportWidth / JSNum.fin canvasRect.width) * JSNum.fin (6 / 5))).isFinite
        = false := by
      rw [hstart, hh]
      exact JSNum.add_not_finite _ _ (JSNum.sub_not_finite _ _
        (JSNum.mul_not_finite _ _ (JSNum.div_zero_not_finite _)))
    constructor <;> simp only [DrawOp.isTextOffCanvas, hy, Bool.not_false, Bool.or_true]

/-- A text with ink has a non-empty word. -/
theorem exists_word_of_hasInk (text : Str) (h : hasInk text = true) :
    ∃ w ∈ splitSpace text, w ≠ [] := by
  induction text with
  | nil => simp [hasInk] at h
  | cons c t ih =>
    rw [splitSpace_cons]
    by_cases hc : c = space
    · have ht : hasInk t = true := by simpa [hasInk, hc] using h
      obtain ⟨w, hw, hne⟩ := ih ht
      exact ⟨w, by simp [hc, hw], hne⟩
    · cases hs : splitSpace t with
      | nil => exact absurd hs (splitSpace_ne_nil t)
      | cons w0 ws => exact ⟨c :: w0, by simp [hc], by simp⟩

theorem breakStep_keeps_ink (measure : Str → ℚ) (m : JSNum) (st : List Str × Str) (v : Str)
    (h : (st.1 ≠ [] ∨ st.2 ≠ []) ∨ v ≠ []) :
    (breakStep measure m st v).1 ≠ [] ∨ (breakStep measure m st v).2 ≠ [] := by
  obtain ⟨lines, cur⟩ := st
  rcases breakStep_cases measure m lines cur v with ⟨hc, e⟩ | ⟨hc, _, e⟩ | ⟨hc, _, e⟩
  · rw [e]
    rcases h with (h | h) | h
    · left; exact h
    · exact absurd hc h
    · right; exact h
  · rw [e]; left; simp
  · rw [e]; right; simp

theorem breakFold_keeps_ink (measure : Str → ℚ) (m : JSNum) (words : List Str) :
    ∀ st : List Str × Str, ((st.1 ≠ [] ∨ st.2 ≠ []) ∨ ∃ w ∈ words, w ≠ []) →
      (words.foldl (breakStep measure m) st).1 ≠ [] ∨
        (words.foldl (breakStep measure m) st).2 ≠ [] := by
  induction words with
  | nil =>
    intro st h
    rcases h with h | ⟨w, hw, _⟩
    · exact h
    · simp at hw
  | cons v vs ih =>
    intro st h
    simp only [List.foldl_cons]
    apply ih
    rcases h with h | ⟨w, hw, hne⟩
    · left; exact breakStep_keeps_ink measure m st v (Or.inl h)
    · rcases List.mem_cons.mp hw with rfl | hw
      · left; exact breakStep_keeps_ink measure m st w (Or.inr hne)
      · right; exact ⟨w, hw, hne⟩

/-- A text with ink gives at least one line, whatever the measure and `maxWidth`. -/
theorem breakIntoLines_ne_nil (measure : Str → ℚ) (m : JSNum) (text : Str)
    (h : hasInk text = true) : breakIntoLines measure m text ≠ [] := by
  have hk := breakFold_keeps_ink measure m (splitSpace text) ([], [])
    (Or.inr (exists_word_of_hasInk text h))
  unfold breakIntoLines breakLoop
  by_cases hc : (List.foldl (breakStep measure m) ([], []) (splitSpace text)).2 = []
  · rcases hk with hk | hk
    · simpa [hc] using hk
    · exact absurd hc hk
  · simp [hc]

/-- A text node with ink adds at least one `fillText` call, on every surface. -/
theorem drawSingleTextElement_fills (b : Browser) (ctx : Ctx) (el : TextElement)
    (canvasRect : DOMRect) (exportWidth exportHeight : ℕ) :
    (fillTextCalls ctx.calls).length + (if hasInk el.textContent then 1 else 0)
      ≤ (fillTextCalls
          (drawSingleTextElement b ctx el canvasRect exportWidth exportHeight).calls).length := by
  unfold drawSingleTextElement drawWrappedText
  simp only [drawLinesFrom_fillTextCalls, List.length_append, List.length_map,
    List.enumFrom_length, setUpTextStyle_calls]
  apply Nat.add_le_add_left
  split
  · next hink =>
    exact Nat.pos_of_ne_zero (fun h0 =>
      breakIntoLines_ne_nil _ _ _ hink (List.length_eq_zero.mp h0))
  · exact Nat.zero_le _

theorem drawTextElements_fills (b : Browser) (rect : DOMRect) (exportWidth exportHeight : ℕ)
    (els : List TextElement) :
    ∀ ctx : Ctx,
      (fillTextCalls ctx.calls).length
          + (els.filter (fun el => hasInk el.textContent)).length
        ≤ (fillTextCalls (els.foldl
            (fun c el => drawSingleTextElement b c el rect exportWidth exportHeight)
            ctx).calls).length := by
  induction els with
  | nil => intro ctx; simp
  | cons el r ih =>
    intro ctx
    simp only [List.foldl_cons]
    have h1 := drawSingleTextElement_fills b ctx el rect exportWidth exportHeight
    have h2 := ih (drawSingleTextElement b ctx el rect exportWidth exportHeight)
    by_cases hink : hasInk el.textContent = true
    · simp only [hink, if_true] at h1
      simp only [List.filter_cons, hink, if_true, List.length_cons]
      omega
    · have hfalse : hasInk el.textContent = false := by simpa using hink
      simp only [hfalse, Bool.false_eq_true, if_false, Nat.add_zero] at h1
      simp only [List.filter_cons, hfalse, Bool.false_eq_true, if_false]
      omega

theorem drawBackground_error (b : Browser) (page : Page) (ctx : Ctx) (width height : ℕ)
    (transparent : Bool) (e : JSError)
    (h : drawBackground b page ctx width height transparent = Except.error e) :
    e = ⟨"Failed to load image"⟩ := by
  unfold drawBackground at h
  split at h
  · split at h
    · split at h
      · unfold drawImageToCanvas at h
        split at h
        · exact absurd h (by simp)
        · injection h with h; exact h.symm
      · exact absurd h (by simp)
    · exact absurd h (by simp)
  · exact absurd h (by simp)

/-- C8, as amended.  When the editing surface has zero width or zero height the export
does not stop: the only error `createExportCanvas` can reject with is the failure to
load the background image; whenever the background step succeeds it resolves with a
canvas of the configured size, on which every call added after the background is a
`strokeText` or `fillText` at a position that is not a finite number (the outcome of the
division by zero), and every text node that has a character other than the space has
had its `fillText` call. -/
theorem zero_surface_export_goes_on (b : Browser) (page : Page) (config : ExportConfig)
    (sc : StoryCanvas) (hsc : page.storyCanvas = some sc)
    (hz : sc.rect.width = 0 ∨ sc.rect.height = 0) :
    (∀ e, (createExportCanvas b page config).result = Except.error e →
        e = ⟨"Failed to load image"⟩)
      ∧ ∀ bg, drawBackground b page Ctx.fresh config.width config.height
            (config.transparent.getD false) = Except.ok bg →
          ∃ canvas added, (createExportCanvas b page config).result = Except.ok canvas ∧
            canvas.width = config.width ∧ canvas.height = config.height ∧
            canvas.ctx.calls = bg.calls ++ added ∧
            (∀ op ∈ added, op.isTextOffCanvas = true) ∧
            (sc.textElements.filter (fun el => hasInk el.textContent)).length
              ≤ (fillTextCalls added).length := by
  constructor
  · intro e he
    rw [createExportCanvas_result] at he
    cases hbg : drawBackground b page Ctx.fresh config.width config.height
        (config.transparent.getD false) with
    | error e' =>
      rw [hbg] at he
      injection he with he
      subst he
      exact drawBackground_error b page _ _ _ _ _ hbg
    | ok bg => rw [hbg] at he; exact absurd he (by simp [Except.map])
  · intro bg hbg
    have htext : drawTextElements b page bg config.width config.height
        = sc.textElements.foldl
            (fun c el => drawSingleTextElement b c el sc.rect config.width config.height)
            bg := by
      unfold drawTextElements
      rw [hsc]
    obtain ⟨added, hcalls, hoff⟩ := foldl_addsOnly DrawOp.isTextOffCanvas
      (fun c el => drawSingleTextElement b c el sc.rect config.width config.height)
      (fun c el => drawSingleTextElement_offCanvas b c el sc.rect config.width config.height hz)
      sc.textElements bg
    refine ⟨⟨config.width, config.height,
      drawTextElements b page bg config.width config.height⟩, added, ?_, rfl, rfl, ?_, hoff, ?_⟩
    · rw [createExportCanvas_result, hbg]; rfl
    · rw [htext]; exact hcalls
    · have hcount := drawTextElements_fills b sc.rect config.width config.height
        sc.textElements bg
      rw [hcalls, fillTextCalls_append, List.length_append] at hcount
      omega

namespace JSNum

theorem zero_div_zero : fin 0 / fin 0 = nan := by
  show div (fin 0) (fin 0) = nan
  simp [div]

theorem nan_mul (a : JSNum) : nan * a = nan := by
  cases a <;> rfl

theorem nan_add (a : JSNum) : nan + a = nan := by
  cases a <;> rfl

theorem nan_sub (a : JSNum) : nan - a = nan := by
  cases a <;> rfl

end JSNum

/-- Witness of C8 as amended: the page `unmeasuredPage`, whose surface and text node
have zero rectangles, exported with the preset `high-quality`. -/
theorem zero_surface_export_goes_on_witness :
    ∃ canvas added,
      (createExportCanvas plainBrowser unmeasuredPage highQuality).result = Except.ok canvas ∧
        canvas.width = 1080 ∧ canvas.height = 1920 ∧
        canvas.ctx.calls = [blackFill 1080 1920] ++ added ∧
        (∀ op ∈ added, op.isTextOffCanvas = true) ∧
        1 ≤ (fillTextCalls added).length :=
  (zero_surface_export_goes_on plainBrowser unmeasuredPage highQuality
    ⟨⟨0, 0, 0, 0⟩, [⟨⟨0, 0, 0, 0⟩, plainStyle, "Hi".toList⟩]⟩ rfl (Or.inl rfl)).2
    ⟨CanvasState.initial, [blackFill 1080 1920]⟩ rfl

/-- C8 as stated fails.  On the page `unmeasuredPage`, whose editing surface has zero
width and zero height, the export with the preset `high-quality` does not reject: it
resolves with a canvas of 1080 by 1920 on which the text node `Hi` has had its `fillText`
call, at the position (NaN, NaN) that the division by the zero width and height gives. -/
theorem zero_surface_export_still_draws :
    ∃ canvas,
      (createExportCanvas plainBrowser unmeasuredPage highQuality).result = Except.ok canvas ∧
        canvas.width = 1080 ∧ canvas.height = 1920 ∧
        fillTextCalls canvas.ctx.calls = [("Hi".toList, JSNum.nan, JSNum.nan)] := by
  refine ⟨⟨1080, 1920, drawTextElements plainBrowser unmeasuredPage
    ⟨CanvasState.initial, [blackFill 1080 1920]⟩ 1080 1920⟩, ?_, rfl, rfl, ?_⟩
  · rw [createExportCanvas_result]; rfl
  · have hx : (JSNum.fin 0 - JSNum.fin 0 + JSNum.fin 0 / JSNum.ofNat 2) / JSNum.fin 0
        * JSNum.ofNat 1080 = JSNum.nan := by
      simp [JSNum.zero_div_zero, JSNum.nan_mul]
    have hy : (JSNum.fin 0 - JSNum.fin 0 + JSNum.fin 0 / JSNum.ofNat 2) / JSNum.fin 0
        * JSNum.ofNat 1920 = JSNum.nan := by
      simp [JSNum.zero_div_zero, JSNum.nan_mul]
    have hmax : JSNum.fin 0 / JSNum.fin 0 * JSNum.ofNat 1080 = JSNum.nan := by
      rw [JSNum.zero_div_zero, JSNum.nan_mul]
    have hlines : ∀ st : CanvasState,
        breakIntoLines (plainBrowser.measureText st) JSNum.nan "Hi".toList = ["Hi".toList] := by
      intro st
      show breakIntoLines charCount JSNum.nan "Hi".toList = ["Hi".toList]
      decide
    simp only [drawTextElements, unmeasuredPage, List.foldl_cons, List.foldl_nil,
      drawSingleTextElement, drawWrappedText, drawLinesFrom_fillTextCalls, setUpTextStyle_calls,
      hx, hy, hmax, hlines, JSNum.nan_sub, JSNum.nan_add]
    rfl

/-! ## The background image: `drawImageToCanvas` -/

/-- The calls of `drawImageToCanvas` for an image that loads. -/
theorem drawImageToCanvas_calls (b : Browser) (page : Page) (ctx : Ctx) (img : ImageElement)
    (width height : ℕ) (hload : b.imageLoads img.src = true) :
    drawImageToCanvas b page ctx img width height
      = Except.ok ⟨ctx.state, ctx.calls ++ imageCalls page ctx.state img.src width height⟩ := by
  unfold drawImageToCanvas imageCalls
  rw [if_pos hload]
  simp [storedScale, storedOffsetX, storedOffsetY, storedRotation, JSNum.fin_div, neg_div]

/-- The transform is the same after the seven calls as before them. -/
theorem transformAfter_imageCalls (trig : ℚ → ℚ × ℚ) (page : Page) (st : CanvasState)
    (src : Str) (width height : ℕ) (start : Plotter) :
    transformAfter trig start (imageCalls page st src width height) = start := by
  simp only [transformAfter, imageCalls, List.foldl_cons, List.foldl_nil, transformStep]
  by_cases hrot : storedRotation page / 180 = 0
  · simp only [hrot, if_true]
  · simp only [hrot, if_false]

/-- C11.  When a background image loads, `drawImageToCanvas` adds to the calls of the
context, in this order: `save`, `translate(W/2, H/2)`, `rotate` by the stored rotation
over 180 half-turns (rotation x pi / 180 radians), `scale(scale, scale)`,
`translate(-W/2, -H/2)`, `drawImage` at the stored offsets (as they are, multiplied by
nothing) with size W x H, and `restore`.  After them the transform of the context is what
it was before, so the text drawn next is placed as without an image.  With rotation 0
and scale 1 the image is drawn under the identity transform, so with zero offset it fills
the rectangle from (0, 0) to (W, H). -/
theorem background_image_calls (b : Browser) (page : Page) (ctx : Ctx) (img : ImageElement)
    (width height : ℕ) (trig : ℚ → ℚ × ℚ) (hload : b.imageLoads img.src = true) :
    drawImageToCanvas b page ctx img width height
        = Except.ok ⟨ctx.state, ctx.calls ++
            [DrawOp.save,
              DrawOp.translate (JSNum.fin ((width : ℚ) / 2)) (JSNum.fin ((height : ℚ) / 2)),
              DrawOp.rotate (JSNum.fin (storedRotation page / 180)),
              DrawOp.scale (JSNum.fin (storedScale page)) (JSNum.fin (storedScale page)),
              DrawOp.translate (JSNum.fin (-(width : ℚ) / 2)) (JSNum.fin (-(height : ℚ) / 2)),
              DrawOp.drawImage ctx.state img.src (JSNum.fin (storedOffsetX page))
                (JSNum.fin (storedOffsetY page)) (JSNum.fin (width : ℚ))
                (JSNum.fin (height : ℚ)),
              DrawOp.restore]⟩
      ∧ (∀ start : Plotter,
          transformAfter trig start (imageCalls page ctx.state img.src width height) = start)
      ∧ (storedRotation page = 0 → storedScale page = 1 →
          imagePlacements trig Plotter.fresh (imageCalls page ctx.state img.src width height)
            = [(Affine.identity, JSNum.fin (storedOffsetX page),
                JSNum.fin (storedOffsetY page), JSNum.fin (width : ℚ),
                JSNum.fin (height : ℚ))]) := by
  refine ⟨drawImageToCanvas_calls b page ctx img width height hload,
    fun start => transformAfter_imageCalls trig page ctx.state img.src width height start, ?_⟩
  intro hrot hscale
  simp only [imageCalls, imagePlacements, transformStep, hrot, hscale, zero_div, if_true,
    Plotter.fresh]
  simp [Affine.identity, Affine.mul, Affine.translation, Affine.scaling]
  constructor <;> ring

/-- Witness of C11: the image of `picturePage` on a fresh 1080 by 1920 canvas, stored with
rotation 0, scale 1 and no offset, is drawn under the identity transform on the rectangle
from (0, 0) to (1080, 1920). -/
theorem background_image_calls_witness :
    imagePlacements flatTrig Plotter.fresh
        (imageCalls picturePage CanvasState.initial "blob:story".toList 1080 1920)
      = [(Affine.identity, JSNum.fin 0, JSNum.fin 0, JSNum.fin 1080, JSNum.fin 1920)] := by
  have h := (background_image_calls plainBrowser picturePage Ctx.fresh storyPicture 1080 1920
    flatTrig rfl).2.2 rfl rfl
  simpa [storedOffsetX, storedOffsetY, picturePage, Ctx.fresh, storyPicture] using h

/-- C12, failing input.  The background of `zoomedPage` has scale 2, rotation 0 and the
offset (10, 0); on a 1080 by 1920 export the top-left corner of the image lands at
(-520, -960), and at (-540, -960) when the offset is (0, 0): the export shifts the image
by 20, the offset times the scale.  On the screen, under the transform of
`updateImageTransform`, a translation by the offset before the scale, the same offset
shifts the image by 10. -/
theorem scaled_background_offset_is_scaled (trig : ℚ → ℚ × ℚ) :
    drawImageToCanvas plainBrowser zoomedPage Ctx.fresh storyPicture 1080 1920
        = Except.ok ⟨CanvasState.initial,
            imageCalls zoomedPage CanvasState.initial storyPicture.src 1080 1920⟩
      ∧ imagePlacements trig Plotter.fresh
            (imageCalls zoomedPage CanvasState.initial storyPicture.src 1080 1920)
          = [(⟨2, 0, 0, 2, -540, -960⟩, JSNum.fin 10, JSNum.fin 0, JSNum.fin 1080,
              JSNum.fin 1920)]
      ∧ Affine.apply ⟨2, 0, 0, 2, -540, -960⟩ (10, 0) = (-520, -960)
      ∧ imagePlacements trig Plotter.fresh
            (imageCalls zoomedPageAtRest CanvasState.initial storyPicture.src 1080 1920)
          = [(⟨2, 0, 0, 2, -540, -960⟩, JSNum.fin 0, JSNum.fin 0, JSNum.fin 1080,
              JSNum.fin 1920)]
      ∧ Affine.apply ⟨2, 0, 0, 2, -540, -960⟩ (0, 0) = (-540, -960)
      ∧ (cssMatrix trig (updateImageTransform 2 10 0 0)).apply (0, 0) = (10, 0)
      ∧ (cssMatrix trig (updateImageTransform 2 0 0 0)).apply (0, 0) = (0, 0) := by
  refine ⟨?_, ?_, ?_, ?_, ?_, ?_, ?_⟩
  · rw [drawImageToCanvas_calls plainBrowser zoomedPage Ctx.fresh storyPicture 1080 1920 rfl]
    rfl
  · simp [imageCalls, imagePlacements, transformStep, storedRotation, storedScale,
      storedOffsetX, storedOffsetY, zoomedPage, Plotter.fresh, Affine.mul, Affine.identity,
      Affine.translation, Affine.scaling]
    norm_num
  · simp [Affine.apply]
    norm_num
  · simp [imageCalls, imagePlacements, transformStep, storedRotation, storedScale,
      storedOffsetX, storedOffsetY, zoomedPageAtRest, Plotter.fresh, Affine.mul,
      Affine.identity, Affine.translation, Affine.scaling]
    norm_num
  · simp [Affine.apply]
  · simp [updateImageTransform, cssMatrix, Affine.apply, Affine.mul, Affine.identity,
      Affine.translation, Affine.scaling]
  · simp [updateImageTransform, cssMatrix, Affine.apply, Affine.mul, Affine.identity,
      Affine.translation, Affine.scaling]

/-! ## The filters of the background -/

/-- C13, failing input.  On the screen `updateImageFilter('brightness', '150%')` sets the
filter chain `brightness(150%)` on the image.  The export of `filteredPage`, whose
`imageData.filters` holds that entry, draws the image with the filter `none` in effect;
and for every page, config and filter mapping the export is what it is with an empty
mapping: `imageData.filters` is never read. -/
theorem background_filters_not_exported (b : Browser) (page : Page) (config : ExportConfig)
    (filters : List (Str × Str)) :
    updateImageFilter [] "brightness".toList "150%".toList
        = ([("brightness".toList, "150%".toList)], "brightness(150%)".toList)
      ∧ (createExportCanvas plainBrowser filteredPage highQuality).result
        = Except.ok ⟨1080, 1920, ⟨CanvasState.initial,
            blackFill 1080 1920
              :: imageCalls filteredPage CanvasState.initial storyPicture.src 1080 1920⟩⟩
      ∧ (∀ op ∈ imageCalls filteredPage CanvasState.initial storyPicture.src 1080 1920,
          ∀ st src dx dy dw dh, op = DrawOp.drawImage st src dx dy dw dh →
            st.filter = "none".toList)
      ∧ (createExportCanvas b (page.withFilters filters) config).result
        = (createExportCanvas b (page.withFilters []) config).result
      ∧ (createExportCanvas b (page.withFilters filters) config).progress
        = (createExportCanvas b (page.withFilters []) config).progress := by
  refine ⟨by decide, ?_, ?_, ?_, ?_⟩
  · rw [createExportCanvas_result]
    have hbg : drawBackground plainBrowser filteredPage Ctx.fresh highQuality.width
        highQuality.height (highQuality.transparent.getD false)
        = Except.ok ⟨CanvasState.initial, blackFill 1080 1920
            :: imageCalls filteredPage CanvasState.initial storyPicture.src 1080 1920⟩ := by
      have h1 := drawBackground_image plainBrowser filteredPage 1080 1920 storyPicture rfl
        (by decide) (by decide)
      have h2 := drawImageToCanvas_calls plainBrowser filteredPage
        ⟨CanvasState.initial, [blackFill 1080 1920]⟩ storyPicture 1080 1920 rfl
      rw [h2] at h1
      exact h1
    rw [hbg]
    rfl
  · intro op hop st src dx dy dw dh hdraw
    subst hdraw
    simp only [imageCalls, List.mem_cons, List.mem_singleton, List.not_mem_nil, or_false,
      reduceCtorEq, false_or, DrawOp.drawImage.injEq] at hop
    rw [hop.1]
    rfl
  · cases page with
    | mk img sc data => cases data <;> rfl
  · cases page with
    | mk img sc data => cases data <;> rfl

/-! ## Reading the effects of an export -/

theorem downloads_append (l1 l2 : List Effect) :
    downloads (l1 ++ l2) = downloads l1 ++ downloads l2 := by
  induction l1 with
  | nil => rfl
  | cons x r ih => cases x <;> simp [downloads, ih]

theorem notices_append (kind : NoticeKind) (l1 l2 : List Effect) :
    notices kind (l1 ++ l2) = notices kind l1 ++ notices kind l2 := by
  induction l1 with
  | nil => rfl
  | cons x r ih =>
    cases x with
    | notify k m => by_cases hk : k = kind <;> simp [notices, hk, ih]
    | _ => simp [notices, ih]

theorem canvasesCreated_append (l1 l2 : List Effect) :
    canvasesCreated (l1 ++ l2) = canvasesCreated l1 ++ canvasesCreated l2 := by
  induction l1 with
  | nil => rfl
  | cons x r ih => cases x <;> simp [canvasesCreated, ih]

theorem progressShown_append (l1 l2 : List Effect) :
    progressShown (l1 ++ l2) = progressShown l1 ++ progressShown l2 := by
  induction l1 with
  | nil => rfl
  | cons x r ih => cases x <;> simp [progressShown, ih]

theorem downloads_progress (ps : List Progress) : downloads (ps.map Effect.progress) = [] := by
  induction ps with
  | nil => rfl
  | cons p r ih => simp [downloads, ih]

theorem notices_progress (kind : NoticeKind) (ps : List Progress) :
    notices kind (ps.map Effect.progress) = [] := by
  induction ps with
  | nil => rfl
  | cons p r ih => simp [notices, ih]

theorem canvasesCreated_progress (ps : List Progress) :
    canvasesCreated (ps.map Effect.progress) = [] := by
  induction ps with
  | nil => rfl
  | cons p r ih => simp [canvasesCreated, ih]

theorem progressShown_progress (ps : List Progress) :
    progressShown (ps.map Effect.progress) = ps := by
  induction ps with
  | nil => rfl
  | cons p r ih => simp [progressShown, ih]

theorem downloads_renderEffects (config : ExportConfig) (rendered : CanvasOutcome) :
    downloads (renderEffects config rendered) = [] := by
  simp [renderEffects, downloads, downloads_progress]

theorem notices_renderEffects (kind : NoticeKind) (config : ExportConfig)
    (rendered : CanvasOutcome) : notices kind (renderEffects config rendered) = [] := by
  simp [renderEffects, notices, notices_progress]

theorem canvasesCreated_renderEffects (config : ExportConfig) (rendered : CanvasOutcome) :
    canvasesCreated (renderEffects config rendered) = [(config.width, config.height)] := by
  simp [renderEffects, canvasesCreated, canvasesCreated_progress]

/-- What a failed `exportImage` leaves behind, given that nothing was downloaded or
announced before the failure. -/
theorem exportImageFailed_effects (effects : List Effect) (e : JSError)
    (hd : downloads effects = []) (hs : notices NoticeKind.success effects = [])
    (he : notices NoticeKind.error effects = []) :
    (exportImageFailed effects e).isExporting = false ∧
      (exportImageFailed effects e).outcome = Except.ok () ∧
      downloads (exportImageFailed effects e).effects = [] ∧
      notices NoticeKind.success (exportImageFailed effects e).effects = [] ∧
      notices NoticeKind.error (exportImageFailed effects e).effects
        = [exportErrorLead ++ e.message] := by
  refine ⟨rfl, rfl, ?_, ?_, ?_⟩
  · simp [exportImageFailed, downloads_append, hd, downloads]
  · simp [exportImageFailed, notices_append, hs, notices]
  · simp [exportImageFailed, notices_append, he, notices]

/-! ## `exportImage` -/

/-- When rendering fails, `exportImage` ends in its `catch` before anything has been
downloaded or announced. -/
theorem exportImage_render_failed (h : Host) (page : Page) (type : Str) (e : JSError)
    (hres : (createExportCanvas h.browser page
      ((exportFormats.lookup type).getD highQuality)).result = Except.error e) :
    (exportImage h page false type).outcome = Except.ok () ∧
      downloads (exportImage h page false type).effects = [] ∧
      notices NoticeKind.success (exportImage h page false type).effects = [] ∧
      notices NoticeKind.error (exportImage h page false type).effects
        = [exportErrorLead ++ e.message] ∧
      progressShown (exportImage h page false type).effects
        = (⟨"در حال آماده‌سازی...", 0⟩ : Progress)
          :: (createExportCanvas h.browser page
            ((exportFormats.lookup type).getD highQuality)).progress := by
  simp only [exportImage, Bool.false_eq_true, if_false, hres, exportImageFailed]
  refine ⟨trivial, ?_, ?_, ?_, ?_⟩
  · simp [downloads, downloads_append, renderEffects, downloads_progress]
  · simp [notices, notices_append, renderEffects, notices_progress]
  · simp [notices, notices_append, renderEffects, notices_progress]
  · simp [progressShown, progressShown_append, renderEffects, progressShown_progress]

/-- When encoding throws, `exportImage` ends in its `catch` before anything has been
downloaded or announced. -/
theorem exportImage_encode_failed (h : Host) (page : Page) (type : Str)
    (canvas : ExportCanvas) (e : JSError)
    (hres : (createExportCanvas h.browser page
      ((exportFormats.lookup type).getD highQuality)).result = Except.ok canvas)
    (henc : canvasToBlob h canvas ((exportFormats.lookup type).getD highQuality)
      = Except.error e) :
    (exportImage h page false type).outcome = Except.ok () ∧
      downloads (exportImage h page false type).effects = [] ∧
      notices NoticeKind.success (exportImage h page false type).effects = [] ∧
      notices NoticeKind.error (exportImage h page false type).effects
        = [exportErrorLead ++ e.message] := by
  simp only [exportImage, Bool.false_eq_true, if_false, hres, henc, exportImageFailed]
  refine ⟨trivial, ?_, ?_, ?_⟩
  · simp [downloads, downloads_append, renderEffects, downloads_progress]
  · simp [notices, notices_append, renderEffects, notices_progress]
  · simp [notices, notices_append, renderEffects, notices_progress]

/-- When the encoder hands back `null`, `exportImage` ends in its `catch` at the
download, before anything has been downloaded or announced. -/
theorem exportImage_encode_null (h : Host) (page : Page) (type : Str)
    (canvas : ExportCanvas)
    (hres : (createExportCanvas h.browser page
      ((exportFormats.lookup type).getD highQuality)).result = Except.ok canvas)
    (henc : canvasToBlob h canvas ((exportFormats.lookup type).getD highQuality)
      = Except.ok none) :
    (exportImage h page false type).outcome = Except.ok () ∧
      downloads (exportImage h page false type).effects = [] ∧
      notices NoticeKind.success (exportImage h page false type).effects = [] ∧
      notices NoticeKind.error (exportImage h page false type).effects
        = [exportErrorLead ++ h.nullBlobError.message] := by
  simp only [exportImage, Bool.false_eq_true, if_false, hres, henc, downloadFile,
    exportImageFailed]
  refine ⟨trivial, ?_, ?_, ?_⟩
  · simp [downloads, downloads_append, renderEffects, downloads_progress]
  · simp [notices, notices_append, renderEffects, notices_progress]
  · simp [notices, notices_append, renderEffects, notices_progress]

/-- `exportImage` always ends with `isExporting` false when it starts from idle. -/
theorem exportImage_isExporting (h : Host) (page : Page) (type : Str) :
    (exportImage h page false type).isExporting = false := by
  simp only [exportImage, Bool.false_eq_true, if_false]
  split
  · rfl
  · split
    · rfl
    · split <;> rfl

/-- `exportImage` never rejects: every path ends in its `try` or its `catch`. -/
theorem exportImage_outcome (h : Host) (page : Page) (busy : Bool) (type : Str) :
    (exportImage h page busy type).outcome = Except.ok () := by
  unfold exportImage
  split
  · rfl
  · dsimp only
    split
    · rfl
    · split
      · rfl
      · split <;> rfl

/-- A displayed image that does not load ends `createExportCanvas` after the first
progress report, with the error of `img.onerror`. -/
theorem createExportCanvas_image_fails (b : Browser) (page : Page) (config : ExportConfig)
    (img : ImageElement) (himg : page.storyImage = some img)
    (hdisp : img.display ≠ "none".toList) (hsrc : img.src ≠ [])
    (hload : b.imageLoads img.src = false)
    (ht : config.transparent.getD false = false) :
    createExportCanvas b page config
      = ⟨[⟨"در حال رسم پس‌زمینه...", 20⟩], Except.error ⟨"Failed to load image"⟩⟩ := by
  unfold createExportCanvas
  dsimp only
  rw [ht, drawBackground_image b page _ _ img himg hdisp hsrc,
    drawImageToCanvas_fails b page _ img _ _ (by simp [hload])]

/-- C14, amended.  When the displayed background image fails to load and the preset is
not transparent, `createExportCanvas` rejects with the error `Failed to load image`
after the first progress report, so no text node is drawn; `exportImage` catches that
error and resolves: it has created one canvas, encoded and downloaded nothing, hidden
the progress, emitted one error notification that carries the message, and left
`isExporting` false. -/
theorem failed_image_load_ends_export (h : Host) (page : Page) (type : Str)
    (img : ImageElement) (himg : page.storyImage = some img)
    (hdisp : img.display ≠ "none".toList) (hsrc : img.src ≠ [])
    (hload : h.browser.imageLoads img.src = false)
    (ht : ((exportFormats.lookup type).getD highQuality).transparent.getD false = false) :
    (createExportCanvas h.browser page ((exportFormats.lookup type).getD highQuality)).result
        = Except.error ⟨"Failed to load image"⟩ ∧
      exportImage h page false type
        = ⟨false,
            [Effect.progress ⟨"در حال آماده‌سازی...", 0⟩,
              Effect.createCanvas ((exportFormats.lookup type).getD highQuality).width
                ((exportFormats.lookup type).getD highQuality).height,
              Effect.progress ⟨"در حال رسم پس‌زمینه...", 20⟩,
              Effect.hideProgress,
              Effect.notify NoticeKind.error (exportErrorLead ++ "Failed to load image")],
            Except.ok ()⟩ := by
  have hc := createExportCanvas_image_fails h.browser page
    ((exportFormats.lookup type).getD highQuality) img himg hdisp hsrc hload ht
  refine ⟨by rw [hc], ?_⟩
  simp only [exportImage, Bool.false_eq_true, if_false, hc, exportImageFailed, renderEffects]
  rfl

/-- The amended C14 on the page with a picture, in a browser where no image loads. -/
theorem failed_image_load_ends_export_witness :
    (createExportCanvas brokenImageHost.browser picturePage
        ((exportFormats.lookup "high-quality".toList).getD highQuality)).result
        = Except.error ⟨"Failed to load image"⟩ ∧
      exportImage brokenImageHost picturePage false "high-quality".toList
        = ⟨false,
            [Effect.progress ⟨"در حال آماده‌سازی...", 0⟩,
              Effect.createCanvas
                ((exportFormats.lookup "high-quality".toList).getD highQuality).width
                ((exportFormats.lookup "high-quality".toList).getD highQuality).height,
              Effect.progress ⟨"در حال رسم پس‌زمینه...", 20⟩,
              Effect.hideProgress,
              Effect.notify NoticeKind.error (exportErrorLead ++ "Failed to load image")],
            Except.ok ()⟩ :=
  failed_image_load_ends_export brokenImageHost picturePage "high-quality".toList
    ⟨"block".toList, "blob:story".toList⟩ rfl (by decide) (by decide) rfl rfl

/-- C14 as stated fails: with a background image that does not load, the call of
`exportImage` does not reject; it resolves after an error notification. -/
theorem failed_image_load_does_not_reject :
    (¬ ∃ e, (exportImage brokenImageHost picturePage false "high-quality".toList).outcome
        = Except.error e) ∧
      notices NoticeKind.error
          (exportImage brokenImageHost picturePage false "high-quality".toList).effects
        = [exportErrorLead ++ "Failed to load image"] := by
  have hc := createExportCanvas_image_fails brokenImageHost.browser picturePage
    ((exportFormats.lookup "high-quality".toList).getD highQuality)
    ⟨"block".toList, "blob:story".toList⟩ rfl (by decide) (by decide) rfl rfl
  constructor
  · rw [exportImage_outcome]
    rintro ⟨e, he⟩
    cases he
  · exact (exportImage_render_failed brokenImageHost picturePage "high-quality".toList
      ⟨"Failed to load image"⟩ (by rw [hc])).2.2.2.1

/-- C15, amended.  A call of `exportImage` or `batchExport` made while `isExporting` is
true is refused with a warning, not rejected: it emits the one warning notification
and resolves, creates no canvas, reports no progress, encodes and downloads nothing,
and leaves `isExporting` true, so the next call is refused in the same way. -/
theorem busy_export_refused_with_warning (h : Host) (page : Page) (type : Str)
    (formats : List Str) :
    exportImage h page true type
        = ⟨true, [Effect.notify NoticeKind.warning busyMessage], Except.ok ()⟩ ∧
      batchExport h page true formats
        = ⟨true, [Effect.notify NoticeKind.warning busyMessage], Except.ok ()⟩ ∧
      exportImage h page (exportImage h page true type).isExporting type
        = ⟨true, [Effect.notify NoticeKind.warning busyMessage], Except.ok ()⟩ ∧
      batchExport h page (batchExport h page true formats).isExporting formats
        = ⟨true, [Effect.notify NoticeKind.warning busyMessage], Except.ok ()⟩ :=
  ⟨rfl, rfl, rfl, rfl⟩

/-- C15 as stated fails: a call made while an export is in flight is not rejected; both
`exportImage` and `batchExport` resolve, after a warning notification and no error
notification. -/
theorem busy_export_is_not_rejected :
    (¬ ∃ e, (exportImage plainHost emptyPage true "high-quality".toList).outcome
        = Except.error e) ∧
      (¬ ∃ e, (batchExport plainHost emptyPage true
          ["high-quality".toList, "instagram-story".toList]).outcome = Except.error e) ∧
      notices NoticeKind.warning
          (exportImage plainHost emptyPage true "high-quality".toList).effects
        = [busyMessage] ∧
      notices NoticeKind.error
          (exportImage plainHost emptyPage true "high-quality".toList).effects = [] := by
  refine ⟨?_, ?_, rfl, rfl⟩
  · rintro ⟨e, he⟩
    cases he
  · rintro ⟨e, he⟩
    cases he

/-- C16.  Every call of `exportImage` that starts from idle ends with `isExporting`
false; and when rendering rejects, when the encoder throws, or when the encoder hands
back `null` (which makes the download throw), nothing is downloaded, no success
notification is shown, and exactly one error notification is shown, which carries the
message of the error. -/
theorem exportImage_returns_to_idle (h : Host) (page : Page) (type : Str) :
    (exportImage h page false type).isExporting = false ∧
      (∀ e, (createExportCanvas h.browser page
            ((exportFormats.lookup type).getD highQuality)).result = Except.error e →
          downloads (exportImage h page false type).effects = [] ∧
          notices NoticeKind.success (exportImage h page false type).effects = [] ∧
          notices NoticeKind.error (exportImage h page false type).effects
            = [exportErrorLead ++ e.message]) ∧
      (∀ canvas e, (createExportCanvas h.browser page
            ((exportFormats.lookup type).getD highQuality)).result = Except.ok canvas →
          canvasToBlob h canvas ((exportFormats.lookup type).getD highQuality)
            = Except.error e →
          downloads (exportImage h page false type).effects = [] ∧
          notices NoticeKind.success (exportImage h page false type).effects = [] ∧
          notices NoticeKind.error (exportImage h page false type).effects
            = [exportErrorLead ++ e.message]) ∧
      (∀ canvas, (createExportCanvas h.browser page
            ((exportFormats.lookup type).getD highQuality)).result = Except.ok canvas →
          canvasToBlob h canvas ((exportFormats.lookup type).getD highQuality)
            = Except.ok none →
          downloads (exportImage h page false type).effects = [] ∧
          notices NoticeKind.success (exportImage h page false type).effects = [] ∧
          notices NoticeKind.error (exportImage h page false type).effects
            = [exportErrorLead ++ h.nullBlobError.message]) := by
  refine ⟨exportImage_isExporting h page type, ?_, ?_, ?_⟩
  · intro e hres
    have := exportImage_render_failed h page type e hres
    exact ⟨this.2.1, this.2.2.1, this.2.2.2.1⟩
  · intro canvas e hres henc
    exact (exportImage_encode_failed h page type canvas e hres henc).2
  · intro canvas hres henc
    exact (exportImage_encode_null h page type canvas hres henc).2
/-- C16 on three exports that fail: the picture that does not load, the encoder that
throws, the encoder that hands back `null` for a JPEG. -/
theorem exportImage_returns_to_idle_witness :
    (downloads (exportImage brokenImageHost picturePage false "high-quality".toList).effects
        = [] ∧
      notices NoticeKind.success
        (exportImage brokenImageHost picturePage false "high-quality".toList).effects = [] ∧
      notices NoticeKind.error
        (exportImage brokenImageHost picturePage false "high-quality".toList).effects
        = [exportErrorLead ++ "Failed to load image"]) ∧
    (downloads (exportImage throwingHost emptyPage false "high-quality".toList).effects
        = [] ∧
      notices NoticeKind.success
        (exportImage throwingHost emptyPage false "high-quality".toList).effects = [] ∧
      notices NoticeKind.error
        (exportImage throwingHost emptyPage false "high-quality".toList).effects
        = [exportErrorLead ++ "encoding failed"]) ∧
    (downloads (exportImage nullJpegHost emptyPage false "instagram-story".toList).effects
        = [] ∧
      notices NoticeKind.success
        (exportImage nullJpegHost emptyPage false "instagram-story".toList).effects = [] ∧
      notices NoticeKind.error
        (exportImage nullJpegHost emptyPage false "instagram-story".toList).effects
        = [exportErrorLead ++ "Failed to execute createObjectURL"]) :=
  ⟨(exportImage_returns_to_idle brokenImageHost picturePage "high-quality".toList).2.1
      ⟨"Failed to load image"⟩ rfl,
    (exportImage_returns_to_idle throwingHost emptyPage "high-quality".toList).2.2.1
      _ ⟨"encoding failed"⟩ rfl rfl,
    (exportImage_returns_to_idle nullJpegHost emptyPage "instagram-story".toList).2.2.2
      _ rfl rfl⟩
/-! ## Text shadow -/

theorem shadowTokens_colour_first :
    shadowTokens "rgb(0, 0, 0) 1px 2px 3px".toList
      = ["rgb(0, 0, 0)".toList, "1px".toList, "2px".toList, "3px".toList] := by
  decide

theorem parseFloat_rgb : parseFloat "rgb(0, 0, 0)".toList = JSNum.nan := by
  simp [parseFloat, readSign, startsWith, isJSWhitespace, isDigit]

theorem parseFloat_1px : parseFloat "1px".toList = JSNum.fin 1 := by
  simp [parseFloat, readSign, startsWith, isJSWhitespace, isDigit, digitsValue, hexValue,
    readExponent]

theorem parseFloat_2px : parseFloat "2px".toList = JSNum.fin 2 := by
  simp [parseFloat, readSign, startsWith, isJSWhitespace, isDigit, digitsValue, hexValue,
    readExponent]

/-- What `applyTextEffects` does with the colour-first shadow at the scale ratio 2: the
fourth token goes to `shadowColor`, `NaN` to `shadowOffsetX`, 2 to `shadowOffsetY` and 4
to `shadowBlur`. -/
theorem applyTextEffects_shadowedStyle (b : Browser) :
    applyTextEffects b Ctx.fresh shadowedStyle (JSNum.fin 2)
      = ((((Ctx.fresh.setFillStyle b shadowedStyle.color).setShadowColor b
          "3px".toList).setShadowOffsetX JSNum.nan).setShadowOffsetY (JSNum.fin 2)).setShadowBlur
            (JSNum.fin 4) := by
  have htok : shadowTokens shadowedStyle.textShadow
      = ["rgb(0, 0, 0)".toList, "1px".toList, "2px".toList, "3px".toList] :=
    shadowTokens_colour_first
  have hshadow : shadowedStyle.textShadow ≠ [] ∧ shadowedStyle.textShadow ≠ "none".toList := by
    decide
  have hstroke : ¬ (shadowedStyle.webkitTextStroke ≠ [] ∧
      shadowedStyle.webkitTextStroke ≠ "none".toList) := by decide
  have h3 : ("3px".toList : Str) ≠ [] := by decide
  have h12 : ((1 : ℚ) * 2) = 2 := by norm_num
  have h22 : ((2 : ℚ) * 2) = 4 := by norm_num
  simp only [applyTextEffects, applyTextStroke, applyTextShadow, hstroke, hshadow, htok,
    if_true, if_false, h3, ne_eq, not_false_eq_true, parseFloat_rgb, parseFloat_1px,
    parseFloat_2px, JSNum.nan_mul, JSNum.fin_mul, h12, h22, and_self]

/-- C17 at the failing input.  For the computed text shadow `rgb(0, 0, 0) 1px 2px 3px`
(1px right, 2px down, 3px blur, black) and the scale ratio 2, in every browser:
the pattern finds the colour first, so `applyTextEffects` reads the colour as the
horizontal offset and the blur as the colour; `shadowOffsetX` stays 0 instead of 2,
`shadowOffsetY` is 2 instead of 4, `shadowBlur` is 4 instead of 6, and `shadowColor`
is not the colour of the shadow.  The pattern also drops the minus sign of a negative
offset and splits a fractional offset at its point. -/
theorem computed_shadow_misread (b : Browser) :
    shadowTokens shadowedStyle.textShadow
        = ["rgb(0, 0, 0)".toList, "1px".toList, "2px".toList, "3px".toList] ∧
      (applyTextEffects b Ctx.fresh shadowedStyle (JSNum.fin 2)).state.shadowOffsetX = 0 ∧
      (applyTextEffects b Ctx.fresh shadowedStyle (JSNum.fin 2)).state.shadowOffsetY = 2 ∧
      (applyTextEffects b Ctx.fresh shadowedStyle (JSNum.fin 2)).state.shadowBlur = 4 ∧
      (applyTextEffects b Ctx.fresh shadowedStyle (JSNum.fin 2)).state.shadowColor
        ≠ "rgb(0, 0, 0)".toList ∧
      shadowTokens "-1px 2px 3px red".toList
        = ["1px".toList, "2px".toList, "3px".toList, "red".toList] ∧
      shadowTokens "0.5px 2px 3px red".toList
        = ["0".toList, "5px".toList, "2px".toList, "3px".toList, "red".toList] := by
  have h04 : (0 : ℚ) ≤ 4 := by norm_num
  refine ⟨shadowTokens_colour_first, ?_, ?_, ?_, ?_, by decide, by decide⟩
  all_goals
    rw [applyTextEffects_shadowedStyle]
    simp only [Ctx.setShadowBlur, Ctx.setShadowOffsetY, Ctx.setShadowOffsetX,
      Ctx.setShadowColor, Ctx.setFillStyle, h04, if_true]
    try (cases b.validColor shadowedStyle.color <;> cases b.validColor "3px".toList <;> decide)
/-! ## Reading a decimal literal -/

theorem isDigit_not_whitespace (c : Char) (h : isDigit c = true) : isJSWhitespace c = false := by
  simp only [isDigit, Bool.and_eq_true, decide_eq_true_eq] at h
  obtain ⟨h1, h2⟩ := h
  unfold isJSWhitespace
  generalize c.toNat = n at h1 h2
  interval_cases n <;> decide

theorem takeWhile_digits (ip rest : Str) (hip : ∀ d ∈ ip, isDigit d = true)
    (hrest : ∀ c ∈ rest.head?, isDigit c = false) :
    (ip ++ rest).takeWhile isDigit = ip := by
  induction ip with
  | nil =>
    cases rest with
    | nil => rfl
    | cons c r => simp [List.takeWhile, hrest c (by simp)]
  | cons d ds ih =>
    simp [List.takeWhile, hip d (by simp), ih (fun x hx => hip x (by simp [hx]))]

theorem dropWhile_digits (ip rest : Str) (hip : ∀ d ∈ ip, isDigit d = true)
    (hrest : ∀ c ∈ rest.head?, isDigit c = false) :
    (ip ++ rest).dropWhile isDigit = rest := by
  induction ip with
  | nil =>
    cases rest with
    | nil => rfl
    | cons c r => simp [List.dropWhile, hrest c (by simp)]
  | cons d ds ih =>
    simp [List.dropWhile, hip d (by simp), ih (fun x hx => hip x (by simp [hx]))]

theorem readSign_digit (d : Char) (r : Str) (hd : isDigit d = true) :
    readSign (d :: r) = (false, d :: r) := by
  have hm : d ≠ '-' := by rintro rfl; exact absurd hd (by decide)
  have hp : d ≠ '+' := by rintro rfl; exact absurd hd (by decide)
  unfold readSign
  split
  · rename_i heq; injection heq with h1 _; exact absurd h1 hm
  · rename_i heq; injection heq with h1 _; exact absurd h1 hp
  · rfl

theorem startsWith_Infinity_digit (d : Char) (r : Str) (hd : isDigit d = true) :
    startsWith "Infinity".toList (d :: r) = false := by
  have hI : d ≠ 'I' := by rintro rfl; exact absurd hd (by decide)
  simp [startsWith, hI]

/-- `parseFloat` reads a decimal literal without sign or exponent as its value. -/
theorem parseFloat_decimalText (ip fp : Str) (hne : ip ≠ [])
    (hip : ∀ d ∈ ip, isDigit d = true) (hfp : ∀ d ∈ fp, isDigit d = true) :
    parseFloat (decimalText ip fp) = JSNum.fin (decimalValue ip fp) := by
  obtain ⟨d, ds, rfl⟩ := List.exists_cons_of_ne_nil hne
  have hd : isDigit d = true := hip d (by simp)
  have hhead : decimalText (d :: ds) fp = d :: (ds ++ (if fp = [] then [] else '.' :: fp)) := rfl
  have h1 : (decimalText (d :: ds) fp).dropWhile isJSWhitespace = decimalText (d :: ds) fp := by
    rw [hhead]; simp [List.dropWhile, isDigit_not_whitespace d hd]
  have h2 : readSign (decimalText (d :: ds) fp) = (false, decimalText (d :: ds) fp) := by
    rw [hhead]; exact readSign_digit d _ hd
  have h3 : startsWith "Infinity".toList (decimalText (d :: ds) fp) = false := by
    rw [hhead]; exact startsWith_Infinity_digit d _ hd
  have hdot : ∀ c ∈ (if fp = [] then [] else '.' :: fp : Str).head?, isDigit c = false := by
    intro c hc
    by_cases hfp0 : fp = []
    · simp [hfp0] at hc
    · simp [hfp0] at hc; subst hc; decide
  have h4 : (decimalText (d :: ds) fp).takeWhile isDigit = d :: ds :=
    takeWhile_digits (d :: ds) _ hip hdot
  have h5 : (decimalText (d :: ds) fp).dropWhile isDigit = (if fp = [] then [] else '.' :: fp) :=
    dropWhile_digits (d :: ds) _ hip hdot
  have h6 : fp.takeWhile isDigit = fp := by
    have := takeWhile_digits fp [] hfp (by simp)
    simpa using this
  have h7 : fp.dropWhile isDigit = [] := by
    have := dropWhile_digits fp [] hfp (by simp)
    simpa using this
  unfold parseFloat
  simp only [h1, h2, h3, h4, h5]
  by_cases hfp0 : fp = []
  · subst hfp0
    simp [decimalValue, readExponent, digitsValue]
  · simp only [hfp0, if_false, h6, h7]
    simp [decimalValue, readExponent]

/-! ## Reading a text stroke -/

theorem strokeColorGroup_space (c : Str) (hne : c ≠ [])
    (hhead : ∀ ch ∈ c.head?, isJSWhitespace ch = false)
    (hline : ∀ ch ∈ c, isLineTerminator ch = false) :
    strokeColorGroup (' ' :: c) = some c := by
  obtain ⟨a, r, rfl⟩ := List.exists_cons_of_ne_nil hne
  have ha : isJSWhitespace a = false := hhead a (by simp)
  have hsp : isJSWhitespace ' ' = true := by decide
  have hall : (a :: r).takeWhile (fun ch => !isLineTerminator ch) = a :: r := by
    rw [List.takeWhile_eq_self_iff]
    intro ch hch
    simp [hline ch hch]
  have hws : (' ' :: a :: r).takeWhile isJSWhitespace = [' '] := by
    simp [List.takeWhile, hsp, ha]
  have hrest : (' ' :: a :: r).dropWhile isJSWhitespace = a :: r := by
    simp [List.dropWhile, hsp, ha]
  unfold strokeColorGroup
  simp only [hws, hrest, hall]
  simp

/-- The stroke pattern on a decimal width, `px`, one space and a colour: the two groups
are the width and the colour. -/
theorem strokeMatch_decimalText (ip fp c : Str) (hne : ip ≠ [])
    (hip : ∀ d ∈ ip, isDigit d = true) (hfp : ∀ d ∈ fp, isDigit d = true)
    (hc : c ≠ []) (hhead : ∀ ch ∈ c.head?, isJSWhitespace ch = false)
    (hline : ∀ ch ∈ c, isLineTerminator ch = false) :
    strokeMatch (decimalText ip fp ++ 'p' :: 'x' :: ' ' :: c) = some (decimalText ip fp, c) := by
  obtain ⟨d, ds, rfl⟩ := List.exists_cons_of_ne_nil hne
  have hgroup := strokeColorGroup_space c hc hhead hline
  have hp : ∀ ch ∈ ('p' :: 'x' :: ' ' :: c : Str).head?, isDigit ch = false := by
    intro ch hch; simp at hch; subst hch; decide
  have hshape : decimalText (d :: ds) fp ++ 'p' :: 'x' :: ' ' :: c
      = d :: (ds ++ ((if fp = [] then [] else '.' :: fp) ++ 'p' :: 'x' :: ' ' :: c)) := by
    simp [decimalText]
  have hsplit : decimalText (d :: ds) fp ++ 'p' :: 'x' :: ' ' :: c
      = (d :: ds) ++ ((if fp = [] then [] else '.' :: fp) ++ 'p' :: 'x' :: ' ' :: c) := by
    simp [decimalText]
  have hdot : ∀ ch ∈ ((if fp = [] then [] else '.' :: fp) ++ 'p' :: 'x' :: ' ' :: c : Str).head?,
      isDigit ch = false := by
    intro ch hch
    by_cases hfp0 : fp = []
    · simp [hfp0] at hch; subst hch; decide
    · simp [hfp0] at hch; subst hch; decide
  have h4 : (decimalText (d :: ds) fp ++ 'p' :: 'x' :: ' ' :: c).takeWhile isDigit = d :: ds := by
    rw [hsplit]; exact takeWhile_digits (d :: ds) _ hip hdot
  have h5 : (decimalText (d :: ds) fp ++ 'p' :: 'x' :: ' ' :: c).dropWhile isDigit
      = (if fp = [] then [] else '.' :: fp) ++ 'p' :: 'x' :: ' ' :: c := by
    rw [hsplit]; exact dropWhile_digits (d :: ds) _ hip hdot
  have hat : matchStrokeAt (decimalText (d :: ds) fp ++ 'p' :: 'x' :: ' ' :: c)
      = some (decimalText (d :: ds) fp, c) := by
    unfold matchStrokeAt
    simp only [h4, h5]
    by_cases hfp0 : fp = []
    · subst hfp0
      simp [matchStrokePx, hgroup, decimalText]
    · have h6 : (fp ++ 'p' :: 'x' :: ' ' :: c).takeWhile isDigit = fp :=
        takeWhile_digits fp _ hfp hp
      have h7 : (fp ++ 'p' :: 'x' :: ' ' :: c).dropWhile isDigit = 'p' :: 'x' :: ' ' :: c :=
        dropWhile_digits fp _ hfp hp
      simp [hfp0, h6, h7, matchStrokePx, hgroup, decimalText]
  rw [hshape] at hat ⊢
  unfold strokeMatch
  rw [hat]
  rfl

/-! ## Stroke and fill of a line -/

theorem fillTextCalls_strokeThenFill (st : CanvasState) (placed : List (Str × JSNum × JSNum)) :
    fillTextCalls (placed.flatMap (strokeThenFill st)) = placed := by
  induction placed with
  | nil => rfl
  | cons p r ih =>
    show fillTextCalls (strokeThenFill st p ++ r.flatMap (strokeThenFill st)) = p :: r
    rw [fillTextCalls_append, ih]
    rfl

theorem drawLine_stroked (ctx : Ctx) (line : Str) (x y : JSNum)
    (hs : ctx.state.strokeStyle ≠ [] ∧ 0 < ctx.state.lineWidth) :
    drawLine ctx line x y = ⟨ctx.state, ctx.calls ++ strokeThenFill ctx.state (line, x, y)⟩ := by
  unfold drawLine
  simp only [hs, ne_eq, not_false_eq_true, and_self, if_true, Ctx.push, strokeThenFill,
    List.append_assoc, List.singleton_append]

theorem drawLinesFrom_stroked (x startY lineHeight : JSNum) (lines : List Str) :
    ∀ (i : ℕ) (ctx : Ctx), (ctx.state.strokeStyle ≠ [] ∧ 0 < ctx.state.lineWidth) →
      drawLinesFrom x startY lineHeight i lines ctx
        = ⟨ctx.state, ctx.calls ++
            ((lines.enumFrom i).map
              (fun p => (p.2, x, startY + JSNum.ofNat p.1 * lineHeight))).flatMap
              (strokeThenFill ctx.state)⟩ := by
  induction lines with
  | nil => intro i ctx _; simp [drawLinesFrom]
  | cons l r ih =>
    intro i ctx hs
    rw [drawLinesFrom, drawLine_stroked ctx l x _ hs,
      ih (i + 1) ⟨ctx.state, ctx.calls ++ strokeThenFill ctx.state
        (l, x, startY + JSNum.ofNat i * lineHeight)⟩ hs]
    simp [List.enumFrom, List.flatMap_cons]

/-- Under a stroke style and a positive line width `drawWrappedText` adds, for each
line in order, a `strokeText` call and then the `fillText` call of that line at the same
place, and nothing else. -/
theorem drawWrappedText_stroked (b : Browser) (ctx : Ctx) (text : Str)
    (x y maxWidth lineHeight : JSNum)
    (hs : ctx.state.strokeStyle ≠ [] ∧ 0 < ctx.state.lineWidth) :
    ∃ placed : List (Str × JSNum × JSNum),
      (drawWrappedText b ctx text x y maxWidth lineHeight).calls
          = ctx.calls ++ placed.flatMap (strokeThenFill ctx.state) ∧
        placed.map (fun p => p.1) = breakIntoLines (b.measureText ctx.state) maxWidth text ∧
        ∀ p ∈ placed, p.2.1 = x := by
  unfold drawWrappedText
  dsimp only
  rw [drawLinesFrom_stroked _ _ _ _ _ _ hs]
  refine ⟨_, rfl, ?_, ?_⟩
  · simp [List.map_map, Function.comp_def, List.enumFrom_map_snd]
  · intro p hp
    simp only [List.mem_map] at hp
    obtain ⟨q, _, rfl⟩ := hp
    rfl

/-- What `applyTextStroke` does with a stroke written as a decimal width, `px`, one space
and a colour the browser accepts, when the scaled width is positive. -/
theorem applyTextStroke_decimal (b : Browser) (ctx : Ctx) (style : ComputedStyle) (r : ℚ)
    (ip fp c : Str)
    (hstroke : style.webkitTextStroke = decimalText ip fp ++ 'p' :: 'x' :: ' ' :: c)
    (hne : ip ≠ []) (hip : ∀ d ∈ ip, isDigit d = true) (hfp : ∀ d ∈ fp, isDigit d = true)
    (hc : c ≠ []) (hhead : ∀ ch ∈ c.head?, isJSWhitespace ch = false)
    (hline : ∀ ch ∈ c, isLineTerminator ch = false)
    (hvalid : b.validColor c = true) (hpos : 0 < decimalValue ip fp * r) :
    applyTextStroke b ctx style (JSNum.fin r)
      = ⟨{ ctx.state with strokeStyle := c, lineWidth := decimalValue ip fp * r }, ctx.calls⟩ := by
  obtain ⟨d, ds, rfl⟩ := List.exists_cons_of_ne_nil hne
  have hd : isDigit d = true := hip d (by simp)
  have hshape : decimalText (d :: ds) fp ++ 'p' :: 'x' :: ' ' :: c
      = d :: (ds ++ ((if fp = [] then [] else '.' :: fp) ++ 'p' :: 'x' :: ' ' :: c)) := by
    simp [decimalText]
  have hnone : style.webkitTextStroke ≠ [] ∧ style.webkitTextStroke ≠ "none".toList := by
    rw [hstroke, hshape]
    refine ⟨by simp, ?_⟩
    intro h
    injection h with h1 _
    subst h1
    exact absurd hd (by decide)
  unfold applyTextStroke
  rw [if_pos hnone, hstroke,
    strokeMatch_decimalText (d :: ds) fp c (by simp) hip hfp hc hhead hline]
  simp only [parseFloat_decimalText (d :: ds) fp (by simp) hip hfp, JSNum.fin_mul,
    Ctx.setStrokeStyle, hvalid, if_true, Ctx.setLineWidth, hpos]

/-- C18.  For every text node whose computed stroke is a decimal width `w`, `px`, one
space and a colour `c` the browser accepts, with `w > 0`, drawn from a surface of
positive width to an export of positive width: the state under which the node is
drawn has `strokeStyle` `c` and `lineWidth` `w x scaleRatio`, and the calls the node
adds are exactly, for each wrapped line in order, a `strokeText` call immediately
followed by the `fillText` call with the same text at the same (x, y), both under
that state. -/
theorem stroked_node_stroke_before_fill (b : Browser) (ctx : Ctx) (el : TextElement)
    (canvasRect : DOMRect) (exportWidth exportHeight : ℕ) (ip fp c : Str)
    (hstroke : el.style.webkitTextStroke = decimalText ip fp ++ 'p' :: 'x' :: ' ' :: c)
    (hne : ip ≠ []) (hip : ∀ d ∈ ip, isDigit d = true) (hfp : ∀ d ∈ fp, isDigit d = true)
    (hc : c ≠ []) (hhead : ∀ ch ∈ c.head?, isJSWhitespace ch = false)
    (hline : ∀ ch ∈ c, isLineTerminator ch = false)
    (hvalid : b.validColor c = true) (hw : 0 < decimalValue ip fp)
    (hcw : 0 < canvasRect.width) (hW : 0 < exportWidth) :
    (drawSingleTextElement b ctx el canvasRect exportWidth exportHeight).state.strokeStyle = c ∧
      (drawSingleTextElement b ctx el canvasRect exportWidth exportHeight).state.lineWidth
        = decimalValue ip fp * (exportWidth / canvasRect.width) ∧
      ∃ placed : List (Str × JSNum × JSNum),
        (drawSingleTextElement b ctx el canvasRect exportWidth exportHeight).calls
            = ctx.calls ++ placed.flatMap (strokeThenFill
                (drawSingleTextElement b ctx el canvasRect exportWidth exportHeight).state) ∧
          fillTextCalls
              (drawSingleTextElement b ctx el canvasRect exportWidth exportHeight).calls
            = fillTextCalls ctx.calls ++ placed ∧
          placed.map (fun p => p.1)
            = breakIntoLines
                (b.measureText
                  (drawSingleTextElement b ctx el canvasRect exportWidth exportHeight).state)
                (JSNum.fin el.rect.width / JSNum.fin canvasRect.width
                  * JSNum.ofNat exportWidth)
                el.textContent := by
  have hr : JSNum.ofNat exportWidth / JSNum.fin canvasRect.width
      = JSNum.fin (exportWidth / canvasRect.width) := by
    simp [JSNum.fin_div _ _ (ne_of_gt hcw)]
  have hpos : 0 < decimalValue ip fp * ((exportWidth : ℚ) / canvasRect.width) :=
    mul_pos hw (div_pos (by exact_mod_cast hW) hcw)
  have hdraw : ∃ size x y lineHeight,
      drawSingleTextElement b ctx el canvasRect exportWidth exportHeight
        = drawWrappedText b
            (setUpTextStyle b ctx el.style (JSNum.fin (exportWidth / canvasRect.width)) size)
            el.textContent x y
            (JSNum.fin el.rect.width / JSNum.fin canvasRect.width * JSNum.ofNat exportWidth)
            lineHeight := by
    unfold drawSingleTextElement
    dsimp only
    rw [hr]
    exact ⟨_, _, _, _, rfl⟩
  obtain ⟨size, x, y, lineHeight, hdraw⟩ := hdraw
  have hstyle : (setUpTextStyle b ctx el.style
        (JSNum.fin (exportWidth / canvasRect.width)) size).state.strokeStyle = c ∧
      (setUpTextStyle b ctx el.style
        (JSNum.fin (exportWidth / canvasRect.width)) size).state.lineWidth
        = decimalValue ip fp * (exportWidth / canvasRect.width) := by
    unfold setUpTextStyle applyTextEffects
    rw [applyTextStroke_decimal b _ el.style _ ip fp c hstroke hne hip hfp hc hhead hline
      hvalid hpos]
    exact ⟨rfl, rfl⟩
  have hs : (setUpTextStyle b ctx el.style
        (JSNum.fin (exportWidth / canvasRect.width)) size).state.strokeStyle ≠ [] ∧
      0 < (setUpTextStyle b ctx el.style
        (JSNum.fin (exportWidth / canvasRect.width)) size).state.lineWidth := by
    rw [hstyle.1, hstyle.2]
    exact ⟨hc, hpos⟩
  obtain ⟨placed, hcalls, hlines, _⟩ := drawWrappedText_stroked b _ el.textContent x y
    (JSNum.fin el.rect.width / JSNum.fin canvasRect.width * JSNum.ofNat exportWidth)
    lineHeight hs
  rw [hdraw, drawWrappedText_state]
  refine ⟨hstyle.1, hstyle.2, placed, ?_, ?_, hlines⟩
  · rw [hcalls, setUpTextStyle_calls]
  · rw [hcalls, setUpTextStyle_calls, fillTextCalls_append, fillTextCalls_strokeThenFill]

/-- C18 on the node with the stroke `2px rgb(255, 0, 0)`, drawn by the plain browser
from the default surface to 1080 by 1920. -/
theorem stroked_node_stroke_before_fill_witness :
    (drawSingleTextElement plainBrowser Ctx.fresh strokedNode defaultSurface 1080
        1920).state.strokeStyle = "rgb(255, 0, 0)".toList ∧
      (drawSingleTextElement plainBrowser Ctx.fresh strokedNode defaultSurface 1080
        1920).state.lineWidth
        = decimalValue "2".toList [] * ((1080 : ℕ) / defaultSurface.width) ∧
      ∃ placed : List (Str × JSNum × JSNum),
        (drawSingleTextElement plainBrowser Ctx.fresh strokedNode defaultSurface 1080
            1920).calls
            = Ctx.fresh.calls ++ placed.flatMap (strokeThenFill
                (drawSingleTextElement plainBrowser Ctx.fresh strokedNode defaultSurface 1080
                  1920).state) ∧
          fillTextCalls
              (drawSingleTextElement plainBrowser Ctx.fresh strokedNode defaultSurface 1080
                1920).calls
            = fillTextCalls Ctx.fresh.calls ++ placed ∧
          placed.map (fun p => p.1)
            = breakIntoLines
                (plainBrowser.measureText
                  (drawSingleTextElement plainBrowser Ctx.fresh strokedNode defaultSurface 1080
                    1920).state)
                (JSNum.fin strokedNode.rect.width / JSNum.fin defaultSurface.width
                  * JSNum.ofNat 1080)
                strokedNode.textContent :=
  stroked_node_stroke_before_fill plainBrowser Ctx.fresh strokedNode defaultSurface 1080 1920
    "2".toList [] "rgb(255, 0, 0)".toList rfl (by decide) (by decide) (by decide) (by decide)
    (by decide) (by decide) rfl
    (by
      have h2 : digitsValue 10 "2".toList = 2 := by decide
      have h0 : digitsValue 10 ([] : Str) = 0 := rfl
      rw [decimalValue, h2, h0]
      norm_num)
    (by norm_num [defaultSurface]) (by decide)
/-! ## `batchExport` -/

theorem canvasToBlob_mimeType (h : Host) (canvas : ExportCanvas) (config : ExportConfig)
    (blob : Blob) (hblob : canvasToBlob h canvas config = Except.ok (some blob)) :
    blob.mimeType = if config.format = "png" then "image/png" else "image/jpeg" := by
  unfold canvasToBlob at hblob
  dsimp only at hblob
  split at hblob
  · injection hblob with hblob
    injection hblob with hblob
    rw [← hblob]
  · injection hblob with hblob
    cases hblob
  · cases hblob

/-- The first loop of `batchExport` when it runs to its end: it notifies nothing, downloads
nothing, and adds one entry a format, in order, each with the name, the file name and the
MIME type of its format. -/
theorem renderFormats_ok (h : Host) (page : Page) (total : ℕ) :
    ∀ (formats : List Str) (i : ℕ) (results : List BatchItem) (effects : List Effect)
      (out : List BatchItem × List Effect),
      renderFormats h page total i formats results effects = Except.ok out →
      (∀ kind, notices kind out.2 = notices kind effects) ∧
        downloads out.2 = downloads effects ∧
        ∃ items, out.1 = results ++ items ∧
          List.Forall₂ (fun f item =>
            ∃ config j, exportFormats.lookup f = some config ∧ item.format = f ∧
              item.filename = generateFilename (h.isoTime j) f config.format.toList ∧
              ∀ blob, item.blob = some blob →
                blob.mimeType = if config.format = "png" then "image/png" else "image/jpeg")
            formats items := by
  intro formats
  induction formats with
  | nil =>
    intro i results effects out hrun
    simp only [renderFormats] at hrun
    injection hrun with hrun
    subst hrun
    exact ⟨fun _ => rfl, rfl, [], by simp, List.Forall₂.nil⟩
  | cons f rest ih =>
    intro i results effects out hrun
    rw [renderFormats] at hrun
    dsimp only at hrun
    split at hrun
    · cases hrun
    · rename_i config hconfig
      split at hrun
      · cases hrun
      · rename_i canvas hcanvas
        split at hrun
        · cases hrun
        · rename_i blob hblob
          obtain ⟨hn, hd, items, hitems, hall⟩ := ih _ _ _ _ hrun
          refine ⟨?_, ?_,
            ⟨blob, generateFilename (h.isoTime i) f config.format.toList, f⟩ :: items, ?_,
            List.Forall₂.cons ⟨config, i, hconfig, rfl, rfl, ?_⟩ hall⟩
          · intro kind
            rw [hn kind]
            simp [notices_append, renderEffects, notices_progress, notices]
          · rw [hd]
            simp [downloads_append, renderEffects, downloads_progress, downloads]
          · rw [hitems]
            simp
          · intro bl hbl
            exact canvasToBlob_mimeType h canvas config bl (by rw [hblob]; exact congrArg _ hbl)

/-- The first loop of `batchExport` when it ends in an error: it has notified nothing and
downloaded nothing. -/
theorem renderFormats_error (h : Host) (page : Page) (total : ℕ) :
    ∀ (formats : List Str) (i : ℕ) (results : List BatchItem) (effects : List Effect)
      (failed : List Effect × JSError),
      renderFormats h page total i formats results effects = Except.error failed →
      (∀ kind, notices kind failed.1 = notices kind effects) ∧
        downloads failed.1 = downloads effects := by
  intro formats
  induction formats with
  | nil =>
    intro i results effects failed hrun
    simp only [renderFormats] at hrun
    cases hrun
  | cons f rest ih =>
    intro i results effects failed hrun
    rw [renderFormats] at hrun
    dsimp only at hrun
    split at hrun
    · injection hrun with hrun
      subst hrun
      exact ⟨fun kind => by simp [notices_append, notices], by simp [downloads_append, downloads]⟩
    · split at hrun
      · injection hrun with hrun
        subst hrun
        exact ⟨fun kind => by simp [notices_append, renderEffects, notices_progress, notices],
          by simp [downloads_append, renderEffects, downloads_progress, downloads]⟩
      · split at hrun
        · injection hrun with hrun
          subst hrun
          exact ⟨fun kind => by simp [notices_append, renderEffects, notices_progress, notices],
            by simp [downloads_append, renderEffects, downloads_progress, downloads]⟩
        · obtain ⟨hn, hd⟩ := ih _ _ _ _ hrun
          refine ⟨fun kind => ?_, ?_⟩
          · rw [hn kind]
            simp [notices_append, renderEffects, notices_progress, notices]
          · rw [hd]
            simp [downloads_append, renderEffects, downloads_progress, downloads]

/-- The second loop of `batchExport` when it runs to its end: it notifies nothing and
downloads every entry, in order. -/
theorem downloadAll_ok (h : Host) :
    ∀ (items : List BatchItem) (effects out : List Effect),
      downloadAll h items effects = Except.ok out →
      (∀ kind, notices kind out = notices kind effects) ∧
        ∃ saved, downloads out = downloads effects ++ saved ∧
          List.Forall₂ (fun item d => item.blob = some d.1 ∧ item.filename = d.2)
            items saved := by
  intro items
  induction items with
  | nil =>
    intro effects out hrun
    simp only [downloadAll] at hrun
    injection hrun with hrun
    subst hrun
    exact ⟨fun _ => rfl, [], by simp, List.Forall₂.nil⟩
  | cons item rest ih =>
    intro effects out hrun
    rw [downloadAll] at hrun
    cases hblob : item.blob with
    | none =>
      rw [hblob] at hrun
      simp only [downloadFile] at hrun
      cases hrun
    | some blob =>
      rw [hblob] at hrun
      simp only [downloadFile] at hrun
      obtain ⟨hn, saved, hsaved, hall⟩ := ih _ _ hrun
      refine ⟨fun kind => ?_, (blob, item.filename) :: saved, ?_,
        List.Forall₂.cons ⟨hblob, rfl⟩ hall⟩
      · rw [hn kind]
        simp [notices_append, notices]
      · rw [hsaved]
        simp [downloads_append, downloads]

/-- The second loop of `batchExport` when it ends in an error: it has notified nothing. -/
theorem downloadAll_error (h : Host) :
    ∀ (items : List BatchItem) (effects : List Effect) (failed : List Effect × JSError),
      downloadAll h items effects = Except.error failed →
      ∀ kind, notices kind failed.1 = notices kind effects := by
  intro items
  induction items with
  | nil =>
    intro effects failed hrun
    simp only [downloadAll] at hrun
    cases hrun
  | cons item rest ih =>
    intro effects failed hrun kind
    rw [downloadAll] at hrun
    cases hblob : item.blob with
    | none =>
      rw [hblob] at hrun
      simp only [downloadFile] at hrun
      injection hrun with hrun
      subst hrun
      rfl
    | some blob =>
      rw [hblob] at hrun
      simp only [downloadFile] at hrun
      rw [ih _ _ hrun kind]
      simp [notices_append, notices]

theorem forall2_chain {α β γ : Type} {R : α → β → Prop} {S : β → γ → Prop} {T : α → γ → Prop}
    (hRS : ∀ a b c, R a b → S b c → T a c) :
    ∀ {la : List α} {lb : List β} {lc : List γ},
      List.Forall₂ R la lb → List.Forall₂ S lb lc → List.Forall₂ T la lc := by
  intro la lb lc hab
  induction hab generalizing lc with
  | nil => intro hbc; cases hbc; exact List.Forall₂.nil
  | cons hr _ ih =>
    intro hbc
    cases hbc with
    | cons hs hrest => exact List.Forall₂.cons (hRS _ _ _ hr hs) (ih hrest)

/-- A `batchExport` from idle that shows its success notification has downloaded one file
a format, in order, each with the file name and the MIME type of its format. -/
theorem batchExport_success_downloads (h : Host) (page : Page) (formats : List Str)
    (hsuccess : notices NoticeKind.success (batchExport h page false formats).effects ≠ []) :
    List.Forall₂ (fun f d =>
      ∃ config j, exportFormats.lookup f = some config ∧
        d.2 = generateFilename (h.isoTime j) f config.format.toList ∧
        d.1.mimeType = if config.format = "png" then "image/png" else "image/jpeg")
      formats (downloads (batchExport h page false formats).effects) := by
  unfold batchExport at hsuccess ⊢
  simp only [Bool.false_eq_true, if_false] at hsuccess ⊢
  cases hr : renderFormats h page formats.length 0 formats []
      [Effect.progress ⟨"در حال تولید چندین فرمت...", 0⟩] with
  | error failed =>
    rw [hr] at hsuccess
    exfalso
    apply hsuccess
    simp [batchExportFailed, notices_append, notices,
      (renderFormats_error h page _ _ _ _ _ _ hr).1 NoticeKind.success]
  | ok rendered =>
    rw [hr] at hsuccess
    obtain ⟨hn, hd, items, hitems, hall⟩ := renderFormats_ok h page _ _ _ _ _ _ hr
    cases hdl : downloadAll h rendered.1
        (rendered.2 ++ [Effect.progress ⟨"در حال دانلود فایل‌ها...", 95⟩]) with
    | error failed =>
      simp only [hdl] at hsuccess
      exfalso
      apply hsuccess
      simp [batchExportFailed, notices_append, notices,
        downloadAll_error h _ _ _ hdl NoticeKind.success, hn NoticeKind.success]
    | ok effects =>
      obtain ⟨_, saved, hsaved, hsave⟩ := downloadAll_ok h _ _ _ hdl
      have hdown : downloads (effects ++ [Effect.hideProgress, Effect.hidePanel,
          Effect.notify NoticeKind.success
            (toString formats.length ++ " فایل با موفقیت دانلود شد!")]) = saved := by
        rw [downloads_append, hsaved, downloads_append, hd]
        simp [downloads]
      simp only [hdl, hdown]
      rw [hitems, List.nil_append] at hsave
      refine forall2_chain ?_ hall hsave
      rintro f item d ⟨config, j, hconfig, _, hname, hmime⟩ ⟨hblob, hfile⟩
      exact ⟨config, j, hconfig, by rw [← hfile, hname], hmime d.1 hblob⟩

/-- C19.  Every `batchExport` from idle that ends with its success notification has
downloaded exactly one file for each requested name, in the requested order; the file
of a name carries that name and the extension of its preset, and is encoded as
`image/png` when the format of the preset is `png` and as `image/jpeg` otherwise.  For
the names `high-quality` and `instagram-story` these are exactly two files, `image/png`
then `image/jpeg`. -/
theorem batch_results_follow_formats (h : Host) (page : Page) (formats : List Str)
    (hsuccess : notices NoticeKind.success (batchExport h page false formats).effects ≠ []) :
    List.Forall₂ (fun f d =>
        ∃ config j, exportFormats.lookup f = some config ∧
          d.2 = generateFilename (h.isoTime j) f config.format.toList ∧
          d.1.mimeType = if config.format = "png" then "image/png" else "image/jpeg")
        formats (downloads (batchExport h page false formats).effects) ∧
      (downloads (batchExport h page false formats).effects).length = formats.length ∧
      (formats = ["high-quality".toList, "instagram-story".toList] →
        (downloads (batchExport h page false formats).effects).map (fun d => d.1.mimeType)
          = ["image/png", "image/jpeg"]) := by
  have hall := batchExport_success_downloads h page formats hsuccess
  refine ⟨hall, hall.length_eq.symm, ?_⟩
  intro hformats
  rw [hformats] at hall ⊢
  generalize downloads (batchExport h page false
    ["high-quality".toList, "instagram-story".toList]).effects = saved at hall
  cases hall with
  | cons h1 hrest =>
    cases hrest with
    | cons h2 hnil =>
      cases hnil
      obtain ⟨c1, _, hc1, _, hm1⟩ := h1
      obtain ⟨c2, _, hc2, _, hm2⟩ := h2
      have e1 : exportFormats.lookup "high-quality".toList = some highQuality := rfl
      have e2 : exportFormats.lookup "instagram-story".toList = some instagramStory := rfl
      rw [e1] at hc1
      rw [e2] at hc2
      injection hc1 with hc1
      injection hc2 with hc2
      subst hc1
      subst hc2
      simp only [List.map_cons, List.map_nil, hm1, hm2]
      decide

/-- C19 on the empty page with a host whose encoder always gives a blob: the batch of
`high-quality` and `instagram-story` succeeds and downloads a PNG and then a JPEG. -/
theorem batch_results_follow_formats_witness :
    notices NoticeKind.success (batchExport plainHost emptyPage false
        ["high-quality".toList, "instagram-story".toList]).effects ≠ [] ∧
      (downloads (batchExport plainHost emptyPage false
        ["high-quality".toList, "instagram-story".toList]).effects).length = 2 ∧
      (downloads (batchExport plainHost emptyPage false
        ["high-quality".toList, "instagram-story".toList]).effects).map (fun d => d.1.mimeType)
        = ["image/png", "image/jpeg"] :=
  ⟨by decide,
    (batch_results_follow_formats plainHost emptyPage
      ["high-quality".toList, "instagram-story".toList] (by decide)).2.1,
    (batch_results_follow_formats plainHost emptyPage
      ["high-quality".toList, "instagram-story".toList] (by decide)).2.2 rfl⟩

/-- A `batchExport` from idle whose first loop ends in an error has downloaded nothing,
shows no success notification and exactly one error notification, with the message of
the error, and ends with `isExporting` false. -/
theorem batchExport_render_rejected (h : Host) (page : Page) (formats : List Str)
    (failed : List Effect × JSError)
    (hr : renderFormats h page formats.length 0 formats []
      [Effect.progress ⟨"در حال تولید چندین فرمت...", 0⟩] = Except.error failed) :
    downloads (batchExport h page false formats).effects = [] ∧
      notices NoticeKind.success (batchExport h page false formats).effects = [] ∧
      notices NoticeKind.error (batchExport h page false formats).effects
        = [batchErrorLead ++ failed.2.message] ∧
      (batchExport h page false formats).isExporting = false := by
  obtain ⟨hn, hd⟩ := renderFormats_error h page _ _ _ _ _ _ hr
  unfold batchExport
  simp only [Bool.false_eq_true, if_false, hr, batchExportFailed]
  refine ⟨?_, ?_, ?_, trivial⟩
  · simp [downloads_append, hd, downloads]
  · simp [notices_append, hn, notices]
  · simp [notices_append, hn, notices]

/-- C20 at the failing input.  With an encoder that hands back `null` for a JPEG, on the
empty page, the batch `high-quality`, `instagram-story`, `wallpaper` fails at its
second format, and yet the canvas of the third format is created after the failure and
the file of the first format is downloaded before the one error notification;
`isExporting` is false afterwards.  When the encoder throws instead, the batch stops at
the first format and downloads nothing. -/
theorem batch_null_blob_partial_download :
    canvasesCreated (batchExport nullJpegHost emptyPage false
        ["high-quality".toList, "instagram-story".toList, "wallpaper".toList]).effects
      = [(1080, 1920), (1080, 1920), (1440, 2560)] ∧
    downloads (batchExport nullJpegHost emptyPage false
        ["high-quality".toList, "instagram-story".toList, "wallpaper".toList]).effects
      = [(⟨"image/png", 1000⟩, "daco-story_high_quality_2026-01-02T03-04-05.png".toList)] ∧
    notices NoticeKind.error (batchExport nullJpegHost emptyPage false
        ["high-quality".toList, "instagram-story".toList, "wallpaper".toList]).effects
      = [batchErrorLead ++ "Failed to execute createObjectURL"] ∧
    notices NoticeKind.success (batchExport nullJpegHost emptyPage false
        ["high-quality".toList, "instagram-story".toList, "wallpaper".toList]).effects = [] ∧
    (batchExport nullJpegHost emptyPage false
        ["high-quality".toList, "instagram-story".toList, "wallpaper".toList]).isExporting
      = false ∧
    canvasesCreated (batchExport throwingHost emptyPage false
        ["high-quality".toList, "instagram-story".toList, "wallpaper".toList]).effects
      = [(1080, 1920)] ∧
    downloads (batchExport throwingHost emptyPage false
        ["high-quality".toList, "instagram-story".toList, "wallpaper".toList]).effects = [] := by
  refine ⟨by decide, by decide, by decide, by decide, by decide, by decide, by decide⟩

/-! ## The presets and the file name -/

/-- C22.  The table `exportFormats` has exactly six entries, with distinct names, in this
order and with these values: `high-quality` 1080 x 1920 png quality 1, `text-only`
1080 x 1920 png quality 1 transparent, `instagram-story` 1080 x 1920 jpeg quality 9/10,
`wallpaper` 1440 x 2560 png quality 1, `medium-quality` 1080 x 1920 jpeg quality 8/10,
`low-quality` 720 x 1280 jpeg quality 7/10; and `text-only` is the only transparent
one. -/
theorem preset_table :
    exportFormats.map (fun e => (String.mk e.1, e.2.width, e.2.height, e.2.format,
        e.2.quality, e.2.transparent.getD false))
      = [("high-quality", 1080, 1920, "png", 1, false),
          ("text-only", 1080, 1920, "png", 1, true),
          ("instagram-story", 1080, 1920, "jpeg", 9 / 10, false),
          ("wallpaper", 1440, 2560, "png", 1, false),
          ("medium-quality", 1080, 1920, "jpeg", 8 / 10, false),
          ("low-quality", 720, 1280, "jpeg", 7 / 10, false)] ∧
      exportFormats.length = 6 ∧
      (exportFormats.map (fun e => e.1)).Nodup ∧
      (exportFormats.filter (fun e => e.2.transparent.getD false)).map (fun e => String.mk e.1)
        = ["text-only"] ∧
      exportFormats.lookup "instagram-story".toList = some ⟨1080, 1920, "jpeg", 9 / 10, none⟩ :=
  ⟨rfl, rfl, by decide, rfl, rfl⟩

/-- C23.  For every type, format and time, `generateFilename` returns `daco-story`, `_`,
the suffix, `_`, the timestamp, `.` and the format, where the timestamp is the first 19
characters of the ISO time with every `:` and `.` replaced by `-` (so it has at most 19
characters and neither of the two), and the suffix is the type with its first `-`
replaced by `_`; for each of the six preset names that is the name with every `-`
replaced by `_`. -/
theorem generateFilename_shape (iso type format : Str) :
    generateFilename iso type format
        = "daco-story".toList ++ "_".toList ++ replaceFirst '-' '_' type ++ "_".toList
          ++ (iso.take 19).map (fun c => if c = ':' ∨ c = '.' then '-' else c)
          ++ ".".toList ++ format ∧
      ((iso.take 19).map (fun c => if c = ':' ∨ c = '.' then '-' else c)).length
        = min 19 iso.length ∧
      ':' ∉ (iso.take 19).map (fun c => if c = ':' ∨ c = '.' then '-' else c) ∧
      '.' ∉ (iso.take 19).map (fun c => if c = ':' ∨ c = '.' then '-' else c) ∧
      (∀ e ∈ exportFormats,
        replaceFirst '-' '_' e.1 = e.1.map (fun c => if c = '-' then '_' else c)) ∧
      exportFormats.map (fun e => String.mk (replaceFirst '-' '_' e.1))
        = ["high_quality", "text_only", "instagram_story", "wallpaper", "medium_quality",
            "low_quality"] ∧
      generateFilename "2026-01-02T03:04:05.678Z".toList "instagram-story".toList "jpeg".toList
        = "daco-story_instagram_story_2026-01-02T03-04-05.jpeg".toList := by
  refine ⟨?_, ?_, ?_, ?_, by decide, by decide, by decide⟩
  · simp [generateFilename]
  · simp
  · simp only [List.mem_map, not_exists, not_and]
    intro c _
    by_cases h : c = ':' ∨ c = '.'
    · rw [if_pos h]; decide
    · rw [if_neg h]; exact fun hc => h (Or.inl hc)
  · simp only [List.mem_map, not_exists, not_and]
    intro c _
    by_cases h : c = ':' ∨ c = '.'
    · rw [if_pos h]; decide
    · rw [if_neg h]; exact fun hc => h (Or.inr hc)

/-- C24, amended.  The editing surface of `CONFIG.CANVAS_SIZE` is 280 by 497, and every
preset has the aspect ratio 9 : 16 exactly; so for every preset the ratio of the heights
is 640/639 times the ratio of the widths, and the two ratios are never equal. -/
theorem preset_ratios_differ :
    canvasSize = (280, 497) ∧
      defaultSurface.width = canvasSize.1 ∧ defaultSurface.height = canvasSize.2 ∧
      ∀ e ∈ exportFormats,
        e.2.width * 16 = e.2.height * 9 ∧
          (e.2.height : ℚ) / canvasSize.2 = 640 / 639 * ((e.2.width : ℚ) / canvasSize.1) ∧
          (e.2.width : ℚ) / canvasSize.1 ≠ (e.2.height : ℚ) / canvasSize.2 := by
  refine ⟨rfl, by simp [defaultSurface, canvasSize], by simp [defaultSurface, canvasSize], ?_⟩
  intro e he
  simp only [exportFormats, List.mem_cons, List.mem_singleton, List.not_mem_nil, or_false] at he
  rcases he with rfl | rfl | rfl | rfl | rfl | rfl <;>
    refine ⟨by decide, ?_, ?_⟩ <;>
    norm_num [canvasSize, highQuality, textOnly, instagramStory, wallpaper, mediumQuality,
      lowQuality]

/-- C24 as stated fails: for the preset `high-quality` on the default surface the ratio
of the widths is 27/7 and the ratio of the heights is 1920/497. -/
theorem preset_ratio_not_uniform :
    (highQuality.width : ℚ) / canvasSize.1 = 27 / 7 ∧
      (highQuality.height : ℚ) / canvasSize.2 = 1920 / 497 ∧
      (highQuality.width : ℚ) / canvasSize.1 ≠ (highQuality.height : ℚ) / canvasSize.2 := by
  refine ⟨?_, ?_, ?_⟩ <;> norm_num [canvasSize, highQuality]

/-! ## Progress -/

/-- The progress `createExportCanvas` reports: 20 alone when it rejects, 20 and then 50
when it resolves. -/
theorem createExportCanvas_percents (b : Browser) (page : Page) (config : ExportConfig) :
    ((∃ e, (createExportCanvas b page config).result = Except.error e) ∧
        (createExportCanvas b page config).progress.map (fun p => p.percent) = [20]) ∨
      ((∃ canvas, (createExportCanvas b page config).result = Except.ok canvas) ∧
        (createExportCanvas b page config).progress.map (fun p => p.percent) = [20, 50]) := by
  unfold createExportCanvas
  dsimp only
  split
  · exact Or.inl ⟨⟨_, rfl⟩, rfl⟩
  · exact Or.inr ⟨⟨_, rfl⟩, rfl⟩

/-- The percents of the progress reports of an `exportImage` from idle: one of three
lists, and the longest one when the success notification is shown. -/
theorem exportImage_percents (h : Host) (page : Page) (type : Str) :
    ((progressShown (exportImage h page false type).effects).map (fun p => p.percent) = [0, 20] ∨
      (progressShown (exportImage h page false type).effects).map (fun p => p.percent)
        = [0, 20, 50, 70] ∨
      (progressShown (exportImage h page false type).effects).map (fun p => p.percent)
        = [0, 20, 50, 70, 90]) ∧
    (notices NoticeKind.success (exportImage h page false type).effects ≠ [] →
      (progressShown (exportImage h page false type).effects).map (fun p => p.percent)
        = [0, 20, 50, 70, 90]) := by
  rcases createExportCanvas_percents h.browser page ((exportFormats.lookup type).getD highQuality)
    with ⟨⟨e, hres⟩, hp⟩ | ⟨⟨canvas, hres⟩, hp⟩
  · have hrun : progressShown (exportImage h page false type).effects
        = (⟨"در حال آماده‌سازی...", 0⟩ : Progress)
          :: (createExportCanvas h.browser page
            ((exportFormats.lookup type).getD highQuality)).progress :=
      (exportImage_render_failed h page type e hres).2.2.2.2
    have hs := (exportImage_render_failed h page type e hres).2.2.1
    refine ⟨Or.inl ?_, fun hne => absurd hs hne⟩
    rw [hrun, List.map_cons, hp]
  · cases henc : canvasToBlob h canvas ((exportFormats.lookup type).getD highQuality) with
    | error e =>
      have hs := (exportImage_encode_failed h page type canvas e hres henc).2.2.1
      refine ⟨Or.inr (Or.inl ?_), fun hne => absurd hs hne⟩
      simp only [exportImage, Bool.false_eq_true, if_false, hres, henc, exportImageFailed,
        renderEffects, progressShown_append, progressShown, progressShown_progress,
        List.map_append, List.map_cons, List.map_nil, hp, List.cons_append, List.nil_append,
        List.append_nil]
    | ok blob =>
      refine ⟨Or.inr (Or.inr ?_), fun _ => ?_⟩ <;>
      · cases blob <;>
        simp only [exportImage, Bool.false_eq_true, if_false, hres, henc, exportImageFailed,
          downloadFile, renderEffects, progressShown_append, progressShown,
          progressShown_progress, List.map_append, List.map_cons, List.map_nil, hp,
          List.cons_append, List.nil_append, List.append_nil]

/-- C21, amended.  For every `exportImage` run that starts from idle the progress
percents reported are non-decreasing; on a run that ends with the success notification
they are, in order, 0 (preparing), 20 (background), 50 (text), 70 (encoding) and
90 (downloading); and no run reports 100: at the end the progress display is hidden. -/
theorem exportImage_progress_monotone (h : Host) (page : Page) (type : Str) :
    List.Sorted (fun a b : ℚ => a ≤ b)
        ((progressShown (exportImage h page false type).effects).map (fun p => p.percent)) ∧
      (notices NoticeKind.success (exportImage h page false type).effects ≠ [] →
        (progressShown (exportImage h page false type).effects).map (fun p => p.percent)
          = [0, 20, 50, 70, 90]) ∧
      (100 : ℚ) ∉
        (progressShown (exportImage h page false type).effects).map (fun p => p.percent) := by
  obtain ⟨hcases, hsuccess⟩ := exportImage_percents h page type
  refine ⟨?_, hsuccess, ?_⟩
  · rcases hcases with hp | hp | hp <;> rw [hp] <;> simp [List.Sorted] <;> norm_num
  · rcases hcases with hp | hp | hp <;> rw [hp] <;> simp

/-- The amended C21 on a run that succeeds: the empty page, exported as
`high-quality`. -/
theorem exportImage_progress_monotone_witness :
    notices NoticeKind.success
        (exportImage plainHost emptyPage false "high-quality".toList).effects ≠ [] ∧
      (progressShown (exportImage plainHost emptyPage false "high-quality".toList).effects).map
          (fun p => p.percent) = [0, 20, 50, 70, 90] :=
  ⟨by decide,
    (exportImage_progress_monotone plainHost emptyPage "high-quality".toList).2.1 (by decide)⟩

/-- C21 as stated fails: the run of the empty page as `high-quality` succeeds, and its
last progress report is 90, not 100. -/
theorem exportImage_never_reports_100 :
    notices NoticeKind.success
        (exportImage plainHost emptyPage false "high-quality".toList).effects ≠ [] ∧
      ((progressShown (exportImage plainHost emptyPage false "high-quality".toList).effects).map
          (fun p => p.percent)).getLast? = some 90 ∧
      (90 : ℚ) ≠ 100 := by
  have hp := (exportImage_percents plainHost emptyPage "high-quality".toList).2 (by decide)
  refine ⟨by decide, ?_, by norm_num⟩
  rw [hp]
  rfl
/-- The progress reports of the batch `high-quality`, `instagram-story` on the empty
page, with the percents as the code computes them. -/
theorem batchExport_two_progress :
    progressShown (batchExport plainHost emptyPage false
        ["high-quality".toList, "instagram-story".toList]).effects
      = [⟨"در حال تولید چندین فرمت...", 0⟩,
          ⟨"در حال تولید " ++ "high-quality" ++ "...", ((0 + 1 : ℕ) : ℚ) / ((2 : ℕ) : ℚ) * 90⟩,
          ⟨"در حال رسم پس‌زمینه...", 20⟩,
          ⟨"در حال رسم متن‌ها...", 50⟩,
          ⟨"در حال تولید " ++ "instagram-story" ++ "...",
            ((1 + 1 : ℕ) : ℚ) / ((2 : ℕ) : ℚ) * 90⟩,
          ⟨"در حال رسم پس‌زمینه...", 20⟩,
          ⟨"در حال رسم متن‌ها...", 50⟩,
          ⟨"در حال دانلود فایل‌ها...", 95⟩] := by
  rfl

/-- The progress reports of the batch of `high-quality` alone on the empty page. -/
theorem batchExport_one_progress :
    progressShown (batchExport plainHost emptyPage false ["high-quality".toList]).effects
      = [⟨"در حال تولید چندین فرمت...", 0⟩,
          ⟨"در حال تولید " ++ "high-quality" ++ "...", ((0 + 1 : ℕ) : ℚ) / ((1 : ℕ) : ℚ) * 90⟩,
          ⟨"در حال رسم پس‌زمینه...", 20⟩,
          ⟨"در حال رسم متن‌ها...", 50⟩,
          ⟨"در حال دانلود فایل‌ها...", 95⟩] := by
  rfl

/-- C26 at the failing input.  The batch `high-quality`, `instagram-story` on the empty
page succeeds and reports the percents 0, 45, 20, 50, 90, 20, 50, 95: the report of each
format, ((i + 1) / n) x 90, is followed by the 20 and 50 of `createExportCanvas`, so
the sequence goes back within the first format (45, 20) and between the formats (90, 20),
and is not non-decreasing.  With one format the percents are 0, 90, 20, 50, 95. -/
theorem batchExport_progress_goes_back :
    notices NoticeKind.success (batchExport plainHost emptyPage false
        ["high-quality".toList, "instagram-story".toList]).effects ≠ [] ∧
      (progressShown (batchExport plainHost emptyPage false
          ["high-quality".toList, "instagram-story".toList]).effects).map (fun p => p.percent)
        = [0, 45, 20, 50, 90, 20, 50, 95] ∧
      ¬ List.Sorted (fun a b : ℚ => a ≤ b)
        ((progressShown (batchExport plainHost emptyPage false
          ["high-quality".toList, "instagram-story".toList]).effects).map
            (fun p => p.percent)) ∧
      (progressShown (batchExport plainHost emptyPage false
          ["high-quality".toList]).effects).map (fun p => p.percent)
        = [0, 90, 20, 50, 95] ∧
      ¬ List.Sorted (fun a b : ℚ => a ≤ b)
        ((progressShown (batchExport plainHost emptyPage false
          ["high-quality".toList]).effects).map (fun p => p.percent)) := by
  have h2 : (progressShown (batchExport plainHost emptyPage false
      ["high-quality".toList, "instagram-story".toList]).effects).map (fun p => p.percent)
      = [0, 45, 20, 50, 90, 20, 50, 95] := by
    rw [batchExport_two_progress]
    simp only [List.map_cons, List.map_nil]
    norm_num
  have h1 : (progressShown (batchExport plainHost emptyPage false
      ["high-quality".toList]).effects).map (fun p => p.percent) = [0, 90, 20, 50, 95] := by
    rw [batchExport_one_progress]
    simp only [List.map_cons, List.map_nil]
    norm_num
  refine ⟨by decide, h2, ?_, h1, ?_⟩
  · rw [h2]
    simp [List.Sorted]
    norm_num
  · rw [h1]
    simp [List.Sorted]
    norm_num

/-! ## A node without shadow or stroke -/

/-- For a style without shadow and without stroke `applyTextEffects` sets the fill style
and nothing else. -/
theorem applyTextEffects_unstyled (b : Browser) (ctx : Ctx) (style : ComputedStyle)
    (scale : JSNum)
    (hshadow : style.textShadow = [] ∨ style.textShadow = "none".toList)
    (hstroke : style.webkitTextStroke = [] ∨ style.webkitTextStroke = "none".toList) :
    applyTextEffects b ctx style scale = ctx.setFillStyle b style.color := by
  have h1 : ¬ (style.textShadow ≠ [] ∧ style.textShadow ≠ "none".toList) := by
    rcases hshadow with h | h
    · exact fun hh => hh.1 h
    · exact fun hh => hh.2 h
  have h2 : ¬ (style.webkitTextStroke ≠ [] ∧ style.webkitTextStroke ≠ "none".toList) := by
    rcases hstroke with h | h
    · exact fun hh => hh.1 h
    · exact fun hh => hh.2 h
  unfold applyTextEffects applyTextStroke applyTextShadow
  rw [if_neg h1, if_neg h2]

/-- The style set-up of a node without shadow and without stroke leaves the stroke and
the shadow of the context as they were. -/
theorem setUpTextStyle_unstyled (b : Browser) (ctx : Ctx) (style : ComputedStyle)
    (ratio size : JSNum)
    (hshadow : style.textShadow = [] ∨ style.textShadow = "none".toList)
    (hstroke : style.webkitTextStroke = [] ∨ style.webkitTextStroke = "none".toList) :
    (setUpTextStyle b ctx style ratio size).state.strokeStyle = ctx.state.strokeStyle ∧
      (setUpTextStyle b ctx style ratio size).state.lineWidth = ctx.state.lineWidth ∧
      (setUpTextStyle b ctx style ratio size).state.shadowColor = ctx.state.shadowColor ∧
      (setUpTextStyle b ctx style ratio size).state.shadowOffsetX = ctx.state.shadowOffsetX ∧
      (setUpTextStyle b ctx style ratio size).state.shadowOffsetY = ctx.state.shadowOffsetY ∧
      (setUpTextStyle b ctx style ratio size).state.shadowBlur = ctx.state.shadowBlur := by
  unfold setUpTextStyle
  rw [applyTextEffects_unstyled b _ style ratio hshadow hstroke]
  unfold Ctx.setFillStyle Ctx.setFont Ctx.setTextBaseline Ctx.setTextAlign
  cases size <;> (repeat' split) <;> exact ⟨rfl, rfl, rfl, rfl, rfl, rfl⟩

/-- `drawSingleTextElement` is `drawWrappedText` on the context that `setUpTextStyle`
leaves, with the wrap width of the node. -/
theorem drawSingleTextElement_wraps (b : Browser) (ctx : Ctx) (el : TextElement)
    (canvasRect : DOMRect) (exportWidth exportHeight : ℕ) :
    ∃ ratio size x y lineHeight,
      drawSingleTextElement b ctx el canvasRect exportWidth exportHeight
        = drawWrappedText b (setUpTextStyle b ctx el.style ratio size) el.textContent x y
            (JSNum.fin el.rect.width / JSNum.fin canvasRect.width * JSNum.ofNat exportWidth)
            lineHeight :=
  ⟨_, _, _, _, _, rfl⟩

/-- A node without shadow and without stroke is drawn under the stroke and the shadow
the context had before it; and when that context has a stroke style and a positive
line width, every line of the node is stroked before it is filled. -/
theorem unstyled_node_inherits (b : Browser) (ctx : Ctx) (el : TextElement)
    (canvasRect : DOMRect) (exportWidth exportHeight : ℕ)
    (hshadow : el.style.textShadow = [] ∨ el.style.textShadow = "none".toList)
    (hstroke : el.style.webkitTextStroke = [] ∨ el.style.webkitTextStroke = "none".toList) :
    ((drawSingleTextElement b ctx el canvasRect exportWidth exportHeight).state.strokeStyle
        = ctx.state.strokeStyle ∧
      (drawSingleTextElement b ctx el canvasRect exportWidth exportHeight).state.lineWidth
        = ctx.state.lineWidth ∧
      (drawSingleTextElement b ctx el canvasRect exportWidth exportHeight).state.shadowColor
        = ctx.state.shadowColor ∧
      (drawSingleTextElement b ctx el canvasRect exportWidth exportHeight).state.shadowOffsetX
        = ctx.state.shadowOffsetX ∧
      (drawSingleTextElement b ctx el canvasRect exportWidth exportHeight).state.shadowOffsetY
        = ctx.state.shadowOffsetY ∧
      (drawSingleTextElement b ctx el canvasRect exportWidth exportHeight).state.shadowBlur
        = ctx.state.shadowBlur) ∧
    (ctx.state.strokeStyle ≠ [] ∧ 0 < ctx.state.lineWidth →
      ∃ placed : List (Str × JSNum × JSNum),
        (drawSingleTextElement b ctx el canvasRect exportWidth exportHeight).calls
          = ctx.calls ++ placed.flatMap (strokeThenFill
              (drawSingleTextElement b ctx el canvasRect exportWidth exportHeight).state)) := by
  obtain ⟨ratio, size, x, y, lineHeight, hdraw⟩ :=
    drawSingleTextElement_wraps b ctx el canvasRect exportWidth exportHeight
  have hst := setUpTextStyle_unstyled b ctx el.style ratio size hshadow hstroke
  rw [hdraw, drawWrappedText_state]
  refine ⟨hst, fun hs => ?_⟩
  obtain ⟨placed, hcalls, _, _⟩ := drawWrappedText_stroked b
    (setUpTextStyle b ctx el.style ratio size) el.textContent x y
    (JSNum.fin el.rect.width / JSNum.fin canvasRect.width * JSNum.ofNat exportWidth)
    lineHeight (by rw [hst.1, hst.2.1]; exact hs)
  exact ⟨placed, by rw [hcalls, setUpTextStyle_calls]⟩

theorem strokeTextCalls_append (l1 l2 : List DrawOp) :
    strokeTextCalls (l1 ++ l2) = strokeTextCalls l1 ++ strokeTextCalls l2 := by
  induction l1 with
  | nil => rfl
  | cons op r ih => cases op <;> simp [strokeTextCalls, ih]

theorem strokeTextCalls_strokeThenFill (st : CanvasState)
    (placed : List (Str × JSNum × JSNum)) :
    strokeTextCalls (placed.flatMap (strokeThenFill st))
      = placed.map (fun p => (p.1, st.strokeStyle, st.lineWidth)) := by
  induction placed with
  | nil => rfl
  | cons p r ih =>
    show strokeTextCalls (strokeThenFill st p ++ r.flatMap (strokeThenFill st)) = _
    rw [strokeTextCalls_append, ih]
    rfl

/-- A node with a decimal stroke of positive width and an accepted colour leaves that
stroke on the context, and all it adds are pairs of a `strokeText` and a `fillText`. -/
theorem stroked_node_leaves_stroke (b : Browser) (ctx : Ctx) (el : TextElement)
    (canvasRect : DOMRect) (exportWidth exportHeight : ℕ) (ip fp c : Str)
    (hstroke : el.style.webkitTextStroke = decimalText ip fp ++ 'p' :: 'x' :: ' ' :: c)
    (hne : ip ≠ []) (hip : ∀ d ∈ ip, isDigit d = true) (hfp : ∀ d ∈ fp, isDigit d = true)
    (hc : c ≠ []) (hhead : ∀ ch ∈ c.head?, isJSWhitespace ch = false)
    (hline : ∀ ch ∈ c, isLineTerminator ch = false)
    (hvalid : b.validColor c = true) (hw : 0 < decimalValue ip fp)
    (hcw : 0 < canvasRect.width) (hW : 0 < exportWidth) :
    (drawSingleTextElement b ctx el canvasRect exportWidth exportHeight).state.strokeStyle = c ∧
      (drawSingleTextElement b ctx el canvasRect exportWidth exportHeight).state.lineWidth
        = decimalValue ip fp * (exportWidth / canvasRect.width) ∧
      ∃ placed : List (Str × JSNum × JSNum),
        (drawSingleTextElement b ctx el canvasRect exportWidth exportHeight).calls
          = ctx.calls ++ placed.flatMap (strokeThenFill
              (drawSingleTextElement b ctx el canvasRect exportWidth exportHeight).state) := by
  have hr : JSNum.ofNat exportWidth / JSNum.fin canvasRect.width
      = JSNum.fin (exportWidth / canvasRect.width) := by
    simp [JSNum.fin_div _ _ (ne_of_gt hcw)]
  have hpos : 0 < decimalValue ip fp * ((exportWidth : ℚ) / canvasRect.width) :=
    mul_pos hw (div_pos (by exact_mod_cast hW) hcw)
  have hdraw : ∃ size x y maxWidth lineHeight,
      drawSingleTextElement b ctx el canvasRect exportWidth exportHeight
        = drawWrappedText b
            (setUpTextStyle b ctx el.style (JSNum.fin (exportWidth / canvasRect.width)) size)
            el.textContent x y maxWidth lineHeight := by
    unfold drawSingleTextElement
    dsimp only
    rw [hr]
    exact ⟨_, _, _, _, _, rfl⟩
  obtain ⟨size, x, y, maxWidth, lineHeight, hdraw⟩ := hdraw
  have hstyle : (setUpTextStyle b ctx el.style
        (JSNum.fin (exportWidth / canvasRect.width)) size).state.strokeStyle = c ∧
      (setUpTextStyle b ctx el.style
        (JSNum.fin (exportWidth / canvasRect.width)) size).state.lineWidth
        = decimalValue ip fp * (exportWidth / canvasRect.width) := by
    unfold setUpTextStyle applyTextEffects
    rw [applyTextStroke_decimal b _ el.style _ ip fp c hstroke hne hip hfp hc hhead hline
      hvalid hpos]
    exact ⟨rfl, rfl⟩
  obtain ⟨placed, hcalls, _, _⟩ := drawWrappedText_stroked b _ el.textContent x y maxWidth
    lineHeight (show _ ≠ [] ∧ 0 < _ from by rw [hstyle.1, hstyle.2]; exact ⟨hc, hpos⟩)
  rw [hdraw, drawWrappedText_state]
  exact ⟨hstyle.1, hstyle.2, placed, by rw [hcalls, setUpTextStyle_calls]⟩

/-- What `applyTextEffects` leaves of the colour-first shadow on any context, at any
scale ratio that is not negative: the second length, scaled, as blur and the first as
vertical offset. -/
theorem shadowedStyle_leaves_shadow (b : Browser) (ctx : Ctx) (r : ℚ) (hr : 0 ≤ r) :
    (applyTextEffects b ctx shadowedStyle (JSNum.fin r)).state.shadowOffsetY = 1 * r ∧
      (applyTextEffects b ctx shadowedStyle (JSNum.fin r)).state.shadowBlur = 2 * r := by
  have htok : shadowTokens shadowedStyle.textShadow
      = ["rgb(0, 0, 0)".toList, "1px".toList, "2px".toList, "3px".toList] :=
    shadowTokens_colour_first
  have hshadow : shadowedStyle.textShadow ≠ [] ∧ shadowedStyle.textShadow ≠ "none".toList := by
    decide
  have hstroke : ¬ (shadowedStyle.webkitTextStroke ≠ [] ∧
      shadowedStyle.webkitTextStroke ≠ "none".toList) := by decide
  have h3 : ("3px".toList : Str) ≠ [] := by decide
  have h2r : (0 : ℚ) ≤ 2 * r := by linarith
  simp only [applyTextEffects, applyTextStroke, applyTextShadow, hstroke, hshadow, htok,
    if_true, if_false, h3, ne_eq, not_false_eq_true, parseFloat_rgb, parseFloat_1px,
    parseFloat_2px, JSNum.nan_mul, JSNum.fin_mul, and_self, Ctx.setShadowBlur,
    Ctx.setShadowOffsetY, Ctx.setShadowOffsetX, h2r]

/-- C25 at the failing inputs.  On a freshly created context, whose stroke style is
`#000000` and whose line width is 1, the node `centredNode`, which has neither shadow
nor stroke, is drawn with a `strokeText` call under that black stroke of width 1.  After
the node with the stroke `2px rgb(255, 0, 0)` the same node is stroked in that red with
the line width 54/7.  After the node with a shadow the same node is drawn with the
shadow offset 27/7 and the shadow blur 54/7 of that node still in effect. -/
theorem unstyled_node_is_stroked :
    strokeTextCalls
        (drawSingleTextElement plainBrowser Ctx.fresh centredNode defaultSurface 1080 1920).calls
      = [("متن جدید".toList, "#000000".toList, 1)] ∧
    strokeTextCalls (drawTextElements plainBrowser strokedThenPlainPage Ctx.fresh 1080 1920).calls
      = [("Hi".toList, "rgb(255, 0, 0)".toList, 54 / 7),
          ("متن جدید".toList, "rgb(255, 0, 0)".toList, 54 / 7)] ∧
    (drawTextElements plainBrowser shadowedThenPlainPage Ctx.fresh 1080
        1920).state.shadowOffsetY = 27 / 7 ∧
    (drawTextElements plainBrowser shadowedThenPlainPage Ctx.fresh 1080
        1920).state.shadowBlur = 54 / 7 := by
  have hplain : ∀ ctx : Ctx, ctx.state.strokeStyle ≠ [] ∧ 0 < ctx.state.lineWidth →
      strokeTextCalls
          (drawSingleTextElement plainBrowser ctx centredNode defaultSurface 1080 1920).calls
        = strokeTextCalls ctx.calls
          ++ [("متن جدید".toList, ctx.state.strokeStyle, ctx.state.lineWidth)] := by
    intro ctx hs
    obtain ⟨hst, hcalls⟩ := unstyled_node_inherits plainBrowser ctx centredNode defaultSurface
      1080 1920 (Or.inr rfl) (Or.inl rfl)
    obtain ⟨placed, hplaced⟩ := hcalls hs
    have hfill := plain_node_fillTextCalls ctx centredNode rfl rfl (by decide)
      (by norm_num [charCount, centredNode])
    rw [hplaced, fillTextCalls_append, fillTextCalls_strokeThenFill] at hfill
    have hp := List.append_cancel_left hfill
    rw [hplaced, strokeTextCalls_append, strokeTextCalls_strokeThenFill, hp, hst.1, hst.2.1]
    rfl
  have hstroked := stroked_node_leaves_stroke plainBrowser Ctx.fresh strokedNode defaultSurface
    1080 1920 "2".toList [] "rgb(255, 0, 0)".toList rfl (by decide) (by decide) (by decide)
    (by decide) (by decide) (by decide) rfl
    (by
      have h2 : digitsValue 10 "2".toList = 2 := by decide
      have h0 : digitsValue 10 ([] : Str) = 0 := rfl
      rw [decimalValue, h2, h0]
      norm_num)
    (by norm_num [defaultSurface]) (by decide)
  have hwidth : decimalValue "2".toList [] * (((1080 : ℕ) : ℚ) / defaultSurface.width)
      = 54 / 7 := by
    have h2 : digitsValue 10 "2".toList = 2 := by decide
    have h0 : digitsValue 10 ([] : Str) = 0 := rfl
    rw [decimalValue, h2, h0]
    norm_num [defaultSurface]
  refine ⟨?_, ?_, ?_, ?_⟩
  · exact hplain Ctx.fresh ⟨by decide, by norm_num [Ctx.fresh, CanvasState.initial]⟩
  · obtain ⟨hs1, hs2, placed, hplaced⟩ := hstroked
    have hfill := plain_node_fillTextCalls Ctx.fresh strokedNode rfl rfl (by decide)
      (by norm_num [charCount, strokedNode])
    rw [hplaced, fillTextCalls_append, fillTextCalls_strokeThenFill] at hfill
    have hp := List.append_cancel_left hfill
    have hfirst : strokeTextCalls
        (drawSingleTextElement plainBrowser Ctx.fresh strokedNode defaultSurface 1080 1920).calls
        = [("Hi".toList, "rgb(255, 0, 0)".toList, 54 / 7)] := by
      rw [hplaced, strokeTextCalls_append, strokeTextCalls_strokeThenFill, hp, hs1, hs2, hwidth]
      rfl
    show strokeTextCalls (drawSingleTextElement plainBrowser
      (drawSingleTextElement plainBrowser Ctx.fresh strokedNode defaultSurface 1080 1920)
      centredNode defaultSurface 1080 1920).calls = _
    rw [hplain _ (by rw [hs1, hs2, hwidth]; exact ⟨by decide, by norm_num⟩), hfirst, hs1, hs2,
      hwidth]
    rfl
  · show (drawSingleTextElement plainBrowser
      (drawSingleTextElement plainBrowser Ctx.fresh shadowedNode defaultSurface 1080 1920)
      centredNode defaultSurface 1080 1920).state.shadowOffsetY = _
    rw [(unstyled_node_inherits plainBrowser _ centredNode defaultSurface 1080 1920
      (Or.inr rfl) (Or.inl rfl)).1.2.2.2.2.1,
      drawSingleTextElement_eq plainBrowser Ctx.fresh shadowedNode defaultSurface 1080 1920
        defaultSurface_width defaultSurface_height, drawWrappedText_state]
    unfold setUpTextStyle
    refine Eq.trans (shadowedStyle_leaves_shadow plainBrowser _
      (((1080 : ℕ) : ℚ) / defaultSurface.width) (by norm_num [defaultSurface])).1 ?_
    norm_num [defaultSurface]
  · show (drawSingleTextElement plainBrowser
      (drawSingleTextElement plainBrowser Ctx.fresh shadowedNode defaultSurface 1080 1920)
      centredNode defaultSurface 1080 1920).state.shadowBlur = _
    rw [(unstyled_node_inherits plainBrowser _ centredNode defaultSurface 1080 1920
      (Or.inr rfl) (Or.inl rfl)).1.2.2.2.2.2,
      drawSingleTextElement_eq plainBrowser Ctx.fresh shadowedNode defaultSurface 1080 1920
        defaultSurface_width defaultSurface_height, drawWrappedText_state]
    unfold setUpTextStyle
    refine Eq.trans (shadowedStyle_leaves_shadow plainBrowser _
      (((1080 : ℕ) : ℚ) / defaultSurface.width) (by norm_num [defaultSurface])).2 ?_
    norm_num [defaultSurface]

/-! ## The lines put together again -/

theorem joinSpace_cons (l : Str) (rest : List Str) (h : rest ≠ []) :
    joinSpace (l :: rest) = l ++ space :: joinSpace rest := by
  cases rest with
  | nil => exact absurd rfl h
  | cons r rs => rfl

/-- Lengthening the last line lengthens the joined text by as much. -/
theorem joinSpace_append_tail (lines : List Str) (cur tail : Str) :
    joinSpace (lines ++ [cur ++ tail]) = joinSpace (lines ++ [cur]) ++ tail := by
  induction lines with
  | nil => rfl
  | cons l ls ih =>
    rw [List.cons_append, List.cons_append, joinSpace_cons _ _ (by simp),
      joinSpace_cons _ _ (by simp), ih]
    simp

/-- A new last line comes after one space. -/
theorem joinSpace_append_line (lines : List Str) (cur word : Str) :
    joinSpace (lines ++ [cur] ++ [word]) = joinSpace (lines ++ [cur]) ++ space :: word := by
  induction lines with
  | nil => rfl
  | cons l ls ih =>
    show joinSpace (l :: (ls ++ [cur] ++ [word]))
      = joinSpace (l :: (ls ++ [cur])) ++ space :: word
    rw [joinSpace_cons _ _ (by simp), joinSpace_cons _ _ (by simp), ih]
    simp

/-- Over words that are not empty, the loop of `drawWrappedText` keeps a current line
that is not empty, and the lines with the current line, joined, are the joined text so
far with the words appended. -/
theorem breakFold_joinSpace (measure : Str → ℚ) (m : JSNum) (words : List Str) :
    ∀ (lines : List Str) (cur : Str), cur ≠ [] → (∀ w ∈ words, w ≠ []) →
      (words.foldl (breakStep measure m) (lines, cur)).2 ≠ [] ∧
        joinSpace ((words.foldl (breakStep measure m) (lines, cur)).1
            ++ [(words.foldl (breakStep measure m) (lines, cur)).2])
          = appendWords (joinSpace (lines ++ [cur])) words := by
  induction words with
  | nil => intro lines cur hc _; exact ⟨hc, rfl⟩
  | cons w ws ih =>
    intro lines cur hc hw
    have hwne : w ≠ [] := hw w (by simp)
    have hws : ∀ v ∈ ws, v ≠ [] := fun v hv => hw v (by simp [hv])
    simp only [List.foldl_cons]
    rcases breakStep_cases measure m lines cur w with ⟨h0, _⟩ | ⟨_, _, e⟩ | ⟨_, _, e⟩
    · exact absurd h0 hc
    · rw [e]
      obtain ⟨h1, h2⟩ := ih (lines ++ [cur]) w hwne hws
      refine ⟨h1, ?_⟩
      rw [h2, joinSpace_append_line]
      rfl
    · rw [e]
      obtain ⟨h1, h2⟩ := ih lines (cur ++ space :: w) (by simp) hws
      refine ⟨h1, ?_⟩
      rw [h2, joinSpace_append_tail]
      rfl

/-- C27.  For every text whose words are all non-empty (no leading, trailing or
repeated space, and not the empty text), every measure and every `maxWidth`, the lines
of `drawWrappedText` joined with single spaces are the text itself. -/
theorem lines_joined_give_text (measure : Str → ℚ) (maxWidth : JSNum) (text : Str)
    (hwords : ∀ w ∈ splitSpace text, w ≠ []) :
    joinSpace (breakIntoLines measure maxWidth text) = text := by
  cases hs : splitSpace text with
  | nil => exact absurd hs (splitSpace_ne_nil text)
  | cons w rest =>
    rw [hs] at hwords
    have hw : w ≠ [] := hwords w (by simp)
    obtain ⟨h1, h2⟩ := breakFold_joinSpace measure maxWidth rest [] w hw
      (fun v hv => hwords v (by simp [hv]))
    have hloop : breakLoop measure maxWidth text
        = rest.foldl (breakStep measure maxWidth) ([], w) := by
      unfold breakLoop
      rw [hs, List.foldl_cons, breakStep_empty]
    unfold breakIntoLines
    dsimp only
    rw [hloop, if_pos h1, h2]
    exact appendWords_splitSpace text w rest hs

/-- C27 on the text `ab cd e` wrapped at three characters: the lines `ab`, `cd` and `e`
joined give the text back. -/
theorem lines_joined_give_text_witness :
    breakIntoLines charCount (JSNum.fin 3) "ab cd e".toList
        = ["ab".toList, "cd".toList, "e".toList] ∧
      joinSpace (breakIntoLines charCount (JSNum.fin 3) "ab cd e".toList) = "ab cd e".toList :=
  ⟨by decide,
    lines_joined_give_text charCount (JSNum.fin 3) "ab cd e".toList (by decide)⟩

/-! ## Every line is a word or fits -/

/-- The loop of `drawWrappedText` commits no empty line. -/
theorem breakFold_lines_ne_nil (measure : Str → ℚ) (m : JSNum) (words : List Str) :
    ∀ st : List Str × Str, (∀ l ∈ st.1, l ≠ []) →
      ∀ l ∈ (words.foldl (breakStep measure m) st).1, l ≠ [] := by
  induction words with
  | nil => intro st h; exact h
  | cons w ws ih =>
    intro st h
    obtain ⟨lines, cur⟩ := st
    simp only [List.foldl_cons]
    apply ih
    rcases breakStep_cases measure m lines cur w with ⟨_, e⟩ | ⟨hc, _, e⟩ | ⟨_, _, e⟩
    · rw [e]; exact h
    · rw [e]
      intro l hl
      rcases List.mem_append.mp hl with hl | hl
      · exact h l hl
      · rw [List.mem_singleton.mp hl]; exact hc
    · rw [e]; exact h

/-- Each word adds at most one line, counting the current line when it is not empty. -/
theorem breakFold_length (measure : Str → ℚ) (m : JSNum) (words : List Str) :
    ∀ st : List Str × Str,
      (words.foldl (breakStep measure m) st).1.length
          + (if (words.foldl (breakStep measure m) st).2 = [] then 0 else 1)
        ≤ st.1.length + (if st.2 = [] then 0 else 1) + words.length := by
  induction words with
  | nil => intro st; simp
  | cons w ws ih =>
    intro st
    obtain ⟨lines, cur⟩ := st
    simp only [List.foldl_cons, List.length_cons]
    refine le_trans (ih _) ?_
    rcases breakStep_cases measure m lines cur w with ⟨hc, e⟩ | ⟨hc, _, e⟩ | ⟨hc, _, e⟩
    · rw [e]
      simp only [hc, if_true]
      split <;> omega
    · rw [e]
      simp only [hc, if_false, List.length_append, List.length_singleton]
      split <;> omega
    · rw [e]
      simp only [hc, if_false]
      split <;> omega

/-- When `maxWidth` is not `NaN`, every line the loop commits and its current line
either fit or are one of the words. -/
theorem breakFold_fit_or_word (measure : Str → ℚ) (m : JSNum) (hm : m ≠ JSNum.nan)
    (all : List Str) (words : List Str) :
    ∀ st : List Str × Str, (∀ w ∈ words, w ∈ all) →
      (∀ l ∈ st.1, JSNum.le (JSNum.fin (measure l)) m = true ∨ l ∈ all) →
      (st.2 = [] ∨ JSNum.le (JSNum.fin (measure st.2)) m = true ∨ st.2 ∈ all) →
      (∀ l ∈ (words.foldl (breakStep measure m) st).1,
          JSNum.le (JSNum.fin (measure l)) m = true ∨ l ∈ all) ∧
        ((words.foldl (breakStep measure m) st).2 = [] ∨
          JSNum.le (JSNum.fin (measure (words.foldl (breakStep measure m) st).2)) m = true ∨
          (words.foldl (breakStep measure m) st).2 ∈ all) := by
  induction words with
  | nil => intro st _ h1 h2; exact ⟨h1, h2⟩
  | cons w ws ih =>
    intro st hw h1 h2
    obtain ⟨lines, cur⟩ := st
    have hwall : w ∈ all := hw w (by simp)
    have hws : ∀ v ∈ ws, v ∈ all := fun v hv => hw v (by simp [hv])
    simp only [List.foldl_cons]
    rcases breakStep_cases measure m lines cur w with ⟨_, e⟩ | ⟨hc, _, e⟩ | ⟨_, hgt, e⟩
    · rw [e]
      exact ih (lines, w) hws h1 (Or.inr (Or.inr hwall))
    · rw [e]
      refine ih (lines ++ [cur], w) hws ?_ (Or.inr (Or.inr hwall))
      intro l hl
      rcases List.mem_append.mp hl with hl | hl
      · exact h1 l hl
      · rw [List.mem_singleton.mp hl]
        rcases h2 with h | h
        · exact absurd h hc
        · exact h
    · rw [e]
      refine ih (lines, cur ++ space :: w) hws h1 (Or.inr (Or.inl ?_))
      rw [JSNum.gt_eq_not_le _ _ hm] at hgt
      simpa using hgt

/-- C28, amended.  For every text, measure and `maxWidth`, every line of
`drawWrappedText` is a non-empty string, the number of lines never exceeds the number
of words, and the empty text gives no line and no draw call; and when `maxWidth` is not
`NaN`, every line is either measured no wider than `maxWidth` or is a single word of
the text. -/
theorem wrapped_lines_fit_or_single_word (measure : Str → ℚ) (maxWidth : JSNum) (text : Str) :
    (∀ line ∈ breakIntoLines measure maxWidth text, line ≠ []) ∧
      (maxWidth ≠ JSNum.nan → ∀ line ∈ breakIntoLines measure maxWidth text,
        JSNum.le (JSNum.fin (measure line)) maxWidth = true ∨ line ∈ splitSpace text) ∧
      (breakIntoLines measure maxWidth text).length ≤ (splitSpace text).length ∧
      breakIntoLines measure maxWidth [] = [] ∧
      (∀ (b : Browser) (ctx : Ctx) (x y lineHeight : JSNum),
        drawWrappedText b ctx [] x y maxWidth lineHeight = ctx) := by
  have hne := breakFold_lines_ne_nil measure maxWidth (splitSpace text) ([], [])
    (by intro l hl; simp at hl)
  have hlen := breakFold_length measure maxWidth (splitSpace text) ([], [])
  have hempty : ∀ ms : Str → ℚ, breakIntoLines ms maxWidth [] = [] := by
    intro ms
    simp [breakIntoLines, breakLoop, splitSpace, breakStep]
  refine ⟨?_, ?_, ?_, hempty measure, ?_⟩
  · intro line hline
    unfold breakIntoLines breakLoop at hline
    dsimp only at hline
    split at hline
    · rename_i hcur
      rcases List.mem_append.mp hline with h | h
      · exact hne line h
      · rw [List.mem_singleton.mp h]; exact hcur
    · exact hne line hline
  · intro hm line hline
    obtain ⟨h1, h2⟩ := breakFold_fit_or_word measure maxWidth hm (splitSpace text)
      (splitSpace text) ([], []) (fun w hw => hw) (by intro l hl; simp at hl) (Or.inl rfl)
    unfold breakIntoLines breakLoop at hline
    dsimp only at hline
    split at hline
    · rename_i hcur
      rcases List.mem_append.mp hline with h | h
      · exact h1 line h
      · rw [List.mem_singleton.mp h]
        rcases h2 with h | h
        · exact absurd h hcur
        · exact h
    · exact h1 line hline
  · unfold breakIntoLines breakLoop
    dsimp only
    simp only [List.length_nil, if_true, zero_add] at hlen
    split
    · rename_i hcur
      rw [if_neg hcur] at hlen
      simpa using hlen
    · omega
  · intro b ctx x y lineHeight
    unfold drawWrappedText
    dsimp only
    rw [hempty]
    rfl

/-- The amended C28 on the text `ab cd e` wrapped at three characters: three lines for
three words, none empty, each fitting. -/
theorem wrapped_lines_fit_or_single_word_witness :
    breakIntoLines charCount (JSNum.fin 3) "ab cd e".toList
        = ["ab".toList, "cd".toList, "e".toList] ∧
      JSNum.fin 3 ≠ JSNum.nan ∧
      ∀ line ∈ breakIntoLines charCount (JSNum.fin 3) "ab cd e".toList,
        JSNum.le (JSNum.fin (charCount line)) (JSNum.fin 3) = true
          ∨ line ∈ splitSpace "ab cd e".toList :=
  ⟨by decide, by decide,
    (wrapped_lines_fit_or_single_word charCount (JSNum.fin 3) "ab cd e".toList).2.1
      (by decide)⟩

/-- C28 as stated fails: with a `maxWidth` that is `NaN` the text `a b` is one line,
which is neither measured no wider than `maxWidth` nor a single word. -/
theorem nan_width_line_neither_fits_nor_single :
    breakIntoLines charCount JSNum.nan "a b".toList = ["a b".toList] ∧
      JSNum.le (JSNum.fin (charCount "a b".toList)) JSNum.nan = false ∧
      "a b".toList ∉ splitSpace "a b".toList := by
  decide

/-! ## Copying, sharing and printing beside an export -/

theorem copyToClipboard_frame (h : Host) (nav : Navigator) (page : Page) (busy : Bool) :
    (copyToClipboard h nav page busy).isExporting = busy ∧
      (copyToClipboard h nav page busy).effects = (copyToClipboard h nav page false).effects ∧
      canvasesCreated (copyToClipboard h nav page busy).effects = [(1080, 1920)] := by
  unfold copyToClipboard
  dsimp only
  split
  · exact ⟨rfl, rfl, by simp [copyFailed, printFailed, shareFailed, canvasesCreated_append, canvasesCreated,
      renderEffects, canvasesCreated_progress, highQuality, instagramStory]⟩
  · split
    · exact ⟨rfl, rfl, by simp [copyFailed, printFailed, shareFailed, canvasesCreated_append, canvasesCreated,
      renderEffects, canvasesCreated_progress, highQuality, instagramStory]⟩
    · split
      · exact ⟨rfl, rfl, by simp [copyFailed, printFailed, shareFailed, canvasesCreated_append, canvasesCreated,
      renderEffects, canvasesCreated_progress, highQuality, instagramStory]⟩
      · split
        · exact ⟨rfl, rfl, by simp [copyFailed, printFailed, shareFailed, canvasesCreated_append, canvasesCreated,
      renderEffects, canvasesCreated_progress, highQuality, instagramStory]⟩
        · split
          · exact ⟨rfl, rfl, by simp [copyFailed, printFailed, shareFailed, canvasesCreated_append, canvasesCreated,
      renderEffects, canvasesCreated_progress, highQuality, instagramStory]⟩
          · exact ⟨rfl, rfl, by simp [copyFailed, printFailed, shareFailed, canvasesCreated_append, canvasesCreated,
      renderEffects, canvasesCreated_progress, highQuality, instagramStory]⟩

theorem printStory_frame (h : Host) (nav : Navigator) (page : Page) (busy : Bool) :
    (printStory h nav page busy).isExporting = busy ∧
      (printStory h nav page busy).effects = (printStory h nav page false).effects ∧
      canvasesCreated (printStory h nav page busy).effects = [(1080, 1920)] := by
  unfold printStory
  dsimp only
  split
  · exact ⟨rfl, rfl, by simp [copyFailed, printFailed, shareFailed, canvasesCreated_append, canvasesCreated,
      renderEffects, canvasesCreated_progress, highQuality, instagramStory]⟩
  · split
    · exact ⟨rfl, rfl, by simp [copyFailed, printFailed, shareFailed, canvasesCreated_append, canvasesCreated,
      renderEffects, canvasesCreated_progress, highQuality, instagramStory]⟩
    · split
      · exact ⟨rfl, rfl, by simp [copyFailed, printFailed, shareFailed, canvasesCreated_append, canvasesCreated,
      renderEffects, canvasesCreated_progress, highQuality, instagramStory]⟩
      · exact ⟨rfl, rfl, by simp [copyFailed, printFailed, shareFailed, canvasesCreated_append, canvasesCreated,
      renderEffects, canvasesCreated_progress, highQuality, instagramStory]⟩

theorem shareToSocial_frame (h : Host) (nav : Navigator) (page : Page) (busy : Bool) :
    (shareToSocial h nav page busy).isExporting = busy ∧
      (shareToSocial h nav page busy).effects = (shareToSocial h nav page false).effects ∧
      (nav.share.isSome = true →
        canvasesCreated (shareToSocial h nav page busy).effects = [(1080, 1920)]) ∧
      (nav.share = none →
        (shareToSocial h nav page busy).effects
          = [Effect.notify NoticeKind.warning
              "اشتراک‌گذاری در این مرورگر پشتیبانی نمی‌شود"]) := by
  unfold shareToSocial
  cases hshare : nav.share with
  | none => exact ⟨rfl, rfl, fun hs => by simp at hs, fun _ => rfl⟩
  | some share =>
    dsimp only
    split
    · exact ⟨rfl, rfl, fun _ => by simp [copyFailed, printFailed, shareFailed, canvasesCreated_append, canvasesCreated,
      renderEffects, canvasesCreated_progress, highQuality, instagramStory], fun hn => by simp at hn⟩
    · split
      · exact ⟨rfl, rfl, fun _ => by simp [copyFailed, printFailed, shareFailed, canvasesCreated_append, canvasesCreated,
      renderEffects, canvasesCreated_progress, highQuality, instagramStory],
          fun hn => by simp at hn⟩
      · exact ⟨rfl, rfl, fun _ => by simp [copyFailed, printFailed, shareFailed, canvasesCreated_append, canvasesCreated,
      renderEffects, canvasesCreated_progress, highQuality, instagramStory],
          fun hn => by simp at hn⟩
      · split
        · exact ⟨rfl, rfl, fun _ => by simp [copyFailed, printFailed, shareFailed, canvasesCreated_append, canvasesCreated,
      renderEffects, canvasesCreated_progress, highQuality, instagramStory],
            fun hn => by simp at hn⟩
        · exact ⟨rfl, rfl, fun _ => by simp [copyFailed, printFailed, shareFailed, canvasesCreated_append, canvasesCreated,
      renderEffects, canvasesCreated_progress, highQuality, instagramStory],
            fun hn => by simp at hn⟩
        · exact ⟨rfl, rfl, fun _ => by simp [copyFailed, printFailed, shareFailed, canvasesCreated_append, canvasesCreated,
      renderEffects, canvasesCreated_progress, highQuality, instagramStory],
            fun hn => by simp at hn⟩

/-- C29, amended.  `copyToClipboard`, `shareToSocial` and `printStory` neither test nor
change `isExporting`: what each of them does is the same whether an export is in flight
or not, and each leaves `isExporting` as it found it.  `copyToClipboard` and `printStory`
always render a full export canvas of 1080 by 1920, also while an export is in flight;
`shareToSocial` does so whenever `navigator.share` exists, and without it only shows a
warning and renders nothing. -/
theorem side_operations_ignore_isExporting (h : Host) (nav : Navigator) (page : Page)
    (busy : Bool) :
    ((copyToClipboard h nav page busy).isExporting = busy ∧
      (copyToClipboard h nav page busy).effects = (copyToClipboard h nav page false).effects ∧
      canvasesCreated (copyToClipboard h nav page busy).effects = [(1080, 1920)]) ∧
    ((printStory h nav page busy).isExporting = busy ∧
      (printStory h nav page busy).effects = (printStory h nav page false).effects ∧
      canvasesCreated (printStory h nav page busy).effects = [(1080, 1920)]) ∧
    ((shareToSocial h nav page busy).isExporting = busy ∧
      (shareToSocial h nav page busy).effects = (shareToSocial h nav page false).effects ∧
      (nav.share.isSome = true →
        canvasesCreated (shareToSocial h nav page busy).effects = [(1080, 1920)]) ∧
      (nav.share = none →
        (shareToSocial h nav page busy).effects
          = [Effect.notify NoticeKind.warning
              "اشتراک‌گذاری در این مرورگر پشتیبانی نمی‌شود"])) :=
  ⟨copyToClipboard_frame h nav page busy, printStory_frame h nav page busy,
    shareToSocial_frame h nav page busy⟩

/-- The amended C29 while an export is in flight, in a browser with the Web Share API:
`shareToSocial` renders its canvas and leaves `isExporting` true. -/
theorem side_operations_ignore_isExporting_witness :
    sharingNavigator.share.isSome = true ∧
      (shareToSocial plainHost sharingNavigator picturePage true).isExporting = true ∧
      canvasesCreated (shareToSocial plainHost sharingNavigator picturePage true).effects
        = [(1080, 1920)] ∧
      canvasesCreated (copyToClipboard plainHost sharingNavigator picturePage true).effects
        = [(1080, 1920)] ∧
      canvasesCreated (printStory plainHost sharingNavigator picturePage true).effects
        = [(1080, 1920)] :=
  ⟨rfl,
    (side_operations_ignore_isExporting plainHost sharingNavigator picturePage true).2.2.1,
    (side_operations_ignore_isExporting plainHost sharingNavigator picturePage true).2.2.2.2.1
      rfl,
    (side_operations_ignore_isExporting plainHost sharingNavigator picturePage true).1.2.2,
    (side_operations_ignore_isExporting plainHost sharingNavigator picturePage true).2.1.2.2⟩

/-- C29 as stated fails: in a browser without `navigator.share`, `shareToSocial` called
while an export is in flight renders no canvas; it shows a warning and returns. -/
theorem share_without_api_renders_nothing :
    plainNavigator.share.isSome = false ∧
      canvasesCreated (shareToSocial plainHost plainNavigator picturePage true).effects = [] ∧
      (shareToSocial plainHost plainNavigator picturePage true).effects
        = [Effect.notify NoticeKind.warning
            "اشتراک‌گذاری در این مرورگر پشتیبانی نمی‌شود"] ∧
      (shareToSocial plainHost plainNavigator picturePage true).isExporting = true :=
  ⟨rfl, rfl, rfl, rfl⟩

/-! ## Undo and redo -/

/-- With an empty redo stack `redo` does nothing. -/
theorem redo_of_empty (env : Editor) (s : AppState) (h : s.redoStack = []) :
    redo env s = s := by
  unfold redo
  rw [h]
  rfl

/-- `saveState` empties the redo stack. -/
theorem saveState_redoStack (env : Editor) (s : AppState) : (saveState env s).redoStack = [] :=
  rfl

/-- C30 at the failing input.  In `deletedTextState` the undo stack holds one snapshot,
whose element `text_a` is not in the document, and the redo stack holds one snapshot.
`undo` makes `text_a` again through `addTextElement`, which saves the state: after
`undo` the redo stack is empty and the undo stack holds a new snapshot, with the
generated id `text_xx` in place of `text_a`.  So `redo` right after it does nothing:
the document keeps the two elements where it had one before the undo, the redo stack is
empty where it held one snapshot, and the undo stack holds another snapshot than
before. -/
theorem undo_redo_loses_redo_stack :
    deletedTextState.undoStack.length = 1 ∧
      deletedTextState.redoStack.length = 1 ∧
      deletedTextState.nodes.map (fun n => n.id) = ["defaultText".toList] ∧
      stackElementIds deletedTextState.undoStack
        = [["defaultText".toList, "text_a".toList]] ∧
      (undo plainEditor deletedTextState).redoStack.length = 0 ∧
      redo plainEditor (undo plainEditor deletedTextState)
        = undo plainEditor deletedTextState ∧
      (redo plainEditor (undo plainEditor deletedTextState)).nodes.map (fun n => n.id)
        = ["defaultText".toList, "text_a".toList] ∧
      (redo plainEditor (undo plainEditor deletedTextState)).redoStack.length = 0 ∧
      stackElementIds (redo plainEditor (undo plainEditor deletedTextState)).undoStack
        = [["defaultText".toList, "text_xx".toList]] := by
  have hredo : (undo plainEditor deletedTextState).redoStack = [] := rfl
  have hsame := redo_of_empty plainEditor (undo plainEditor deletedTextState) hredo
  refine ⟨rfl, rfl, rfl, rfl, ?_, hsame, ?_, ?_, ?_⟩
  · rw [hredo]; rfl
  · rw [hsame]; decide
  · rw [hsame, hredo]; rfl
  · rw [hsame]; decide

theorem rewriteNode_ids (env : Editor) (s : AppState) (ref : ℕ) (content : Str)
    (properties : Props) :
    (rewriteNode env s ref content properties).nodes.map (fun n => n.id)
      = s.nodes.map (fun n => n.id) := by
  unfold rewriteNode
  simp only [List.map_map]
  apply List.map_congr_left
  intro n _
  simp only [Function.comp]
  split <;> rfl

/-- One turn of the loop of `restoreState`: either an element is made again and the redo
stack is empty afterwards, or the redo stack and the ids in the document are as
before. -/
theorem restoreElement_redoStack (env : Editor) (s : AppState) (d : ElementSnapshot) :
    ((d.id ∉ s.nodes.map (fun n => n.id) ∧ d.id ≠ "defaultText".toList) ∧
        (restoreElement env s d).redoStack = []) ∨
      (¬ (d.id ∉ s.nodes.map (fun n => n.id) ∧ d.id ≠ "defaultText".toList) ∧
        (restoreElement env s d).redoStack = s.redoStack ∧
        (restoreElement env s d).nodes.map (fun n => n.id) = s.nodes.map (fun n => n.id)) := by
  unfold restoreElement
  cases hfind : getElementById s d.id with
  | none =>
    have hmissing : d.id ∉ s.nodes.map (fun n => n.id) := by
      unfold getElementById at hfind
      rw [List.find?_eq_none] at hfind
      intro hmem
      obtain ⟨n, hn, hid⟩ := List.mem_map.mp hmem
      exact hfind n hn (by simpa using hid)
    by_cases hdef : d.id = "defaultText".toList
    · right
      simp only [hdef, ne_eq, not_true_eq_false, if_false, and_false, not_false_eq_true,
        and_self]
    · left
      simp only [ne_eq, hdef, not_false_eq_true, if_true]
      exact ⟨⟨hmissing, trivial⟩, rfl⟩
  | some element =>
    right
    have hin : d.id ∈ s.nodes.map (fun n => n.id) := by
      unfold getElementById at hfind
      have hmem := List.mem_of_find?_eq_some hfind
      have hid := List.find?_some hfind
      exact List.mem_map.mpr ⟨element, hmem, by simpa using hid⟩
    exact ⟨fun h => h.1 hin, rfl, rewriteNode_ids env s element.ref d.content d.properties⟩

/-- The loop of `restoreState` leaves an empty redo stack empty, and empties it as soon
as one of its elements is not in the document. -/
theorem restoreElements_redoStack (env : Editor) (elements : List ElementSnapshot) :
    ∀ s : AppState,
      (s.redoStack = [] ∨
        ∃ d ∈ elements, d.id ∉ s.nodes.map (fun n => n.id) ∧ d.id ≠ "defaultText".toList) →
      (elements.foldl (restoreElement env) s).redoStack = [] := by
  induction elements with
  | nil =>
    intro s h
    rcases h with h | ⟨d, hd, _⟩
    · exact h
    · simp at hd
  | cons e rest ih =>
    intro s h
    simp only [List.foldl_cons]
    apply ih
    rcases restoreElement_redoStack env s e with ⟨_, hempty⟩ | ⟨hnot, hsame, hids⟩
    · exact Or.inl hempty
    · rcases h with h | ⟨d, hd, hmissing, hdef⟩
      · exact Or.inl (hsame.trans h)
      · rcases List.mem_cons.mp hd with rfl | hd
        · exact absurd ⟨hmissing, hdef⟩ hnot
        · exact Or.inr ⟨d, hd, by rw [hids]; exact hmissing, hdef⟩

/-- Whenever the snapshot on top of the undo stack holds an element that is not in the
document and is not the default text, `undo` leaves the redo stack empty, and a `redo`
right after it does nothing. -/
theorem undo_recreation_clears_redo (env : Editor) (s : AppState) (top : AppSnapshot)
    (canvas : CanvasSnapshot) (d : ElementSnapshot)
    (htop : s.undoStack.getLast? = some top) (hcanvas : top.canvas = some canvas)
    (hd : d ∈ canvas.elements) (hmissing : d.id ∉ s.nodes.map (fun n => n.id))
    (hdef : d.id ≠ "defaultText".toList) :
    (undo env s).redoStack = [] ∧ redo env (undo env s) = undo env s := by
  have hne : s.undoStack.length > 0 := by
    cases hs : s.undoStack with
    | nil => rw [hs] at htop; simp at htop
    | cons a r => simp
  have hempty : (undo env s).redoStack = [] := by
    unfold undo
    rw [if_pos hne]
    simp only [getAppState, htop, restoreAppState, hcanvas, restoreState]
    have hfold := restoreElements_redoStack env canvas.elements
      { s with
        clockReads := s.clockReads + 1
        redoStack := s.redoStack ++ [⟨s.version, s.appElements, s.settings, some (getState s),
          env.now s.clockReads⟩]
        undoStack := s.undoStack.dropLast
        appElements := top.elements.foldl (fun o e => setFilter o e.1 e.2) []
        settings := mergeObjects s.settings top.settings
        imageData := canvas.imageData }
      (Or.inr ⟨d, hd, hmissing, hdef⟩)
    split
    · exact hfold
    · split
      · split
        · exact hfold
        · exact hfold
      · exact hfold
  exact ⟨hempty, redo_of_empty env _ hempty⟩

/-! ## The line positions in double precision -/

namespace Binary

theorem toRat_mulExact (a b : Binary) : (a.mulExact b).toRat = a.toRat * b.toRat := by
  simp only [toRat, mulExact]
  rw [zpow_add₀ (two_ne_zero)]
  push_cast
  ring

theorem toRat_addExact (a b : Binary) : (a.addExact b).toRat = a.toRat + b.toRat := by
  have key : ∀ e f : ℤ, f ≤ e → ((2 : ℚ) ^ (e - f).toNat) * (2 : ℚ) ^ f = (2 : ℚ) ^ e := by
    intro e f hfe
    rw [← zpow_natCast, Int.toNat_of_nonneg (sub_nonneg.mpr hfe), ← zpow_add₀ (two_ne_zero)]
    congr 1
    ring
  simp only [toRat, addExact]
  push_cast
  rw [add_mul, mul_assoc, mul_assoc, key _ _ (min_le_left _ _), key _ _ (min_le_right _ _)]

theorem toRat_subExact (a b : Binary) : (a.subExact b).toRat = a.toRat - b.toRat := by
  rw [subExact, toRat_addExact]
  simp only [toRat]
  push_cast
  ring

theorem toRat_half (a : Binary) : a.half.toRat = a.toRat / 2 := by
  simp only [toRat, half]
  rw [zpow_sub_one₀ (two_ne_zero)]
  ring

theorem toRat_ofNat (n : ℕ) : (ofNat n).toRat = (n : ℚ) := by
  simp [toRat, ofNat]

theorem toRat_eq_zero (d : Binary) : d.toRat = 0 ↔ d.mantissa = 0 := by
  simp only [toRat, mul_eq_zero, Int.cast_eq_zero]
  constructor
  · rintro (h | h)
    · exact h
    · exact absurd h (zpow_ne_zero _ two_ne_zero)
  · exact Or.inl

theorem exact_of_round_eq (d : Binary) (h : d.round = d) : d.Exact := by
  rw [Exact, h]

theorem toRat_mul (a b : Binary) (h : (a.mulExact b).Exact) :
    (a.mul b).toRat = a.toRat * b.toRat :=
  h.trans (toRat_mulExact a b)

theorem toRat_add (a b : Binary) (h : (a.addExact b).Exact) :
    (a.add b).toRat = a.toRat + b.toRat :=
  h.trans (toRat_addExact a b)

theorem toRat_sub (a b : Binary) (h : (a.subExact b).Exact) :
    (a.sub b).toRat = a.toRat - b.toRat :=
  h.trans (toRat_subExact a b)

end Binary

/-- When no operation rounds, a line is where the exact formula puts it. -/
theorem lineY_exact (n : ℕ) (y h : Binary) (hexact : NoRounding n y h) (i : ℕ) (hi : i < n) :
    (lineY n y h i).toRat
      = y.toRat - ((n : ℚ) * h.toRat - h.toRat) / 2 + (i : ℚ) * h.toRat := by
  obtain ⟨h1, h2, h3, h4⟩ := hexact
  obtain ⟨h5, h6⟩ := h4 i hi
  have htotal : (totalHeight n h).toRat = (n : ℚ) * h.toRat := by
    rw [totalHeight, Binary.toRat_mul _ _ h1, Binary.toRat_ofNat]
  have hstart : (startY n y h).toRat = y.toRat - ((n : ℚ) * h.toRat - h.toRat) / 2 := by
    rw [startY, Binary.toRat_sub _ _ h3, Binary.toRat_half, Binary.toRat_sub _ _ h2, htotal]
  rw [lineY, Binary.toRat_add _ _ h6, hstart, Binary.toRat_mul _ _ h5, Binary.toRat_ofNat]

/-- C4, amended.  For every line count `n`, anchor `y` and line height `h` that are
doubles, `drawWrappedText` computes the position of line `i` (from 0) as
`y - (n * h - h) / 2 + i * h`, each operation rounded to a double.  When none of these
operations rounds, line `i` is exactly at that value, two consecutive lines are exactly
`h` apart, for `n >= 1` the midpoint between the first and the last line is exactly
`y`, and the `fillText` calls of a text of `n` lines, one a line and in order, are at
these positions. -/
theorem drawWrappedText_line_positions (b : Browser) (ctx : Ctx) (text : Str)
    (x maxWidth : JSNum) (n : ℕ) (y h : Binary) (hexact : NoRounding n y h) :
    (∀ i < n, (lineY n y h i).toRat
        = y.toRat - ((n : ℚ) * h.toRat - h.toRat) / 2 + (i : ℚ) * h.toRat) ∧
      (∀ i, i + 1 < n → (lineY n y h (i + 1)).toRat - (lineY n y h i).toRat = h.toRat) ∧
      (1 ≤ n → ((lineY n y h 0).toRat + (lineY n y h (n - 1)).toRat) / 2 = y.toRat) ∧
      ((breakIntoLines (b.measureText ctx.state) maxWidth text).length = n →
        fillTextCalls
            (drawWrappedText b ctx text x (JSNum.fin y.toRat) maxWidth (JSNum.fin h.toRat)).calls
          = fillTextCalls ctx.calls ++
            (breakIntoLines (b.measureText ctx.state) maxWidth text).enum.map (fun p =>
              (p.2, x, JSNum.fin (lineY n y h p.1).toRat))) := by
  have hline := lineY_exact n y h hexact
  refine ⟨hline, ?_, ?_, ?_⟩
  · intro i hi
    rw [hline (i + 1) hi, hline i (Nat.lt_of_succ_lt hi)]
    push_cast
    ring
  · intro hn
    have hcast : ((n - 1 : ℕ) : ℚ) = (n : ℚ) - 1 := by
      rw [Nat.cast_sub hn]; simp
    rw [hline 0 (by omega), hline (n - 1) (by omega), hcast]
    push_cast
    ring
  · intro hlen
    rw [drawWrappedText_fillTextCalls, hlen]
    congr 1
    apply List.map_congr_left
    intro p hp
    have hlt : p.1 < n := hlen ▸ List.fst_lt_of_mem_enum hp
    rw [hline p.1 hlt]

/-- The amended C4 on three lines at the anchor 960 with the line height 24: nothing
rounds, and the lines are at 936, 960 and 984. -/
theorem drawWrappedText_line_positions_witness :
    NoRounding 3 (Binary.ofNat 960) (Binary.ofNat 24) ∧
      (lineY 3 (Binary.ofNat 960) (Binary.ofNat 24) 0).toRat = 936 ∧
      (lineY 3 (Binary.ofNat 960) (Binary.ofNat 24) 1).toRat = 960 ∧
      (lineY 3 (Binary.ofNat 960) (Binary.ofNat 24) 2).toRat = 984 ∧
      (∀ i, i + 1 < 3 →
        (lineY 3 (Binary.ofNat 960) (Binary.ofNat 24) (i + 1)).toRat
          - (lineY 3 (Binary.ofNat 960) (Binary.ofNat 24) i).toRat
          = (Binary.ofNat 24).toRat) ∧
      fillTextCalls (drawWrappedText plainBrowser Ctx.fresh "ab cd e".toList (JSNum.fin 540)
          (JSNum.fin (Binary.ofNat 960).toRat) (JSNum.fin 3)
          (JSNum.fin (Binary.ofNat 24).toRat)).calls
        = fillTextCalls Ctx.fresh.calls ++
          (breakIntoLines (plainBrowser.measureText Ctx.fresh.state) (JSNum.fin 3)
            "ab cd e".toList).enum.map (fun p =>
              (p.2, JSNum.fin 540,
                JSNum.fin (lineY 3 (Binary.ofNat 960) (Binary.ofNat 24) p.1).toRat)) := by
  have hexact : NoRounding 3 (Binary.ofNat 960) (Binary.ofNat 24) := by
    refine ⟨Binary.exact_of_round_eq _ (by decide), Binary.exact_of_round_eq _ (by decide),
      Binary.exact_of_round_eq _ (by decide), ?_⟩
    intro i hi
    interval_cases i <;>
      exact ⟨Binary.exact_of_round_eq _ (by decide), Binary.exact_of_round_eq _ (by decide)⟩
  have hthm := drawWrappedText_line_positions plainBrowser Ctx.fresh "ab cd e".toList
    (JSNum.fin 540) (JSNum.fin 3) 3 (Binary.ofNat 960) (Binary.ofNat 24) hexact
  refine ⟨hexact, ?_, ?_, ?_, hthm.2.1, hthm.2.2.2 (by decide)⟩
  · rw [hthm.1 0 (by decide)]; simp [Binary.toRat_ofNat]; norm_num
  · rw [hthm.1 1 (by decide)]; simp [Binary.toRat_ofNat]; norm_num
  · rw [hthm.1 2 (by decide)]; simp [Binary.toRat_ofNat]; norm_num

theorem defaultLineHeight_value : defaultLineHeight = ⟨7816962210364503, -46⟩ := by
  set_option maxRecDepth 20000 in decide

/-- C4 as stated fails in the double arithmetic of the code.  A 24px text exported from
the surface 280 wide to 1080 has the line height `24 * (1080 / 280) * 1.2`, the double
7816962210364503 x 2^-46 (111.08571428571427); for two lines at the anchor 960 the
second line is not exactly that far from the first, and the midpoint of the two is not
exactly 960. -/
theorem line_spacing_is_rounded :
    defaultLineHeight = ⟨7816962210364503, -46⟩ ∧
      (lineY 2 (Binary.ofNat 960) defaultLineHeight 1).toRat
          - (lineY 2 (Binary.ofNat 960) defaultLineHeight 0).toRat
        ≠ defaultLineHeight.toRat ∧
      ((lineY 2 (Binary.ofNat 960) defaultLineHeight 0).toRat
          + (lineY 2 (Binary.ofNat 960) defaultLineHeight 1).toRat) / 2
        ≠ (Binary.ofNat 960).toRat := by
  refine ⟨defaultLineHeight_value, ?_, ?_⟩
  · rw [defaultLineHeight_value]
    intro heq
    have hzero : (((lineY 2 (Binary.ofNat 960) ⟨7816962210364503, -46⟩ 1).subExact
        (lineY 2 (Binary.ofNat 960) ⟨7816962210364503, -46⟩ 0)).subExact
          ⟨7816962210364503, -46⟩).toRat = 0 := by
      rw [Binary.toRat_subExact, Binary.toRat_subExact, heq, sub_self]
    rw [Binary.toRat_eq_zero] at hzero
    revert hzero
    set_option maxRecDepth 20000 in decide
  · rw [defaultLineHeight_value]
    intro heq
    have hzero : (((lineY 2 (Binary.ofNat 960) ⟨7816962210364503, -46⟩ 0).addExact
        (lineY 2 (Binary.ofNat 960) ⟨7816962210364503, -46⟩ 1)).half.subExact
          (Binary.ofNat 960)).toRat = 0 := by
      rw [Binary.toRat_subExact, Binary.toRat_half, Binary.toRat_addExact, heq, sub_self]
    rw [Binary.toRat_eq_zero] at hzero
    revert hzero
    set_option maxRecDepth 20000 in decide

end DACO
